import Mathlib

/-!
# Verification of the Kuntatinte color-science core

A shallow embedding, over `ℚ` (and `ℝ` for WCAG luminance), of the color
pipeline in `src/core/color_utils.py` and `src/core/imagemagick.py` and the
tonal-palette generator in `src/integrations/kuntatinte_colors.py`, together
with proofs and refutations of the specification claims about them.

Python floats are modeled as exact rationals; `round(x, 2)` is modeled as
round-half-to-even at two decimals, `int(x)` as truncation toward zero, and
`%` on rationals as Python's floored modulo.
-/

namespace Kuntatinte

/-- Python `round` to an integer: round half to even. -/
def pyRound (q : ℚ) : ℤ :=
  let n := ⌊q⌋
  let f := q - n
  if f < 1/2 then n
  else if 1/2 < f then n + 1
  else if Even n then n else n + 1

/-- Python `round(q, 2)`: round half to even at two decimal places. -/
def round2 (q : ℚ) : ℚ :=
  (pyRound (q * 100) : ℚ) / 100

/-- Python `%` on rationals (result has the sign of the divisor). -/
def pymod (a b : ℚ) : ℚ :=
  a - b * ⌊a / b⌋

/-- Python `int()` on a float: truncation toward zero. -/
def pyTrunc (q : ℚ) : ℤ :=
  if 0 ≤ q then ⌊q⌋ else ⌈q⌉

theorem pyRound_sub_le (q : ℚ) : |(pyRound q : ℚ) - q| ≤ 1/2 := by
  unfold pyRound
  have h0 : (0:ℚ) ≤ q - ⌊q⌋ := by
    have := Int.floor_le q; linarith
  have h1 : q - ⌊q⌋ < 1 := by
    have := Int.lt_floor_add_one q; linarith
  by_cases hc1 : q - (⌊q⌋ : ℚ) < 1/2
  · simp only [hc1, if_true]
    rw [abs_le]; constructor <;> linarith
  · by_cases hc2 : (1:ℚ)/2 < q - ⌊q⌋
    · simp only [hc1, hc2, if_true, if_false]
      rw [abs_le]; push_cast; constructor <;> linarith
    · have heq : q - (⌊q⌋ : ℚ) = 1/2 := by linarith
      by_cases he : Even ⌊q⌋
      · simp only [hc1, hc2, he, if_true, if_false]
        rw [abs_le]; constructor <;> linarith
      · simp only [hc1, hc2, he, if_true, if_false]
        rw [abs_le]; push_cast; constructor <;> linarith

theorem round2_sub_le (q : ℚ) : |round2 q - q| ≤ 1/200 := by
  unfold round2
  have h := pyRound_sub_le (q * 100)
  rw [abs_le] at h ⊢
  constructor <;> linarith

theorem pyRound_le_of_le {q : ℚ} {n : ℤ} (h : q ≤ n) : pyRound q ≤ n := by
  have hb := pyRound_sub_le q
  rw [abs_le] at hb
  have : (pyRound q : ℚ) < n + 1 := by linarith
  exact_mod_cast Int.lt_add_one_iff.mp (by exact_mod_cast this)

theorem le_pyRound_of_le {q : ℚ} {n : ℤ} (h : (n : ℚ) ≤ q) : n ≤ pyRound q := by
  have hb := pyRound_sub_le q
  rw [abs_le] at hb
  have : (n : ℚ) - 1 < pyRound q := by linarith
  have : (n : ℤ) - 1 < pyRound q := by exact_mod_cast this
  omega

theorem round2_le_int {q : ℚ} {n : ℤ} (h : q ≤ n) : round2 q ≤ n := by
  unfold round2
  have : pyRound (q * 100) ≤ n * 100 := pyRound_le_of_le (by push_cast; linarith)
  rw [div_le_iff₀ (by norm_num : (0:ℚ) < 100)]
  exact_mod_cast this

theorem int_le_round2 {q : ℚ} {n : ℤ} (h : (n : ℚ) ≤ q) : (n : ℚ) ≤ round2 q := by
  unfold round2
  have : n * 100 ≤ pyRound (q * 100) := le_pyRound_of_le (by push_cast; linarith)
  rw [le_div_iff₀ (by norm_num : (0:ℚ) < 100)]
  exact_mod_cast this

theorem round2_nonneg {q : ℚ} (h : 0 ≤ q) : 0 ≤ round2 q := by
  have := int_le_round2 (n := 0) (q := q) (by exact_mod_cast h)
  exact_mod_cast this

theorem floor_eq_of {q : ℚ} {n : ℤ} (h1 : (n : ℚ) ≤ q) (h2 : q < (n : ℚ) + 1) :
    ⌊q⌋ = n := by
  rw [Int.floor_eq_iff]
  exact ⟨h1, by exact_mod_cast h2⟩

theorem pyRound_eq_of {q : ℚ} {n : ℤ} (h1 : (n : ℚ) - 1/2 < q)
    (h2 : q < (n : ℚ) + 1/2) : pyRound q = n := by
  unfold pyRound
  rcases lt_or_ge q n with hq | hq
  · have hf : ⌊q⌋ = n - 1 := floor_eq_of (by push_cast; linarith) (by push_cast; linarith)
    rw [hf]
    have hfr1 : ¬(q - ((n - 1 : ℤ) : ℚ) < 1/2) := by push_cast; linarith
    have hfr2 : (1:ℚ)/2 < q - ((n - 1 : ℤ) : ℚ) := by push_cast; linarith
    simp only [hfr1, hfr2, if_true, if_false]
    omega
  · have hf : ⌊q⌋ = n := floor_eq_of (by exact_mod_cast hq) (by linarith)
    rw [hf]
    have hfr1 : q - ((n : ℤ) : ℚ) < 1/2 := by linarith
    simp only [hfr1, if_true]

theorem round2_eq_of {q : ℚ} {n : ℤ} (h : pyRound (q * 100) = n) :
    round2 q = (n : ℚ) / 100 := by
  unfold round2; rw [h]

theorem pymod_eq_of {a b : ℚ} {k : ℤ} (hb : 0 < b) (h1 : (k : ℚ) * b ≤ a)
    (h2 : a < ((k : ℚ) + 1) * b) : pymod a b = a - b * k := by
  unfold pymod
  have hf : ⌊a / b⌋ = k := by
    refine floor_eq_of ?_ ?_
    · rw [le_div_iff₀ hb]; linarith
    · rw [div_lt_iff₀ hb]; linarith
  rw [hf]

theorem pyTrunc_eq_of {q : ℚ} {n : ℤ} (h0 : 0 ≤ q) (h1 : (n : ℚ) ≤ q)
    (h2 : q < (n : ℚ) + 1) : pyTrunc q = n := by
  unfold pyTrunc
  rw [if_pos h0]
  exact floor_eq_of h1 h2

theorem pymod_nonneg (a : ℚ) {b : ℚ} (hb : 0 < b) : 0 ≤ pymod a b := by
  unfold pymod
  have h := Int.floor_le (a / b)
  have := mul_le_mul_of_nonneg_left h (le_of_lt hb)
  rw [mul_div_cancel₀ _ (ne_of_gt hb)] at this
  linarith

theorem pymod_lt (a : ℚ) {b : ℚ} (hb : 0 < b) : pymod a b < b := by
  unfold pymod
  have h := Int.lt_floor_add_one (a / b)
  have := mul_lt_mul_of_pos_left h hb
  rw [mul_add, mul_one, mul_div_cancel₀ _ (ne_of_gt hb)] at this
  linarith

-- ===========================================================================
-- Hex strings: digits, formatting, parsing
-- (embeds hex_to_rgb / rgb_to_hex / the formatting in hsl_to_hex,
--  src/core/color_utils.py)
-- ===========================================================================

/-- Value of one hexadecimal digit character (both cases), as in `int(s, 16)`,
decided arithmetically on the code point (48-57 are the digits, 97-102 the
lowercase and 65-70 the uppercase letters). -/
def hexDigitVal (c : Char) : Option ℕ :=
  if 48 ≤ c.toNat ∧ c.toNat ≤ 57 then some (c.toNat - 48)
  else if 97 ≤ c.toNat ∧ c.toNat ≤ 102 then some (c.toNat - 87)
  else if 65 ≤ c.toNat ∧ c.toNat ≤ 70 then some (c.toNat - 55)
  else none

def lowerHexDigits : List Char := "0123456789abcdef".data

def upperHexDigits : List Char := "0123456789ABCDEF".data

/-- `'{:02x}'.format n` for a byte value. -/
def byteToHexLower (n : ℕ) : List Char :=
  [lowerHexDigits.getD (n / 16) '0', lowerHexDigits.getD (n % 16) '0']

/-- `'{:02X}'.format n` for a byte value. -/
def byteToHexUpper (n : ℕ) : List Char :=
  [upperHexDigits.getD (n / 16) '0', upperHexDigits.getD (n % 16) '0']

/-- `rgb_to_hex`: format an RGB triple as a lowercase `#rrggbb` string. -/
def rgb_to_hex (r g b : ℕ) : String :=
  String.mk ('#' :: (byteToHexLower r ++ byteToHexLower g ++ byteToHexLower b))

/-- The uppercase `'#{0:02X}{1:02X}{2:02X}'` formatting used by `hsl_to_hex`. -/
def rgbToHexUpper (r g b : ℕ) : String :=
  String.mk ('#' :: (byteToHexUpper r ++ byteToHexUpper g ++ byteToHexUpper b))

/-- `hex_to_rgb`: strip leading `#` (Python `lstrip('#')`), require exactly six
hex digits, and parse the three channel bytes.  A malformed string raises
`ValueError` in the source; here that is `none`. -/
def hex_to_rgb (s : String) : Option (ℕ × ℕ × ℕ) :=
  match s.data.dropWhile (· == '#') with
  | [c1, c2, c3, c4, c5, c6] => do
    let d1 ← hexDigitVal c1
    let d2 ← hexDigitVal c2
    let d3 ← hexDigitVal c3
    let d4 ← hexDigitVal c4
    let d5 ← hexDigitVal c5
    let d6 ← hexDigitVal c6
    pure (d1 * 16 + d2, d3 * 16 + d4, d5 * 16 + d6)
  | _ => none

-- ===========================================================================
-- RGB ↔ HSL conversion (src/core/color_utils.py)
-- ===========================================================================

/-- The HSL dictionary returned by `rgb_to_hsl` (h 0–360, s 0–100, l 0–100). -/
structure HSL where
  h : ℚ
  s : ℚ
  l : ℚ
deriving DecidableEq, Repr

/-- The RGB dictionary returned by `hsl_to_rgb` (channels 0–255). -/
structure RGB where
  r : ℤ
  g : ℤ
  b : ℤ
deriving DecidableEq, Repr

/-- `rgb_to_hsl` from src/core/color_utils.py, on exact rationals. -/
def rgb_to_hsl (r g b : ℕ) : HSL :=
  let r' : ℚ := r / 255
  let g' : ℚ := g / 255
  let b' : ℚ := b / 255
  let mx := max r' (max g' b')
  let mn := min r' (min g' b')
  let diff := mx - mn
  let l := (mx + mn) / 2
  let hs : ℚ × ℚ :=
    if diff = 0 then (0, 0)
    else
      let s := diff / (1 - |2 * l - 1|)
      let h' :=
        if mx = r' then pymod ((g' - b') / diff) 6
        else if mx = g' then (b' - r') / diff + 2
        else (r' - g') / diff + 4
      let h := h' * 60
      let h := if h < 0 then h + 360 else h
      (h, s)
  ⟨round2 hs.1, round2 (hs.2 * 100), round2 (l * 100)⟩

/-- `hsl_to_rgb` from src/core/color_utils.py, on exact rationals. -/
def hsl_to_rgb (h s l : ℚ) : RGB :=
  let s' := s / 100
  let l' := l / 100
  let c := (1 - |2 * l' - 1|) * s'
  let x := c * (1 - |pymod (h / 60) 2 - 1|)
  let m := l' - c / 2
  let rgb1 : ℚ × ℚ × ℚ :=
    if 0 ≤ h ∧ h < 60 then (c, x, 0)
    else if 60 ≤ h ∧ h < 120 then (x, c, 0)
    else if 120 ≤ h ∧ h < 180 then (0, c, x)
    else if 180 ≤ h ∧ h < 240 then (0, x, c)
    else if 240 ≤ h ∧ h < 300 then (x, 0, c)
    else (c, 0, x)
  ⟨max 0 (min 255 (pyRound ((rgb1.1 + m) * 255))),
   max 0 (min 255 (pyRound ((rgb1.2.1 + m) * 255))),
   max 0 (min 255 (pyRound ((rgb1.2.2 + m) * 255)))⟩

/-- `hex_to_hsl` from src/core/color_utils.py. -/
def hex_to_hsl (s : String) : Option HSL :=
  (hex_to_rgb s).map fun rgb => rgb_to_hsl rgb.1 rgb.2.1 rgb.2.2

/-- `hsl_to_hex` from src/core/color_utils.py: wrap hue, clamp saturation and
lightness, convert, and format in uppercase. -/
def hsl_to_hex (h s l : ℚ) : String :=
  let rgb := hsl_to_rgb (pymod h 360) (max 0 (min 100 s)) (max 0 (min 100 l))
  rgbToHexUpper rgb.r.toNat rgb.g.toNat rgb.b.toNat

-- ===========================================================================
-- Color analysis helpers (src/core/color_utils.py)
-- ===========================================================================

/-- `normalize_color`: strip surrounding whitespace (Python `str.strip()`),
match `#?([0-9A-Fa-f]{6})` at the start (trailing characters are ignored, as
with `re.match`), and return the six digits lowercased behind a `#`. -/
def normalize_color (s : String) : Option String :=
  if s = "" then none
  else
    let t := ((s.data.dropWhile Char.isWhitespace).reverse.dropWhile
      Char.isWhitespace).reverse
    let t' := match t with
      | '#' :: rest => rest
      | l => l
    match t' with
    | c1 :: c2 :: c3 :: c4 :: c5 :: c6 :: _ =>
      if (hexDigitVal c1).isSome ∧ (hexDigitVal c2).isSome ∧
          (hexDigitVal c3).isSome ∧ (hexDigitVal c4).isSome ∧
          (hexDigitVal c5).isSome ∧ (hexDigitVal c6).isSome then
        some (String.mk ('#' :: [c1.toLower, c2.toLower, c3.toLower,
          c4.toLower, c5.toLower, c6.toLower]))
      else none
    | _ => none

/-- `calculate_hue_distance`: shortest circular hue distance. -/
def calculate_hue_distance (hue1 hue2 : ℚ) : ℚ :=
  let diff := |hue1 - hue2|
  if diff > 180 then 360 - diff else diff

/-- `is_dark_color`: lightness below a threshold. -/
def is_dark_color (s : String) (threshold : ℚ) : Option Bool :=
  (hex_to_hsl s).map fun hsl => hsl.l < threshold

/-- `blend_colors`: per-channel linear interpolation; Python `int()`
truncates the blended float channels. -/
def blend_colors (color1 color2 : String) (ratio : ℚ) : Option String := do
  let rgb1 ← hex_to_rgb color1
  let rgb2 ← hex_to_rgb color2
  let r := pyTrunc ((rgb1.1 : ℚ) + ((rgb2.1 : ℚ) - rgb1.1) * ratio)
  let g := pyTrunc ((rgb1.2.1 : ℚ) + ((rgb2.2.1 : ℚ) - rgb1.2.1) * ratio)
  let b := pyTrunc ((rgb1.2.2 : ℚ) + ((rgb2.2.2 : ℚ) - rgb1.2.2) * ratio)
  pure (rgb_to_hex r.toNat g.toNat b.toNat)

-- ===========================================================================
-- Palette variants and the slider (src/core/color_utils.py)
-- ===========================================================================

def VARIANT_CONTENT : ℕ := 0
def VARIANT_EXPRESSIVE : ℕ := 1
def VARIANT_FIDELITY : ℕ := 2
def VARIANT_MONOCHROME : ℕ := 3
def VARIANT_NEUTRAL : ℕ := 4
def VARIANT_TONALSPOT : ℕ := 5
def VARIANT_VIBRANT : ℕ := 6
def VARIANT_RAINBOW : ℕ := 7
def VARIANT_FRUITSALAD : ℕ := 8

/-- `apply_variant_to_color`.  `index / total` with `total = 0` cannot be
reached from `apply_variant_to_palette` (an empty palette maps over nothing);
rational division by zero stands in for the unreachable `ZeroDivisionError`. -/
def apply_variant_to_color (hex_color : String) (variant : ℕ)
    (index : ℕ) (total : ℕ) : Option String := do
  let hsl ← hex_to_hsl hex_color
  if variant = VARIANT_MONOCHROME then
    pure (hsl_to_hex hsl.h 0 hsl.l)
  else if variant = VARIANT_NEUTRAL then
    pure (hsl_to_hex hsl.h (hsl.s * (15/100)) hsl.l)
  else if variant = VARIANT_CONTENT then
    pure (hsl_to_hex hsl.h (hsl.s * (7/10)) hsl.l)
  else if variant = VARIANT_FIDELITY then
    pure (hsl_to_hex hsl.h (hsl.s * (9/10)) hsl.l)
  else if variant = VARIANT_TONALSPOT then
    pure hex_color
  else if variant = VARIANT_VIBRANT then
    pure (hsl_to_hex hsl.h (min 100 (hsl.s * (14/10))) hsl.l)
  else if variant = VARIANT_EXPRESSIVE then
    let new_s := min 100 (hsl.s * (13/10))
    let hue_shift := ((index : ℚ) - (total : ℚ) / 2) * 3
    let new_h := pymod (hsl.h + hue_shift) 360
    pure (hsl_to_hex new_h new_s hsl.l)
  else if variant = VARIANT_RAINBOW then
    let hue_offset := ((index : ℚ) / (total : ℚ)) * 360
    let new_h := pymod (hsl.h + hue_offset) 360
    pure (hsl_to_hex new_h (max 60 hsl.s) hsl.l)
  else if variant = VARIANT_FRUITSALAD then
    let hue_steps : List ℚ := [0, 30, 60, 120, 180, 210, 270, 300]
    let hue_offset := hue_steps.getD (index % 8) 0
    let new_h := pymod (hsl.h + hue_offset) 360
    pure (hsl_to_hex new_h (max 70 (min 100 (hsl.s * (12/10)))) hsl.l)
  else
    pure hex_color

/-- `apply_variant_to_palette`. -/
def apply_variant_to_palette (colors : List String) (variant : ℕ) :
    Option (List String) :=
  colors.enum.mapM fun ic =>
    apply_variant_to_color ic.2 variant ic.1 colors.length

/-- `interpolate_palette_variants`. -/
def interpolate_palette_variants (colors : List String)
    (from_variant to_variant : ℕ) (progress : ℚ) : Option (List String) := do
  let from_palette ← apply_variant_to_palette colors from_variant
  let to_palette ← apply_variant_to_palette colors to_variant
  (from_palette.zip to_palette).mapM fun ft =>
    blend_colors ft.1 ft.2 progress

/-- The `variant_sequence` used by the slider. -/
def variant_sequence : List ℕ :=
  [VARIANT_CONTENT, VARIANT_FIDELITY, VARIANT_NEUTRAL, VARIANT_MONOCHROME,
   VARIANT_TONALSPOT, VARIANT_VIBRANT, VARIANT_EXPRESSIVE, VARIANT_RAINBOW,
   VARIANT_FRUITSALAD]

/-- `get_palette_at_slider_position`. -/
def get_palette_at_slider_position (colors : List String) (slider_value : ℚ) :
    Option (List String) :=
  let num_segments : ℤ := 8
  let segment_size : ℚ := 100 / 8
  let sv := max 0 (min 100 slider_value)
  let segment_index0 := pyTrunc (sv / segment_size)
  let segment_index := if num_segments ≤ segment_index0 then num_segments - 1
    else segment_index0
  let segment_start := (segment_index : ℚ) * segment_size
  let progress := (sv - segment_start) / segment_size
  let from_variant := variant_sequence.getD segment_index.toNat 0
  let to_variant := variant_sequence.getD (segment_index.toNat + 1) 0
  interpolate_palette_variants colors from_variant to_variant progress

-- ===========================================================================
-- Image classification (src/core/imagemagick.py)
-- ===========================================================================

def MONOCHROME_SATURATION_THRESHOLD : ℚ := 15
def MONOCHROME_IMAGE_THRESHOLD : ℚ := 7/10
def LOW_DIVERSITY_THRESHOLD : ℚ := 3/5
def SIMILAR_HUE_RANGE : ℚ := 30
def SIMILAR_LIGHTNESS_RANGE : ℚ := 20

/-- `is_monochrome_image`.  An empty list divides by zero in the source
(`ZeroDivisionError`), modeled as `none`. -/
def is_monochrome_image (colors : List String) : Option Bool := do
  let hsls ← colors.mapM hex_to_hsl
  if colors.length = 0 then none
  else
    let low_sat := (hsls.filter fun c => c.s < MONOCHROME_SATURATION_THRESHOLD).length
    some ((low_sat : ℚ) / (colors.length : ℚ) > MONOCHROME_IMAGE_THRESHOLD)

/-- The ordered pairs (i, j), i < j, of a list, as visited by the nested
loops of `has_low_color_diversity`. -/
def listPairs : List α → List (α × α)
  | [] => []
  | x :: xs => (xs.map fun y => (x, y)) ++ listPairs xs

/-- `has_low_color_diversity`. -/
def has_low_color_diversity (colors : List String) : Option Bool := do
  let hsl_colors ← colors.mapM hex_to_hsl
  let chromatic_pairs := (listPairs hsl_colors).filter fun p =>
    ¬(p.1.s < MONOCHROME_SATURATION_THRESHOLD ∨
      p.2.s < MONOCHROME_SATURATION_THRESHOLD)
  let total := chromatic_pairs.length
  let similar := (chromatic_pairs.filter fun p =>
    calculate_hue_distance p.1.h p.2.h < SIMILAR_HUE_RANGE ∧
    |p.1.l - p.2.l| < SIMILAR_LIGHTNESS_RANGE).length
  if total = 0 then some false
  else some ((similar : ℚ) / (total : ℚ) > LOW_DIVERSITY_THRESHOLD)

inductive ImageClass where
  | Monochrome
  | LowDiversity
  | Chromatic
deriving DecidableEq, Repr

/-- The classification priority of `extract_colors_with_imagemagick`:
monochrome first, then low diversity, then chromatic. -/
def classify_image (colors : List String) : Option ImageClass := do
  let mono ← is_monochrome_image colors
  if mono then pure ImageClass.Monochrome
  else do
    let lowdiv ← has_low_color_diversity colors
    if lowdiv then pure ImageClass.LowDiversity
    else pure ImageClass.Chromatic

-- ===========================================================================
-- Palette generation constants and helpers (src/core/imagemagick.py)
-- ===========================================================================

def ANSI_PALETTE_SIZE : ℕ := 16
def MIN_CHROMATIC_SATURATION : ℚ := 15
def TOO_DARK_THRESHOLD : ℚ := 20
def TOO_BRIGHT_THRESHOLD : ℚ := 85
def VERY_DARK_BACKGROUND_THRESHOLD : ℚ := 20
def VERY_LIGHT_BACKGROUND_THRESHOLD : ℚ := 80
def MIN_BACKGROUND_LIGHTNESS_DARK : ℚ := 8
def MAX_BACKGROUND_LIGHTNESS_LIGHT : ℚ := 92
def MIN_LIGHTNESS_ON_DARK_BG : ℚ := 55
def MAX_LIGHTNESS_ON_LIGHT_BG : ℚ := 45
def MIN_FOREGROUND_CONTRAST : ℚ := 40
def ABSOLUTE_MIN_LIGHTNESS : ℚ := 25
def OUTLIER_LIGHTNESS_THRESHOLD : ℚ := 25
def BRIGHT_THEME_THRESHOLD : ℚ := 50
def DARK_COLOR_THRESHOLD : ℚ := 50
def SUBTLE_PALETTE_SATURATION : ℚ := 28
def MONOCHROME_SATURATION : ℚ := 5
def MONOCHROME_COLOR8_SATURATION_FACTOR : ℚ := 1/2
def BRIGHT_COLOR_LIGHTNESS_BOOST : ℚ := 18
def BRIGHT_COLOR_SATURATION_BOOST : ℚ := 125/100

def ANSI_HUE_ARRAY : List ℚ := [0, 120, 60, 240, 300, 180]

/-- `generate_bright_version`; the argument is `Optional[str]` in the source
and a falsy value (None or the empty string) yields black. -/
def generate_bright_version (hex_color : Option String) : Option String :=
  match hex_color with
  | none => some "#000000"
  | some hc =>
    if hc = "" then some "#000000"
    else
      (hex_to_hsl hc).map fun hsl =>
        hsl_to_hex hsl.h (min 100 (hsl.s * BRIGHT_COLOR_SATURATION_BOOST))
          (min 100 (hsl.l + BRIGHT_COLOR_LIGHTNESS_BOOST))

/-- `adjust_color_lightness`: re-emit a color at a target lightness. -/
def adjust_color_lightness (hex_color : String) (target_lightness : ℚ) :
    Option String :=
  (hex_to_hsl hex_color).map fun hsl => hsl_to_hex hsl.h hsl.s target_lightness

/-- An entry of the list built by `sort_colors_by_lightness`. -/
structure LColor where
  color : String
  lightness : ℚ
  hue : ℚ
deriving DecidableEq, Repr

/-- `sort_colors_by_lightness`: annotate with HSL and stable-sort by
lightness (Python's `list.sort` is stable; so is `List.mergeSort`). -/
def sort_colors_by_lightness (colors : List String) : Option (List LColor) := do
  let arr ← colors.mapM fun c => do
    let hsl ← hex_to_hsl c
    pure (⟨c, hsl.l, hsl.h⟩ : LColor)
  pure (arr.mergeSort fun a b => a.lightness ≤ b.lightness)

/-- `find_background_color`'s result dictionary. -/
structure ColorPick where
  color : String
  index : ℕ
deriving DecidableEq, Repr

/-- `find_background_color`.  The running best distance in the fallback scan
starts at `float('inf')`, modeled by `none`. -/
def find_background_color (colors : List String) (light_mode : Bool) :
    Option ColorPick := do
  let hsls ← colors.mapM hex_to_hsl
  let scan := hsls.enum.foldl
    (fun (acc : ℤ × ℚ) ih =>
      if light_mode then
        if ih.2.l > acc.2 ∧ ih.2.l ≤ MAX_BACKGROUND_LIGHTNESS_LIGHT then
          ((ih.1 : ℤ), ih.2.l)
        else acc
      else
        if ih.2.l < acc.2 ∧ ih.2.l ≥ MIN_BACKGROUND_LIGHTNESS_DARK then
          ((ih.1 : ℤ), ih.2.l)
        else acc)
    (-1, if light_mode then -1 else 101)
  let bg_index : ℕ ←
    if scan.1 = -1 then
      let target := if light_mode then MAX_BACKGROUND_LIGHTNESS_LIGHT
        else MIN_BACKGROUND_LIGHTNESS_DARK
      let closest := hsls.enum.foldl
        (fun (acc : ℕ × Option ℚ) ih =>
          let d := |ih.2.l - target|
          match acc.2 with
          | none => (ih.1, some d)
          | some bd => if d < bd then (ih.1, some d) else acc)
        (0, none)
      pure closest.1
    else pure scan.1.toNat
  let selected ← colors.get? bg_index
  let selected_hsl ← hex_to_hsl selected
  if ¬light_mode ∧ selected_hsl.l < MIN_BACKGROUND_LIGHTNESS_DARK then
    pure ⟨hsl_to_hex selected_hsl.h selected_hsl.s MIN_BACKGROUND_LIGHTNESS_DARK,
      bg_index⟩
  else if light_mode ∧ selected_hsl.l > MAX_BACKGROUND_LIGHTNESS_LIGHT then
    pure ⟨hsl_to_hex selected_hsl.h selected_hsl.s MAX_BACKGROUND_LIGHTNESS_LIGHT,
      bg_index⟩
  else
    pure ⟨selected, bg_index⟩

/-- `find_foreground_color`. -/
def find_foreground_color (colors : List String) (light_mode : Bool)
    (used_indices : List ℕ) (bg_lightness : ℚ) : Option ColorPick := do
  let hsls ← colors.mapM hex_to_hsl
  let scan := hsls.enum.foldl
    (fun (acc : ℤ × ℚ) ih =>
      if ih.1 ∈ used_indices then acc
      else if light_mode then
        if ih.2.l < acc.2 then ((ih.1 : ℤ), ih.2.l) else acc
      else
        if ih.2.l > acc.2 then ((ih.1 : ℤ), ih.2.l) else acc)
    (-1, if light_mode then 101 else -1)
  if scan.1 = -1 then
    let target := if light_mode then max 0 (bg_lightness - MIN_FOREGROUND_CONTRAST)
      else min 100 (bg_lightness + MIN_FOREGROUND_CONTRAST)
    pure ⟨hsl_to_hex 0 0 target, 0⟩
  else do
    let fg_index := scan.1.toNat
    let selected ← colors.get? fg_index
    let selected_hsl ← hex_to_hsl selected
    let contrast := |selected_hsl.l - bg_lightness|
    if contrast < MIN_FOREGROUND_CONTRAST then
      let target := if light_mode then max 0 (bg_lightness - MIN_FOREGROUND_CONTRAST)
        else min 100 (bg_lightness + MIN_FOREGROUND_CONTRAST)
      pure ⟨hsl_to_hex selected_hsl.h selected_hsl.s target, fg_index⟩
    else
      pure ⟨selected, fg_index⟩

/-- `calculate_color_score`. -/
def calculate_color_score (hsl : HSL) (target_hue : ℚ) : ℚ :=
  let hue_diff := calculate_hue_distance hsl.h target_hue * 3
  let saturation_penalty : ℚ := if hsl.s < MIN_CHROMATIC_SATURATION then 50 else 0
  let lightness_penalty : ℚ :=
    if hsl.l < TOO_DARK_THRESHOLD ∨ hsl.l > TOO_BRIGHT_THRESHOLD then 10 else 0
  hue_diff + saturation_penalty + lightness_penalty

/-- `find_best_color_match`.  The running best score starts at
`float('inf')`, modeled by `none`. -/
def find_best_color_match (target_hue : ℚ) (color_pool : List String)
    (used_indices : List ℕ) : Option ℕ := do
  let hsls ← color_pool.mapM hex_to_hsl
  let scan := hsls.enum.foldl
    (fun (acc : ℤ × Option ℚ) ih =>
      if ih.1 ∈ used_indices then acc
      else
        let score := calculate_color_score ih.2 target_hue
        match acc.2 with
        | none => ((ih.1 : ℤ), some score)
        | some best => if score < best then ((ih.1 : ℤ), some score) else acc)
    (-1, none)
  if scan.1 = -1 then
    match (List.range color_pool.length).find? (fun i => ¬(i ∈ used_indices)) with
    | some i => pure i
    | none => pure 0
  else pure scan.1.toNat

-- ===========================================================================
-- The three palette generators (src/core/imagemagick.py)
-- ===========================================================================

/-- `generate_subtle_balanced_palette` (low-diversity images). -/
def generate_subtle_balanced_palette (dominant_colors : List String)
    (light_mode : Bool) : Option (List (Option String)) := do
  let sorted_by_lightness ← sort_colors_by_lightness dominant_colors
  let darkest ← sorted_by_lightness.head?
  let lightest ← sorted_by_lightness.getLast?
  let hsls ← dominant_colors.mapM hex_to_hsl
  let chromatic := hsls.filter fun c => c.s > MONOCHROME_SATURATION_THRESHOLD
  let avg_hue :=
    if chromatic ≠ [] then (chromatic.map HSL.h).sum / (chromatic.length : ℚ)
    else darkest.hue
  let palette : List (Option String) := List.replicate ANSI_PALETTE_SIZE none
  let palette := palette.set 0
    (some (if light_mode then lightest.color else darkest.color))
  let palette := palette.set 7
    (some (if light_mode then darkest.color else lightest.color))
  let palette := ANSI_HUE_ARRAY.enum.foldl
    (fun pal ih =>
      let lightness := 50 + ((ih.1 : ℚ) - 5/2) * 4
      pal.set (ih.1 + 1) (some (hsl_to_hex ih.2 SUBTLE_PALETTE_SATURATION lightness)))
    palette
  let color8_lightness :=
    if light_mode then max 0 (lightest.lightness - 15)
    else min 100 (darkest.lightness + 15)
  let palette := palette.set 8
    (some (hsl_to_hex avg_hue (SUBTLE_PALETTE_SATURATION * (1/2)) color8_lightness))
  let bright_saturation := SUBTLE_PALETTE_SATURATION + 8
  let palette := ANSI_HUE_ARRAY.enum.foldl
    (fun pal ih =>
      let base_lightness := 50 + ((ih.1 : ℚ) - 5/2) * 4
      let adjustment : ℚ := if light_mode then -8 else 8
      let lightness := max 0 (min 100 (base_lightness + adjustment))
      pal.set (ih.1 + 9) (some (hsl_to_hex ih.2 bright_saturation lightness)))
    palette
  let palette := palette.set 15
    (some (if light_mode then
        hsl_to_hex avg_hue (SUBTLE_PALETTE_SATURATION * (3/10))
          (max 0 (darkest.lightness - 5))
      else
        hsl_to_hex avg_hue (SUBTLE_PALETTE_SATURATION * (3/10))
          (min 100 (lightest.lightness + 5))))
  pure palette

/-- `generate_monochrome_palette` (grayscale images). -/
def generate_monochrome_palette (gray_colors : List String)
    (light_mode : Bool) : Option (List (Option String)) := do
  let sorted_by_lightness ← sort_colors_by_lightness gray_colors
  let darkest ← sorted_by_lightness.head?
  let lightest ← sorted_by_lightness.getLast?
  let base_hue := darkest.hue
  let palette : List (Option String) := List.replicate ANSI_PALETTE_SIZE none
  let palette := palette.set 0
    (some (if light_mode then lightest.color else darkest.color))
  let palette := palette.set 7
    (some (if light_mode then darkest.color else lightest.color))
  let MIN_STEP : ℚ := 3
  let se : ℚ × ℚ :=
    if light_mode then
      let startL := darkest.lightness + 10
      let endL := min (darkest.lightness + 40) (lightest.lightness - 10)
      if endL ≤ startL then (max 0 darkest.lightness, min 100 lightest.lightness)
      else (startL, endL)
    else
      let startL := max (darkest.lightness + 30) (lightest.lightness - 40)
      let endL := lightest.lightness - 10
      if endL ≤ startL then (max 0 (darkest.lightness + 10), min 100 lightest.lightness)
      else (startL, endL)
  let rng := max (se.2 - se.1) (MIN_STEP * 5)
  let step := rng / 5
  let palette := ([1, 2, 3, 4, 5, 6] : List ℕ).foldl
    (fun pal (i : ℕ) =>
      let lightness := max 0 (min 100 (se.1 + ((i : ℚ) - 1) * step))
      pal.set i (some (hsl_to_hex base_hue MONOCHROME_SATURATION lightness)))
    palette
  let color8_lightness :=
    if light_mode then max 0 (darkest.lightness + 5)
    else min 100 (lightest.lightness - 25)
  let palette := palette.set 8
    (some (hsl_to_hex base_hue
      (MONOCHROME_SATURATION * MONOCHROME_COLOR8_SATURATION_FACTOR)
      color8_lightness))
  let palette ← ([1, 2, 3, 4, 5, 6] : List ℕ).foldlM
    (fun (pal : List (Option String)) i => do
      let hsl ← (pal.getD i none).bind hex_to_hsl
      let adjustment : ℚ := if light_mode then -10 else 10
      let newL := max 0 (min 100 (hsl.l + adjustment))
      pure (pal.set (i + 8) (some (hsl_to_hex base_hue MONOCHROME_SATURATION newL))))
    palette
  let palette := palette.set 15
    (some (if light_mode then hsl_to_hex base_hue 2 (max 0 (darkest.lightness - 5))
      else hsl_to_hex base_hue 2 (min 100 (lightest.lightness + 5))))
  pure palette

/-- `generate_chromatic_palette` (diverse images). -/
def generate_chromatic_palette (dominant_colors : List String)
    (light_mode : Bool) : Option (List (Option String)) := do
  let background ← find_background_color dominant_colors light_mode
  let used0 : List ℕ := [background.index]
  let bg_hsl ← hex_to_hsl background.color
  let foreground ← find_foreground_color dominant_colors light_mode used0 bg_hsl.l
  let used1 := used0 ++ [foreground.index]
  let palette : List (Option String) := List.replicate ANSI_PALETTE_SIZE none
  let palette := palette.set 0 (some background.color)
  let palette := palette.set 7 (some foreground.color)
  let pu ← ANSI_HUE_ARRAY.enum.foldlM
    (fun (pu : List (Option String) × List ℕ) ih => do
      let match_index ← find_best_color_match ih.2 dominant_colors pu.2
      let c ← dominant_colors.get? match_index
      pure (pu.1.set (ih.1 + 1) (some c), pu.2 ++ [match_index]))
    (palette, used1)
  let palette := pu.1
  let bg_is_dark ← is_dark_color background.color DARK_COLOR_THRESHOLD
  let color8_lightness :=
    if bg_is_dark then min 100 (bg_hsl.l + 15) else max 0 (bg_hsl.l - 15)
  let palette := palette.set 8
    (some (hsl_to_hex bg_hsl.h (bg_hsl.s * (1/2)) color8_lightness))
  let palette ← ([1, 2, 3, 4, 5, 6] : List ℕ).foldlM
    (fun (pal : List (Option String)) i => do
      let bright ← generate_bright_version (pal.getD i none)
      pure (pal.set (i + 8) (some bright)))
    palette
  let fg_bright ← generate_bright_version (some foreground.color)
  let palette := palette.set 15 (some fg_bright)
  pure palette

-- ===========================================================================
-- Brightness normalization (src/core/imagemagick.py)
-- ===========================================================================

/-- An entry of the `ansi_colors` list built inside `normalize_brightness`. -/
structure ColorInfo where
  index : ℕ
  lightness : ℚ
  hue : ℚ
  saturation : ℚ
deriving DecidableEq, Repr

/-- `adjust_color_for_dark_background` (mutates the palette in place in the
source; here the updated palette is returned). -/
def adjust_color_for_dark_background (palette : List String) (ci : ColorInfo) :
    Option (List String) :=
  if ci.lightness ≥ MIN_LIGHTNESS_ON_DARK_BG then some palette
  else do
    let adjusted := MIN_LIGHTNESS_ON_DARK_BG + (ci.index : ℚ) * 3
    let pal := if palette.getD ci.index "" = "" then palette.set ci.index "#000000"
      else palette
    let newc ← adjust_color_lightness (pal.getD ci.index "") adjusted
    let pal := pal.set ci.index newc
    if 1 ≤ ci.index ∧ ci.index ≤ 6 then do
      let bright ← generate_bright_version (some (pal.getD ci.index ""))
      pure (pal.set (ci.index + 8) bright)
    else pure pal

/-- `adjust_color_for_light_background`. -/
def adjust_color_for_light_background (palette : List String) (ci : ColorInfo) :
    Option (List String) :=
  if ci.lightness ≤ MAX_LIGHTNESS_ON_LIGHT_BG then some palette
  else do
    let adjusted := max ABSOLUTE_MIN_LIGHTNESS
      (MAX_LIGHTNESS_ON_LIGHT_BG - (ci.index : ℚ) * 2)
    let pal := if palette.getD ci.index "" = "" then palette.set ci.index "#000000"
      else palette
    let newc ← adjust_color_lightness (pal.getD ci.index "") adjusted
    let pal := pal.set ci.index newc
    if 1 ≤ ci.index ∧ ci.index ≤ 6 then do
      let bright ← generate_bright_version (some (pal.getD ci.index ""))
      pure (pal.set (ci.index + 8) bright)
    else pure pal

/-- `adjust_outlier_color`. -/
def adjust_outlier_color (palette : List String) (outlier : ColorInfo)
    (avg_lightness : ℚ) (is_bright_theme : Bool) : Option (List String) :=
  let is_dark_outlier_in_bright :=
    is_bright_theme ∧ outlier.lightness < avg_lightness - OUTLIER_LIGHTNESS_THRESHOLD
  let is_bright_outlier_in_dark :=
    ¬is_bright_theme ∧ outlier.lightness > avg_lightness + OUTLIER_LIGHTNESS_THRESHOLD
  if ¬is_dark_outlier_in_bright ∧ ¬is_bright_outlier_in_dark then some palette
  else do
    let adjusted := if is_dark_outlier_in_bright then avg_lightness - 10
      else avg_lightness + 10
    let pal := if palette.getD outlier.index "" = "" then
        palette.set outlier.index "#000000"
      else palette
    let newc ← adjust_color_lightness (pal.getD outlier.index "") adjusted
    let pal := pal.set outlier.index newc
    if 1 ≤ outlier.index ∧ outlier.index ≤ 6 then do
      let bright ← generate_bright_version (some (pal.getD outlier.index ""))
      pure (pal.set (outlier.index + 8) bright)
    else pure pal

/-- `normalize_brightness`.  Notes kept faithful to the source:

* `pal_strs` is a fresh list with `None` entries defaulted to `'#000000'`;
  it is the value returned.
* the background clamp writes the re-lit color into the *caller's* `palette`
  argument, not into `pal_strs`; only the local `bg_lightness` is updated,
  so the returned index 0 keeps the unclamped color.
* the very-dark and very-light paths return immediately after adjusting
  indices 1–7, skipping the color-8/color-15 logic below them.
* on the remaining (mid) path `is_very_dark` is false, so the color-8 branch
  is unreachable and the color-15 target is `max 0 (bg - 50)`.
* every index 0–15 is read on some path, so a list shorter than 16 raises
  `IndexError` in the source; that is coarsely modeled by the length gate. -/
def normalize_brightness (palette : List (Option String)) : Option (List String) :=
  let pal_strs : List String := palette.map fun p => p.getD "#000000"
  if 16 ≤ pal_strs.length then do
    let bg_hsl ← hex_to_hsl (pal_strs.getD 0 "")
    let bg_lightness :=
      if bg_hsl.l < MIN_BACKGROUND_LIGHTNESS_DARK then MIN_BACKGROUND_LIGHTNESS_DARK
      else if bg_hsl.l > MAX_BACKGROUND_LIGHTNESS_LIGHT then MAX_BACKGROUND_LIGHTNESS_LIGHT
      else bg_hsl.l
    let is_very_dark := bg_lightness < VERY_DARK_BACKGROUND_THRESHOLD
    let is_very_light := bg_lightness > VERY_LIGHT_BACKGROUND_THRESHOLD
    let ansi_colors ← ([1, 2, 3, 4, 5, 6, 7] : List ℕ).mapM fun i => do
      let hsl ← hex_to_hsl (pal_strs.getD i "")
      pure (⟨i, hsl.l, hsl.h, hsl.s⟩ : ColorInfo)
    let avg_lightness :=
      (ansi_colors.map ColorInfo.lightness).sum / (ansi_colors.length : ℚ)
    let is_bright_theme := avg_lightness > BRIGHT_THEME_THRESHOLD
    if is_very_dark then
      ansi_colors.foldlM adjust_color_for_dark_background pal_strs
    else if is_very_light then
      ansi_colors.foldlM adjust_color_for_light_background pal_strs
    else do
      let outliers := ansi_colors.filter fun c =>
        |c.lightness - avg_lightness| > OUTLIER_LIGHTNESS_THRESHOLD
      let pal1 ← outliers.foldlM
        (fun pal out => adjust_outlier_color pal out avg_lightness is_bright_theme)
        pal_strs
      let color8_hsl ← hex_to_hsl (pal1.getD 8 "")
      let pal2 :=
        if is_very_dark ∧ color8_hsl.l < MIN_LIGHTNESS_ON_DARK_BG then
          pal1.set 8 (hsl_to_hex color8_hsl.h color8_hsl.s
            (min MIN_LIGHTNESS_ON_DARK_BG (bg_lightness + 15)))
        else pal1
      let color15_hsl ← hex_to_hsl (pal2.getD 15 "")
      let color15_contrast := |color15_hsl.l - bg_lightness|
      if color15_contrast < MIN_FOREGROUND_CONTRAST then
        let target :=
          if is_very_dark then min 100 (bg_lightness + MIN_FOREGROUND_CONTRAST + 10)
          else max 0 (bg_lightness - MIN_FOREGROUND_CONTRAST - 10)
        pure (pal2.set 15 (hsl_to_hex color15_hsl.h color15_hsl.s target))
      else pure pal2
  else none

-- ===========================================================================
-- The extraction pipeline after dominant-color extraction
-- (src/core/imagemagick.py, extract_colors_with_imagemagick)
-- ===========================================================================

/-- The two kinds of exception the pipeline can raise: the explicit
`RuntimeError('Not enough colors extracted from image')` and the
`ValueError` a malformed color string would raise inside a conversion. -/
inductive PyErr where
  | runtimeErr (msg : String)
  | valueErr
deriving DecidableEq, Repr

/-- The color-pipeline part of `extract_colors_with_imagemagick`: the
insufficient-colors check, classification, synthesis by class, and
normalization (caching is I/O and out of scope). -/
def extract_colors_pipeline (dominant : List String) (light_mode : Bool) :
    Except PyErr (List String) :=
  if dominant.length < 8 then
    Except.error (PyErr.runtimeErr "Not enough colors extracted from image")
  else
    let run : Option (List String) := do
      let cls ← classify_image dominant
      let palette ←
        match cls with
        | ImageClass.Monochrome => generate_monochrome_palette dominant light_mode
        | ImageClass.LowDiversity => generate_subtle_balanced_palette dominant light_mode
        | ImageClass.Chromatic => generate_chromatic_palette dominant light_mode
      normalize_brightness palette
    match run with
    | some pal => Except.ok pal
    | none => Except.error PyErr.valueErr

-- ===========================================================================
-- Tonal palette generation (src/integrations/kuntatinte_colors.py)
-- ===========================================================================

/-- `generate_tonal_palette`: the source builds the dict
`{tone: hsl_to_hex(hsl['h'], hsl['s'], tone) for tone in range(0, 101)}`
(with `new_l = tone`); the dict is modeled as its lookup function, meaningful
for tones 0–100. -/
def generate_tonal_palette (base_color : String) : Option (ℕ → String) :=
  (hex_to_hsl base_color).map fun hsl => fun tone =>
    hsl_to_hex hsl.h hsl.s (tone : ℚ)

-- ===========================================================================
-- WCAG luminance, contrast and best-contrast selection
-- (src/core/color_utils.py; the 2.4-power gamma decode lives in ℝ)
-- ===========================================================================

/-- The `srgb_to_linear` helper inside `get_luminance`. -/
noncomputable def srgb_to_linear (c : ℕ) : ℝ :=
  let c_norm : ℝ := (c : ℝ) / 255
  if c_norm ≤ 0.04045 then c_norm / 12.92
  else ((c_norm + 0.055) / 1.055) ^ (2.4 : ℝ)

/-- `get_luminance`: WCAG 2.0 relative luminance. -/
noncomputable def get_luminance (hex_color : String) : Option ℝ :=
  (hex_to_rgb hex_color).map fun rgb =>
    0.2126 * srgb_to_linear rgb.1 + 0.7152 * srgb_to_linear rgb.2.1 +
      0.0722 * srgb_to_linear rgb.2.2

/-- `get_contrast_ratio` (named `get_contrast_value` here): the WCAG contrast
quotient (lighter + 0.05) / (darker + 0.05). -/
noncomputable def get_contrast_value (color1 color2 : String) : Option ℝ := do
  let lum1 ← get_luminance color1
  let lum2 ← get_luminance color2
  pure ((max lum1 lum2 + 0.05) / (min lum1 lum2 + 0.05))

/-- `get_best_contrast`: filter candidates through `normalize_color`, fall
back to black/white by base luminance when none are valid, otherwise keep the
first candidate of maximal contrast (strict `>` keeps the earliest). -/
noncomputable def get_best_contrast (base_color : String)
    (candidates : List String) : Option String :=
  let valid_candidates := candidates.filterMap normalize_color
  match valid_candidates with
  | [] =>
    (get_luminance base_color).map fun base_lum =>
      if base_lum > 0.5 then "#000000" else "#ffffff"
  | c0 :: rest => do
    let bc0 ← get_contrast_value base_color c0
    let final ← rest.foldlM
      (fun (acc : String × ℝ) c => do
        let contrast ← get_contrast_value base_color c
        pure (if contrast > acc.2 then (c, contrast) else acc))
      (c0, bc0)
    pure final.1

theorem rgb_to_hsl_bounds (r g b : ℕ) (hr : r ≤ 255) (hg : g ≤ 255) (hb : b ≤ 255) :
    0 ≤ (rgb_to_hsl r g b).h ∧ (rgb_to_hsl r g b).h ≤ 360 ∧
    0 ≤ (rgb_to_hsl r g b).s ∧ (rgb_to_hsl r g b).s ≤ 100 ∧
    0 ≤ (rgb_to_hsl r g b).l ∧ (rgb_to_hsl r g b).l ≤ 100 := by
  unfold rgb_to_hsl
  dsimp only
  set r' : ℚ := (r:ℚ)/255 with hr'
  set g' : ℚ := (g:ℚ)/255 with hg'
  set b' : ℚ := (b:ℚ)/255 with hb'
  have h0r : 0 ≤ r' := by positivity
  have h0g : 0 ≤ g' := by positivity
  have h0b : 0 ≤ b' := by positivity
  have h1r : r' ≤ 1 := by
    rw [hr', div_le_one (by norm_num)]; exact_mod_cast hr
  have h1g : g' ≤ 1 := by
    rw [hg', div_le_one (by norm_num)]; exact_mod_cast hg
  have h1b : b' ≤ 1 := by
    rw [hb', div_le_one (by norm_num)]; exact_mod_cast hb
  set mx : ℚ := r' ⊔ (g' ⊔ b') with hmx
  set mn : ℚ := r' ⊓ (g' ⊓ b') with hmn
  have hmnmx : mn ≤ mx := le_trans inf_le_left le_sup_left
  have hmx1 : mx ≤ 1 := sup_le h1r (sup_le h1g h1b)
  have hmn0 : 0 ≤ mn := le_inf h0r (le_inf h0g h0b)
  have hrmx : r' ≤ mx := le_sup_left
  have hgmx : g' ≤ mx := le_trans le_sup_left le_sup_right
  have hbmx : b' ≤ mx := le_trans le_sup_right le_sup_right
  have hmnr : mn ≤ r' := inf_le_left
  have hmng : mn ≤ g' := le_trans inf_le_right inf_le_left
  have hmnb : mn ≤ b' := le_trans inf_le_right inf_le_right
  set diff : ℚ := mx - mn with hdiff
  have hdiff0 : 0 ≤ diff := by rw [hdiff]; linarith
  have hl0 : 0 ≤ (mx + mn) / 2 * 100 := by linarith
  have hl1 : (mx + mn) / 2 * 100 ≤ (100 : ℤ) := by push_cast; linarith
  by_cases hd : diff = 0
  · rw [hd]
    norm_num
    refine ⟨round2_nonneg le_rfl, ?_, round2_nonneg le_rfl, ?_,
      round2_nonneg hl0, ?_⟩
    · exact_mod_cast round2_le_int (n := 360) (by norm_num)
    · exact_mod_cast round2_le_int (n := 100) (by norm_num)
    · exact_mod_cast round2_le_int hl1
  · rw [if_neg hd]
    dsimp only
    have hdpos : 0 < diff := lt_of_le_of_ne hdiff0 (Ne.symm hd)
    set ch : ℚ := (if mx = r' then pymod ((g' - b') / diff) 6
        else if mx = g' then (b' - r') / diff + 2
        else (r' - g') / diff + 4) with hchdef
    have hch0 : 0 ≤ ch := by
      rw [hchdef]; split_ifs with e1 e2
      · exact pymod_nonneg _ (by norm_num)
      · have hlb : (-1 : ℚ) ≤ (b' - r') / diff := by
          rw [neg_le, ← neg_div, div_le_one hdpos]; linarith
        linarith
      · have hlb : (-1 : ℚ) ≤ (r' - g') / diff := by
          rw [neg_le, ← neg_div, div_le_one hdpos]; linarith
        linarith
    have hch6 : ch ≤ 6 := by
      rw [hchdef]; split_ifs with e1 e2
      · exact le_of_lt (pymod_lt _ (by norm_num))
      · have hub : (b' - r') / diff ≤ 1 := by rw [div_le_one hdpos]; linarith
        linarith
      · have hub : (r' - g') / diff ≤ 1 := by rw [div_le_one hdpos]; linarith
        linarith
    have he : 2 * ((mx + mn) / 2) - 1 = mx + mn - 1 := by ring
    have habs : |mx + mn - 1| ≤ 1 - diff :=
      abs_le.mpr ⟨by rw [hdiff]; linarith, by rw [hdiff]; linarith⟩
    have hdenpos : 0 < 1 - |2 * ((mx + mn) / 2) - 1| := by rw [he]; linarith
    have hs0 : 0 ≤ diff / (1 - |2 * ((mx + mn) / 2) - 1|) * 100 := by
      have := div_nonneg hdiff0 (le_of_lt hdenpos)
      linarith
    have hs1 : diff / (1 - |2 * ((mx + mn) / 2) - 1|) * 100 ≤ ((100 : ℤ) : ℚ) := by
      have : diff / (1 - |2 * ((mx + mn) / 2) - 1|) ≤ 1 := by
        rw [div_le_one hdenpos, he]; linarith
      push_cast; linarith
    refine ⟨?_, ?_, round2_nonneg hs0, by exact_mod_cast round2_le_int hs1,
      round2_nonneg hl0, by exact_mod_cast round2_le_int hl1⟩
    · split_ifs with hneg
      · exact round2_nonneg (by linarith)
      · exact round2_nonneg (by linarith)
    · split_ifs with hneg
      · exact absurd hneg (not_lt.mpr (by linarith))
      · exact_mod_cast round2_le_int (n := 360) (by push_cast; linarith)

theorem hsl_to_rgb_range (h s l : ℚ) :
    0 ≤ (hsl_to_rgb h s l).r ∧ (hsl_to_rgb h s l).r ≤ 255 ∧
    0 ≤ (hsl_to_rgb h s l).g ∧ (hsl_to_rgb h s l).g ≤ 255 ∧
    0 ≤ (hsl_to_rgb h s l).b ∧ (hsl_to_rgb h s l).b ≤ 255 := by
  unfold hsl_to_rgb
  dsimp only
  refine ⟨le_max_left _ _, ?_, le_max_left _ _, ?_, le_max_left _ _, ?_⟩ <;>
    exact max_le (by norm_num) (min_le_left _ _)

/-- C9: no color conversion lets an out-of-range channel escape:
`hsl_to_rgb` always returns integer channels in [0,255] (and, being a total
function of any rational HSL triple, never raises), and for byte inputs
`rgb_to_hsl` returns h in [0,360], s and l in [0,100]. -/
theorem C9_conversions_clamp (h s l : ℚ) (r g b : ℕ)
    (hr : r ≤ 255) (hg : g ≤ 255) (hb : b ≤ 255) :
    (0 ≤ (hsl_to_rgb h s l).r ∧ (hsl_to_rgb h s l).r ≤ 255 ∧
     0 ≤ (hsl_to_rgb h s l).g ∧ (hsl_to_rgb h s l).g ≤ 255 ∧
     0 ≤ (hsl_to_rgb h s l).b ∧ (hsl_to_rgb h s l).b ≤ 255) ∧
    (0 ≤ (rgb_to_hsl r g b).h ∧ (rgb_to_hsl r g b).h ≤ 360 ∧
     0 ≤ (rgb_to_hsl r g b).s ∧ (rgb_to_hsl r g b).s ≤ 100 ∧
     0 ≤ (rgb_to_hsl r g b).l ∧ (rgb_to_hsl r g b).l ≤ 100) :=
  ⟨hsl_to_rgb_range h s l, rgb_to_hsl_bounds r g b hr hg hb⟩

theorem C9_conversions_clamp_witness :
    (200 ≤ 255 ∧ 10 ≤ 255 ∧ 255 ≤ 255) ∧
    ((0 ≤ (hsl_to_rgb (-4321/10) 175 (-3)).r ∧ (hsl_to_rgb (-4321/10) 175 (-3)).r ≤ 255 ∧
      0 ≤ (hsl_to_rgb (-4321/10) 175 (-3)).g ∧ (hsl_to_rgb (-4321/10) 175 (-3)).g ≤ 255 ∧
      0 ≤ (hsl_to_rgb (-4321/10) 175 (-3)).b ∧ (hsl_to_rgb (-4321/10) 175 (-3)).b ≤ 255) ∧
     (0 ≤ (rgb_to_hsl 200 10 255).h ∧ (rgb_to_hsl 200 10 255).h ≤ 360 ∧
      0 ≤ (rgb_to_hsl 200 10 255).s ∧ (rgb_to_hsl 200 10 255).s ≤ 100 ∧
      0 ≤ (rgb_to_hsl 200 10 255).l ∧ (rgb_to_hsl 200 10 255).l ≤ 100)) :=
  ⟨by norm_num,
   C9_conversions_clamp (-4321/10) 175 (-3) 200 10 255
     (by norm_num) (by norm_num) (by norm_num)⟩

-- ===========================================================================
-- Parsing / formatting round trips
-- ===========================================================================

theorem hexDigitVal_lower {n : ℕ} (h : n < 16) :
    hexDigitVal (lowerHexDigits.getD n '0') = some n := by
  interval_cases n <;> rfl

theorem hexDigitVal_upper {n : ℕ} (h : n < 16) :
    hexDigitVal (upperHexDigits.getD n '0') = some n := by
  interval_cases n <;> rfl

theorem lowerHexDigit_ne_hash {n : ℕ} (h : n < 16) :
    ¬((lowerHexDigits.getD n '0' == '#') = true) := by
  interval_cases n <;> decide

theorem upperHexDigit_ne_hash {n : ℕ} (h : n < 16) :
    ¬((upperHexDigits.getD n '0' == '#') = true) := by
  interval_cases n <;> decide

theorem hex_to_rgb_rgb_to_hex {r g b : ℕ} (hr : r < 256) (hg : g < 256)
    (hb : b < 256) : hex_to_rgb (rgb_to_hex r g b) = some (r, g, b) := by
  have hr16 : r / 16 < 16 := Nat.div_lt_of_lt_mul hr
  have hg16 : g / 16 < 16 := Nat.div_lt_of_lt_mul hg
  have hb16 : b / 16 < 16 := Nat.div_lt_of_lt_mul hb
  have hrm : r % 16 < 16 := Nat.mod_lt _ (by norm_num)
  have hgm : g % 16 < 16 := Nat.mod_lt _ (by norm_num)
  have hbm : b % 16 < 16 := Nat.mod_lt _ (by norm_num)
  unfold hex_to_rgb rgb_to_hex byteToHexLower
  simp only [List.cons_append, List.nil_append]
  rw [List.dropWhile_cons, if_pos (by rfl : ('#' == '#') = true),
    List.dropWhile_cons, if_neg (lowerHexDigit_ne_hash hr16)]
  dsimp only
  rw [hexDigitVal_lower hr16, hexDigitVal_lower hrm, hexDigitVal_lower hg16,
    hexDigitVal_lower hgm, hexDigitVal_lower hb16, hexDigitVal_lower hbm]
  simp
  omega

theorem hex_to_rgb_rgbToHexUpper {r g b : ℕ} (hr : r < 256) (hg : g < 256)
    (hb : b < 256) : hex_to_rgb (rgbToHexUpper r g b) = some (r, g, b) := by
  have hr16 : r / 16 < 16 := Nat.div_lt_of_lt_mul hr
  have hg16 : g / 16 < 16 := Nat.div_lt_of_lt_mul hg
  have hb16 : b / 16 < 16 := Nat.div_lt_of_lt_mul hb
  have hrm : r % 16 < 16 := Nat.mod_lt _ (by norm_num)
  have hgm : g % 16 < 16 := Nat.mod_lt _ (by norm_num)
  have hbm : b % 16 < 16 := Nat.mod_lt _ (by norm_num)
  unfold hex_to_rgb rgbToHexUpper byteToHexUpper
  simp only [List.cons_append, List.nil_append]
  rw [List.dropWhile_cons, if_pos (by rfl : ('#' == '#') = true),
    List.dropWhile_cons, if_neg (upperHexDigit_ne_hash hr16)]
  dsimp only
  rw [hexDigitVal_upper hr16, hexDigitVal_upper hrm, hexDigitVal_upper hg16,
    hexDigitVal_upper hgm, hexDigitVal_upper hb16, hexDigitVal_upper hbm]
  simp
  omega

-- ===========================================================================
-- Validity of hex strings; success lemmas
-- ===========================================================================

/-- A string accepted by `hex_to_rgb` (hence by every conversion). -/
def valid_hex (s : String) : Bool :=
  (hex_to_rgb s).isSome

theorem hexDigitVal_lt {c : Char} {d : ℕ} (h : hexDigitVal c = some d) :
    d < 16 := by
  unfold hexDigitVal at h
  split_ifs at h with h1 h2 h3
  · rw [← Option.some.inj h]; omega
  · rw [← Option.some.inj h]; omega
  · rw [← Option.some.inj h]; omega

theorem hex_to_rgb_lt {s : String} {rgb : ℕ × ℕ × ℕ}
    (h : hex_to_rgb s = some rgb) :
    rgb.1 < 256 ∧ rgb.2.1 < 256 ∧ rgb.2.2 < 256 := by
  unfold hex_to_rgb at h
  split at h
  case _ c1 c2 c3 c4 c5 c6 =>
    simp only [bind, Option.bind_eq_some, Option.pure_def, Option.some.injEq] at h
    rcases h with ⟨d1, e1, d2, e2, d3, e3, d4, e4, d5, e5, d6, e6, hrgb⟩
    have b1 := hexDigitVal_lt e1
    have b2 := hexDigitVal_lt e2
    have b3 := hexDigitVal_lt e3
    have b4 := hexDigitVal_lt e4
    have b5 := hexDigitVal_lt e5
    have b6 := hexDigitVal_lt e6
    subst hrgb
    refine ⟨?_, ?_, ?_⟩ <;> dsimp only <;> omega
  case _ => exact absurd h (by simp)

theorem hex_to_hsl_of_valid {s : String} (h : valid_hex s = true) :
    ∃ hsl, hex_to_hsl s = some hsl := by
  unfold valid_hex at h
  rcases Option.isSome_iff_exists.mp h with ⟨rgb, hrgb⟩
  exact ⟨_, by unfold hex_to_hsl; rw [hrgb]; rfl⟩

theorem hsl_to_hex_parses (h s l : ℚ) :
    hex_to_rgb (hsl_to_hex h s l) =
      some ((hsl_to_rgb (pymod h 360) (max 0 (min 100 s)) (max 0 (min 100 l))).r.toNat,
        (hsl_to_rgb (pymod h 360) (max 0 (min 100 s)) (max 0 (min 100 l))).g.toNat,
        (hsl_to_rgb (pymod h 360) (max 0 (min 100 s)) (max 0 (min 100 l))).b.toNat) := by
  have hr := hsl_to_rgb_range (pymod h 360) (max 0 (min 100 s)) (max 0 (min 100 l))
  unfold hsl_to_hex
  exact hex_to_rgb_rgbToHexUpper (by omega) (by omega) (by omega)

theorem hsl_to_hex_valid (h s l : ℚ) : valid_hex (hsl_to_hex h s l) = true := by
  unfold valid_hex
  rw [hsl_to_hex_parses]
  rfl

theorem hex_to_hsl_hsl_to_hex (h s l : ℚ) :
    ∃ hsl', hex_to_hsl (hsl_to_hex h s l) = some hsl' := by
  unfold hex_to_hsl
  rw [hsl_to_hex_parses]
  exact ⟨_, rfl⟩

theorem rgb_to_hex_parses {r g b : ℕ} (hr : r < 256) (hg : g < 256)
    (hb : b < 256) : valid_hex (rgb_to_hex r g b) = true := by
  unfold valid_hex
  rw [hex_to_rgb_rgb_to_hex hr hg hb]
  rfl

-- ===========================================================================
-- Helpers about `List.mapM` over `Option`
-- ===========================================================================

theorem mapM_option_length {α β : Type} {f : α → Option β} :
    ∀ {l : List α} {l' : List β}, l.mapM f = some l' → l'.length = l.length := by
  intro l
  induction l with
  | nil =>
    intro l' h
    rw [List.mapM_nil] at h
    simp only [Option.pure_def, Option.some.injEq] at h
    subst h; rfl
  | cons a t ih =>
    intro l' h
    rw [List.mapM_cons] at h
    simp only [bind, Option.bind_eq_some, Option.pure_def, Option.some.injEq] at h
    rcases h with ⟨b, hb, bs, hbs, hcons⟩
    subst hcons
    simp [ih hbs]

theorem mapM_option_some {α β : Type} {f : α → Option β} :
    ∀ {l : List α}, (∀ a ∈ l, (f a).isSome = true) →
      ∃ l', l.mapM f = some l' := by
  intro l
  induction l with
  | nil => intro _; exact ⟨[], by rw [List.mapM_nil]; rfl⟩
  | cons a t ih =>
    intro hall
    rcases Option.isSome_iff_exists.mp (hall a (by simp)) with ⟨b, hb⟩
    rcases ih (fun x hx => hall x (by simp [hx])) with ⟨bs, hbs⟩
    refine ⟨b :: bs, ?_⟩
    rw [List.mapM_cons, hb, hbs]
    rfl

theorem mapM_option_mem {α β : Type} {f : α → Option β} :
    ∀ {l : List α} {l' : List β}, l.mapM f = some l' →
      ∀ b ∈ l', ∃ a ∈ l, f a = some b := by
  intro l
  induction l with
  | nil =>
    intro l' h
    rw [List.mapM_nil] at h
    simp only [Option.pure_def, Option.some.injEq] at h
    subst h; simp
  | cons a t ih =>
    intro l' h
    rw [List.mapM_cons] at h
    simp only [bind, Option.bind_eq_some, Option.pure_def, Option.some.injEq] at h
    rcases h with ⟨b, hb, bs, hbs, hcons⟩
    subst hcons
    intro c hc
    rcases List.mem_cons.mp hc with hc | hc
    · exact ⟨a, by simp, hc ▸ hb⟩
    · rcases ih hbs c hc with ⟨x, hx, hfx⟩
      exact ⟨x, by simp [hx], hfx⟩

/-- C4: with at least 8 parseable samples, classification returns Monochrome
exactly when the fraction of samples with saturation < 15 strictly exceeds
0.7; otherwise LowDiversity exactly when there is at least one chromatic pair
(both saturations ≥ 15) and the fraction of chromatic pairs with hue distance
< 30 and lightness delta < 20 strictly exceeds 0.6; otherwise Chromatic.
(`MONOCHROME_SATURATION_THRESHOLD` = 15, `MONOCHROME_IMAGE_THRESHOLD` = 0.7,
`SIMILAR_HUE_RANGE` = 30, `SIMILAR_LIGHTNESS_RANGE` = 20,
`LOW_DIVERSITY_THRESHOLD` = 0.6.) -/
theorem C4_image_classification (colors : List String) (hsls : List HSL)
    (hparse : colors.mapM hex_to_hsl = some hsls) (hlen : 8 ≤ colors.length) :
    (classify_image colors = some ImageClass.Monochrome ↔
      MONOCHROME_IMAGE_THRESHOLD <
        ((hsls.filter fun c => c.s < MONOCHROME_SATURATION_THRESHOLD).length : ℚ) /
          (colors.length : ℚ)) ∧
    (classify_image colors = some ImageClass.LowDiversity ↔
      (¬ MONOCHROME_IMAGE_THRESHOLD <
        ((hsls.filter fun c => c.s < MONOCHROME_SATURATION_THRESHOLD).length : ℚ) /
          (colors.length : ℚ)) ∧
      ((listPairs hsls).filter fun p =>
        ¬(p.1.s < MONOCHROME_SATURATION_THRESHOLD ∨
          p.2.s < MONOCHROME_SATURATION_THRESHOLD)) ≠ [] ∧
      LOW_DIVERSITY_THRESHOLD <
        ((((listPairs hsls).filter fun p =>
            ¬(p.1.s < MONOCHROME_SATURATION_THRESHOLD ∨
              p.2.s < MONOCHROME_SATURATION_THRESHOLD)).filter fun p =>
            calculate_hue_distance p.1.h p.2.h < SIMILAR_HUE_RANGE ∧
            |p.1.l - p.2.l| < SIMILAR_LIGHTNESS_RANGE).length : ℚ) /
          ((((listPairs hsls).filter fun p =>
            ¬(p.1.s < MONOCHROME_SATURATION_THRESHOLD ∨
              p.2.s < MONOCHROME_SATURATION_THRESHOLD))).length : ℚ)) ∧
    (classify_image colors = some ImageClass.Chromatic ↔
      (¬ MONOCHROME_IMAGE_THRESHOLD <
        ((hsls.filter fun c => c.s < MONOCHROME_SATURATION_THRESHOLD).length : ℚ) /
          (colors.length : ℚ)) ∧
      ¬(((listPairs hsls).filter fun p =>
          ¬(p.1.s < MONOCHROME_SATURATION_THRESHOLD ∨
            p.2.s < MONOCHROME_SATURATION_THRESHOLD)) ≠ [] ∧
        LOW_DIVERSITY_THRESHOLD <
          ((((listPairs hsls).filter fun p =>
              ¬(p.1.s < MONOCHROME_SATURATION_THRESHOLD ∨
                p.2.s < MONOCHROME_SATURATION_THRESHOLD)).filter fun p =>
              calculate_hue_distance p.1.h p.2.h < SIMILAR_HUE_RANGE ∧
              |p.1.l - p.2.l| < SIMILAR_LIGHTNESS_RANGE).length : ℚ) /
            ((((listPairs hsls).filter fun p =>
              ¬(p.1.s < MONOCHROME_SATURATION_THRESHOLD ∨
                p.2.s < MONOCHROME_SATURATION_THRESHOLD))).length : ℚ))) := by
  have hne : colors.length ≠ 0 := by omega
  unfold classify_image is_monochrome_image has_low_color_diversity
  rw [hparse]
  simp only [Option.some_bind, bind, if_neg hne, decide_eq_true_eq]
  by_cases hmono : MONOCHROME_IMAGE_THRESHOLD <
      ((hsls.filter fun c => c.s < MONOCHROME_SATURATION_THRESHOLD).length : ℚ) /
        (colors.length : ℚ)
  · rw [if_pos (by exact_mod_cast hmono)]
    refine ⟨by simp [hmono], by simp [hmono], by simp [hmono]⟩
  · rw [if_neg (by exact_mod_cast hmono)]
    by_cases hcp : ((listPairs hsls).filter fun p =>
        ¬(p.1.s < MONOCHROME_SATURATION_THRESHOLD ∨
          p.2.s < MONOCHROME_SATURATION_THRESHOLD)) = []
    · rw [if_pos (by rw [List.length_eq_zero]; exact_mod_cast hcp)]
      simp only [Option.some_bind, Bool.false_eq_true, if_false]
      refine ⟨by simp [hmono], ⟨?_, ?_⟩, ⟨?_, ?_⟩⟩
      · intro hh; exact absurd hh (by simp)
      · rintro ⟨-, hne2, -⟩; exact absurd hcp hne2
      · intro _; exact ⟨hmono, fun hand => absurd hcp hand.1⟩
      · intro _; rfl
    · rw [if_neg (by rw [List.length_eq_zero]; exact_mod_cast hcp)]
      simp only [Option.some_bind, decide_eq_true_eq]
      by_cases hsim : LOW_DIVERSITY_THRESHOLD <
          ((((listPairs hsls).filter fun p =>
              ¬(p.1.s < MONOCHROME_SATURATION_THRESHOLD ∨
                p.2.s < MONOCHROME_SATURATION_THRESHOLD)).filter fun p =>
              calculate_hue_distance p.1.h p.2.h < SIMILAR_HUE_RANGE ∧
              |p.1.l - p.2.l| < SIMILAR_LIGHTNESS_RANGE).length : ℚ) /
            ((((listPairs hsls).filter fun p =>
              ¬(p.1.s < MONOCHROME_SATURATION_THRESHOLD ∨
                p.2.s < MONOCHROME_SATURATION_THRESHOLD))).length : ℚ)
      · rw [if_pos (by exact_mod_cast hsim)]
        refine ⟨by simp [hmono], ⟨?_, ?_⟩, ⟨?_, ?_⟩⟩
        · intro _; exact ⟨hmono, hcp, hsim⟩
        · intro _; rfl
        · intro hh; exact absurd hh (by simp)
        · rintro ⟨-, hnand⟩; exact absurd ⟨hcp, hsim⟩ hnand
      · rw [if_neg (by exact_mod_cast hsim)]
        refine ⟨by simp [hmono], ⟨?_, ?_⟩, ⟨?_, ?_⟩⟩
        · intro hh; exact absurd hh (by simp)
        · rintro ⟨-, -, hs⟩; exact absurd hs hsim
        · intro _; exact ⟨hmono, fun hand => absurd hand.2 hsim⟩
        · intro _; rfl

theorem hex_to_hsl_black : hex_to_hsl "#000000" = some ⟨0, 0, 0⟩ := by
  simp [hex_to_hsl, hex_to_rgb, hexDigitVal, rgb_to_hsl, round2, pyRound, pymod]

theorem C4_image_classification_witness :
    classify_image ["#000000", "#000000", "#000000", "#000000",
      "#000000", "#000000", "#000000", "#000000"] = some ImageClass.Monochrome := by
  have hparse : (["#000000", "#000000", "#000000", "#000000",
      "#000000", "#000000", "#000000", "#000000"] : List String).mapM hex_to_hsl =
      some [⟨0, 0, 0⟩, ⟨0, 0, 0⟩, ⟨0, 0, 0⟩, ⟨0, 0, 0⟩,
        ⟨0, 0, 0⟩, ⟨0, 0, 0⟩, ⟨0, 0, 0⟩, ⟨0, 0, 0⟩] := by
    simp only [List.mapM_cons, List.mapM_nil, hex_to_hsl_black]
    rfl
  have h := (C4_image_classification _ _ hparse (by norm_num)).1
  refine h.mpr ?_
  norm_num [List.filter, MONOCHROME_IMAGE_THRESHOLD, MONOCHROME_SATURATION_THRESHOLD]

-- ===========================================================================
-- C7 support: blend at the endpoints, variant totality
-- ===========================================================================

theorem pyTrunc_natCast (n : ℕ) : pyTrunc (n : ℚ) = n := by
  unfold pyTrunc
  rw [if_pos (by positivity)]
  exact_mod_cast Int.floor_natCast n

theorem bind_some_eq {α β : Type} (a : α) (f : α → Option β) :
    (some a >>= f) = f a := rfl

theorem pure_bind_eq {α β : Type} (a : α) (f : α → Option β) :
    ((pure a : Option α) >>= f) = f a := rfl

theorem blend_zero {c1 c2 : String} {rgb1 : ℕ × ℕ × ℕ}
    (h1 : hex_to_rgb c1 = some rgb1) (h2 : valid_hex c2 = true) :
    blend_colors c1 c2 0 = some (rgb_to_hex rgb1.1 rgb1.2.1 rgb1.2.2) := by
  rcases Option.isSome_iff_exists.mp h2 with ⟨rgb2, hrgb2⟩
  unfold blend_colors
  rw [h1, hrgb2]
  simp only [bind_some_eq]
  have e1 : ((rgb1.1 : ℚ) + ((rgb2.1 : ℚ) - rgb1.1) * 0) = ((rgb1.1 : ℕ) : ℚ) := by ring
  have e2 : ((rgb1.2.1 : ℚ) + ((rgb2.2.1 : ℚ) - rgb1.2.1) * 0) = ((rgb1.2.1 : ℕ) : ℚ) := by ring
  have e3 : ((rgb1.2.2 : ℚ) + ((rgb2.2.2 : ℚ) - rgb1.2.2) * 0) = ((rgb1.2.2 : ℕ) : ℚ) := by ring
  rw [e1, e2, e3, pyTrunc_natCast, pyTrunc_natCast, pyTrunc_natCast]
  simp [Int.toNat_natCast]

theorem blend_one {c1 c2 : String} {rgb2 : ℕ × ℕ × ℕ}
    (h1 : valid_hex c1 = true) (h2 : hex_to_rgb c2 = some rgb2) :
    blend_colors c1 c2 1 = some (rgb_to_hex rgb2.1 rgb2.2.1 rgb2.2.2) := by
  rcases Option.isSome_iff_exists.mp h1 with ⟨rgb1, hrgb1⟩
  unfold blend_colors
  rw [hrgb1, h2]
  simp only [bind_some_eq]
  have e1 : ((rgb1.1 : ℚ) + ((rgb2.1 : ℚ) - rgb1.1) * 1) = ((rgb2.1 : ℕ) : ℚ) := by ring
  have e2 : ((rgb1.2.1 : ℚ) + ((rgb2.2.1 : ℚ) - rgb1.2.1) * 1) = ((rgb2.2.1 : ℕ) : ℚ) := by ring
  have e3 : ((rgb1.2.2 : ℚ) + ((rgb2.2.2 : ℚ) - rgb1.2.2) * 1) = ((rgb2.2.2 : ℕ) : ℚ) := by ring
  rw [e1, e2, e3, pyTrunc_natCast, pyTrunc_natCast, pyTrunc_natCast]
  simp [Int.toNat_natCast]

theorem apply_variant_to_color_some {c : String} (hv : valid_hex c = true)
    (v i t : ℕ) :
    ∃ out, apply_variant_to_color c v i t = some out ∧ valid_hex out = true := by
  rcases hex_to_hsl_of_valid hv with ⟨hsl, hhsl⟩
  unfold apply_variant_to_color
  rw [hhsl]
  simp only [bind_some_eq]
  by_cases h1 : v = VARIANT_MONOCHROME
  · rw [if_pos h1]; exact ⟨_, rfl, hsl_to_hex_valid _ _ _⟩
  rw [if_neg h1]
  by_cases h2 : v = VARIANT_NEUTRAL
  · rw [if_pos h2]; exact ⟨_, rfl, hsl_to_hex_valid _ _ _⟩
  rw [if_neg h2]
  by_cases h3 : v = VARIANT_CONTENT
  · rw [if_pos h3]; exact ⟨_, rfl, hsl_to_hex_valid _ _ _⟩
  rw [if_neg h3]
  by_cases h4 : v = VARIANT_FIDELITY
  · rw [if_pos h4]; exact ⟨_, rfl, hsl_to_hex_valid _ _ _⟩
  rw [if_neg h4]
  by_cases h5 : v = VARIANT_TONALSPOT
  · rw [if_pos h5]; exact ⟨_, rfl, hv⟩
  rw [if_neg h5]
  by_cases h6 : v = VARIANT_VIBRANT
  · rw [if_pos h6]; exact ⟨_, rfl, hsl_to_hex_valid _ _ _⟩
  rw [if_neg h6]
  by_cases h7 : v = VARIANT_EXPRESSIVE
  · rw [if_pos h7]; exact ⟨_, rfl, hsl_to_hex_valid _ _ _⟩
  rw [if_neg h7]
  by_cases h8 : v = VARIANT_RAINBOW
  · rw [if_pos h8]; exact ⟨_, rfl, hsl_to_hex_valid _ _ _⟩
  rw [if_neg h8]
  by_cases h9 : v = VARIANT_FRUITSALAD
  · rw [if_pos h9]; exact ⟨_, rfl, hsl_to_hex_valid _ _ _⟩
  rw [if_neg h9]
  exact ⟨_, rfl, hv⟩

theorem apply_variant_to_palette_some (colors : List String) (v : ℕ)
    (hvalid : ∀ c ∈ colors, valid_hex c = true) :
    ∃ l', apply_variant_to_palette colors v = some l' ∧
      l'.length = colors.length ∧ ∀ out ∈ l', valid_hex out = true := by
  have hsome : ∀ ic ∈ colors.enum,
      (apply_variant_to_color ic.2 v ic.1 colors.length).isSome = true := by
    intro ic hic
    have hmem : ic.2 ∈ colors := by
      have := List.enum_map_snd colors
      exact this ▸ List.mem_map_of_mem Prod.snd hic
    rcases apply_variant_to_color_some (hvalid ic.2 hmem) v ic.1 colors.length
      with ⟨out, hout, -⟩
    simp [hout]
  rcases mapM_option_some (f := fun ic : ℕ × String =>
      apply_variant_to_color ic.2 v ic.1 colors.length) hsome with ⟨l', hl'⟩
  refine ⟨l', hl', ?_, ?_⟩
  · rw [mapM_option_length hl', List.enum_length]
  · intro out hout
    rcases mapM_option_mem hl' out hout with ⟨ic, hic, hf⟩
    have hmem : ic.2 ∈ colors := by
      have := List.enum_map_snd colors
      exact this ▸ List.mem_map_of_mem Prod.snd hic
    rcases apply_variant_to_color_some (hvalid ic.2 hmem) v ic.1 colors.length
      with ⟨out', hout', hvout'⟩
    rw [hf] at hout'
    exact (Option.some.inj hout') ▸ hvout'

theorem blend_mapM_zero :
    ∀ (pairs : List (String × String)),
      (∀ p ∈ pairs, valid_hex p.1 = true ∧ valid_hex p.2 = true) →
      ∃ l, pairs.mapM (fun ft => blend_colors ft.1 ft.2 0) = some l ∧
        l.map hex_to_rgb = pairs.map fun ft => hex_to_rgb ft.1 := by
  intro pairs
  induction pairs with
  | nil => exact fun _ => ⟨[], by rw [List.mapM_nil]; rfl, rfl⟩
  | cons p t ih =>
    intro hall
    obtain ⟨hv1, hv2⟩ := hall p (by simp)
    rcases Option.isSome_iff_exists.mp hv1 with ⟨rgb1, hrgb1⟩
    have hb := blend_zero hrgb1 hv2
    rcases ih (fun x hx => hall x (by simp [hx])) with ⟨l, hl, hmap⟩
    refine ⟨rgb_to_hex rgb1.1 rgb1.2.1 rgb1.2.2 :: l, ?_, ?_⟩
    · rw [List.mapM_cons, hb, hl]; rfl
    · simp only [List.map_cons, hmap, hrgb1]
      obtain ⟨b1, b2, b3⟩ := hex_to_rgb_lt hrgb1
      rw [hex_to_rgb_rgb_to_hex b1 b2 b3]

theorem blend_mapM_one :
    ∀ (pairs : List (String × String)),
      (∀ p ∈ pairs, valid_hex p.1 = true ∧ valid_hex p.2 = true) →
      ∃ l, pairs.mapM (fun ft => blend_colors ft.1 ft.2 1) = some l ∧
        l.map hex_to_rgb = pairs.map fun ft => hex_to_rgb ft.2 := by
  intro pairs
  induction pairs with
  | nil => exact fun _ => ⟨[], by rw [List.mapM_nil]; rfl, rfl⟩
  | cons p t ih =>
    intro hall
    obtain ⟨hv1, hv2⟩ := hall p (by simp)
    rcases Option.isSome_iff_exists.mp hv2 with ⟨rgb2, hrgb2⟩
    have hb := blend_one hv1 hrgb2
    rcases ih (fun x hx => hall x (by simp [hx])) with ⟨l, hl, hmap⟩
    refine ⟨rgb_to_hex rgb2.1 rgb2.2.1 rgb2.2.2 :: l, ?_, ?_⟩
    · rw [List.mapM_cons, hb, hl]; rfl
    · simp only [List.map_cons, hmap, hrgb2]
      obtain ⟨b1, b2, b3⟩ := hex_to_rgb_lt hrgb2
      rw [hex_to_rgb_rgb_to_hex b1 b2 b3]

theorem interpolate_zero_rgb (colors : List String)
    (hvalid : ∀ c ∈ colors, valid_hex c = true) (va vb : ℕ) :
    ∃ l0 la, interpolate_palette_variants colors va vb 0 = some l0 ∧
      apply_variant_to_palette colors va = some la ∧
      l0.map hex_to_rgb = la.map hex_to_rgb := by
  obtain ⟨la, ha, hlena, hva⟩ := apply_variant_to_palette_some colors va hvalid
  obtain ⟨lb, hb, hlenb, hvb⟩ := apply_variant_to_palette_some colors vb hvalid
  have hpairs : ∀ p ∈ la.zip lb, valid_hex p.1 = true ∧ valid_hex p.2 = true := by
    intro p hp
    obtain ⟨hp1, hp2⟩ := List.of_mem_zip hp
    exact ⟨hva p.1 hp1, hvb p.2 hp2⟩
  rcases blend_mapM_zero (la.zip lb) hpairs with ⟨l0, hl0, hmap⟩
  refine ⟨l0, la, ?_, ha, ?_⟩
  · unfold interpolate_palette_variants
    rw [ha, hb]
    simp only [bind_some_eq]
    exact hl0
  · rw [hmap]
    have : (la.zip lb).map (fun ft => hex_to_rgb ft.1) =
        ((la.zip lb).map Prod.fst).map hex_to_rgb := by
      rw [List.map_map]; rfl
    rw [this, List.map_fst_zip la lb (by rw [hlena, hlenb])]

theorem interpolate_one_rgb (colors : List String)
    (hvalid : ∀ c ∈ colors, valid_hex c = true) (va vb : ℕ) :
    ∃ l1 lb, interpolate_palette_variants colors va vb 1 = some l1 ∧
      apply_variant_to_palette colors vb = some lb ∧
      l1.map hex_to_rgb = lb.map hex_to_rgb := by
  obtain ⟨la, ha, hlena, hva⟩ := apply_variant_to_palette_some colors va hvalid
  obtain ⟨lb, hb, hlenb, hvb⟩ := apply_variant_to_palette_some colors vb hvalid
  have hpairs : ∀ p ∈ la.zip lb, valid_hex p.1 = true ∧ valid_hex p.2 = true := by
    intro p hp
    obtain ⟨hp1, hp2⟩ := List.of_mem_zip hp
    exact ⟨hva p.1 hp1, hvb p.2 hp2⟩
  rcases blend_mapM_one (la.zip lb) hpairs with ⟨l1, hl1, hmap⟩
  refine ⟨l1, lb, ?_, hb, ?_⟩
  · unfold interpolate_palette_variants
    rw [ha, hb]
    simp only [bind_some_eq]
    exact hl1
  · rw [hmap]
    have : (la.zip lb).map (fun ft => hex_to_rgb ft.2) =
        ((la.zip lb).map Prod.snd).map hex_to_rgb := by
      rw [List.map_map]; rfl
    rw [this, List.map_snd_zip la lb (by rw [hlena, hlenb])]

theorem slider_zero_eq (colors : List String) :
    get_palette_at_slider_position colors 0 =
      interpolate_palette_variants colors VARIANT_CONTENT VARIANT_FIDELITY 0 := by
  unfold get_palette_at_slider_position
  have h0 : pyTrunc (0:ℚ) = 0 := by
    have : ⌊(0:ℚ)⌋ = 0 := floor_eq_of (by norm_num) (by norm_num)
    norm_num [pyTrunc, this]
  norm_num [h0, variant_sequence]

theorem slider_hundred_eq (colors : List String) :
    get_palette_at_slider_position colors 100 =
      interpolate_palette_variants colors VARIANT_RAINBOW VARIANT_FRUITSALAD 1 := by
  unfold get_palette_at_slider_position
  have h0 : pyTrunc (8:ℚ) = 8 := by
    have : ⌊(8:ℚ)⌋ = 8 := floor_eq_of (by norm_num) (by norm_num)
    norm_num [pyTrunc, this]
  have h7 : Int.toNat 7 = 7 := rfl
  norm_num [h0, variant_sequence, h7]

/-- C7 (amended): at slider 0 the palette agrees with the Content variant,
and at slider 100 with the FruitSalad variant, as colors — entrywise the hex
strings parse to identical RGB triples.  Exact string equality fails (see the
counterexample): the slider path formats lowercase, the direct variant path
uppercase. -/
theorem C7_slider_endpoints (colors : List String)
    (hvalid : ∀ c ∈ colors, valid_hex c = true) :
    (∃ l0 lC, get_palette_at_slider_position colors 0 = some l0 ∧
      apply_variant_to_palette colors VARIANT_CONTENT = some lC ∧
      l0.map hex_to_rgb = lC.map hex_to_rgb) ∧
    (∃ l1 lF, get_palette_at_slider_position colors 100 = some l1 ∧
      apply_variant_to_palette colors VARIANT_FRUITSALAD = some lF ∧
      l1.map hex_to_rgb = lF.map hex_to_rgb) := by
  constructor
  · rcases interpolate_zero_rgb colors hvalid VARIANT_CONTENT VARIANT_FIDELITY with
      ⟨l0, la, hint, ha, hmap⟩
    exact ⟨l0, la, by rw [slider_zero_eq, hint], ha, hmap⟩
  · rcases interpolate_one_rgb colors hvalid VARIANT_RAINBOW VARIANT_FRUITSALAD with
      ⟨l1, lb, hint, hb, hmap⟩
    exact ⟨l1, lb, by rw [slider_hundred_eq, hint], hb, hmap⟩

theorem C7_slider_endpoints_witness :
    ((∀ c ∈ (["#3daee9"] : List String), valid_hex c = true)) ∧
    ((∃ l0 lC, get_palette_at_slider_position ["#3daee9"] 0 = some l0 ∧
      apply_variant_to_palette ["#3daee9"] VARIANT_CONTENT = some lC ∧
      l0.map hex_to_rgb = lC.map hex_to_rgb) ∧
    (∃ l1 lF, get_palette_at_slider_position ["#3daee9"] 100 = some l1 ∧
      apply_variant_to_palette ["#3daee9"] VARIANT_FRUITSALAD = some lF ∧
      l1.map hex_to_rgb = lF.map hex_to_rgb)) :=
  ⟨by decide, C7_slider_endpoints ["#3daee9"] (by decide)⟩

theorem hex_to_hsl_white : hex_to_hsl "#ffffff" = some ⟨0, 0, 100⟩ := by
  simp [hex_to_hsl, hex_to_rgb, hexDigitVal, rgb_to_hsl, round2, pyRound, pymod]
  norm_num [Int.fract, Int.floor_eq_iff]

theorem hsl_to_rgb_white : hsl_to_rgb 0 0 100 = ⟨255, 255, 255⟩ := by
  have f1 : ⌊(0:ℚ)⌋ = 0 := floor_eq_of (by norm_num) (by norm_num)
  have f2 : ⌊(255:ℚ)⌋ = 255 := floor_eq_of (by norm_num) (by norm_num)
  norm_num [hsl_to_rgb, pymod, pyRound, f1, f2, Int.fract]

theorem hsl_to_hex_white : hsl_to_hex 0 0 100 = "#FFFFFF" := by
  have hpm : pymod (0:ℚ) 360 = 0 := by
    have f1 : ⌊(0:ℚ)/360⌋ = 0 := by norm_num [floor_eq_of]
    norm_num [pymod, f1]
  unfold hsl_to_hex
  norm_num [hpm, hsl_to_rgb_white]
  rfl

theorem variant_content_white :
    apply_variant_to_palette ["#ffffff"] VARIANT_CONTENT = some ["#FFFFFF"] := by
  unfold apply_variant_to_palette
  simp only [List.enum, List.enumFrom, List.length_cons, List.length_nil,
    List.mapM_cons, List.mapM_nil]
  unfold apply_variant_to_color
  rw [hex_to_hsl_white]
  norm_num [VARIANT_CONTENT, VARIANT_MONOCHROME, VARIANT_NEUTRAL]
  rw [hsl_to_hex_white]

theorem variant_fidelity_white :
    apply_variant_to_palette ["#ffffff"] VARIANT_FIDELITY = some ["#FFFFFF"] := by
  unfold apply_variant_to_palette
  simp only [List.enum, List.enumFrom, List.length_cons, List.length_nil,
    List.mapM_cons, List.mapM_nil]
  unfold apply_variant_to_color
  rw [hex_to_hsl_white]
  norm_num [VARIANT_FIDELITY, VARIANT_MONOCHROME, VARIANT_NEUTRAL, VARIANT_CONTENT]
  rw [hsl_to_hex_white]

/-- C7 counterexample: the claim's exact equality is false.  At the
palette `["#ffffff"]`, slider position 0 yields `["#ffffff"]` (lowercase,
via `blend_colors`/`rgb_to_hex`), while the Content variant yields
`["#FFFFFF"]` (uppercase, via `hsl_to_hex`): equal colors, different
strings. -/
theorem C7_counterexample :
    ¬ (get_palette_at_slider_position ["#ffffff"] 0 =
        apply_variant_to_palette ["#ffffff"] VARIANT_CONTENT) := by
  have hupper : hex_to_rgb "#FFFFFF" = some (255, 255, 255) := by decide
  have hblend : blend_colors "#FFFFFF" "#FFFFFF" 0 = some (rgb_to_hex 255 255 255) :=
    blend_zero hupper (by decide)
  have hslider : get_palette_at_slider_position ["#ffffff"] 0 = some ["#ffffff"] := by
    rw [slider_zero_eq]
    unfold interpolate_palette_variants
    rw [variant_content_white, variant_fidelity_white]
    simp only [bind_some_eq, List.zip_cons_cons, List.zip_nil_right,
      List.mapM_cons, List.mapM_nil, hblend]
    rfl
  rw [hslider, variant_content_white]
  decide

-- ===========================================================================
-- C8: get_best_contrast
-- ===========================================================================

theorem filterMap_normalize_self :
    ∀ {cands : List String}, (∀ c ∈ cands, normalize_color c = some c) →
      cands.filterMap normalize_color = cands := by
  intro cands
  induction cands with
  | nil => intro _; rfl
  | cons c t ih =>
    intro hall
    rw [List.filterMap_cons, hall c (by simp), ih (fun x hx => hall x (by simp [hx]))]

theorem best_fold_spec (base : String) (f : String → ℝ) :
    ∀ (rest : List String) (bs : String) (bv : ℝ),
      (∀ c ∈ rest, get_contrast_value base c = some (f c)) →
      bv = f bs →
      ∃ ws wv,
        rest.foldlM
          (fun (acc : String × ℝ) c => do
            let contrast ← get_contrast_value base c
            pure (if contrast > acc.2 then (c, contrast) else acc)) (bs, bv) =
          some (ws, wv) ∧ wv = f ws ∧
        ((ws = bs ∧ wv = bv ∧ ∀ c ∈ rest, f c ≤ bv) ∨
         (∃ k, ∃ hk : k < rest.length, ws = rest.get ⟨k, hk⟩ ∧ bv < wv ∧
           (∀ j, ∀ hj : j < rest.length, f (rest.get ⟨j, hj⟩) ≤ wv) ∧
           (∀ j, ∀ hj : j < rest.length, j < k → f (rest.get ⟨j, hj⟩) < wv))) := by
  intro rest
  induction rest with
  | nil =>
    intro bs bv _ hbv
    exact ⟨bs, bv, rfl, hbv, Or.inl ⟨rfl, rfl, by simp⟩⟩
  | cons c t ih =>
    intro bs bv hall hbv
    have hc := hall c (by simp)
    rw [List.foldlM_cons, hc]
    simp only [bind_some_eq]
    by_cases hgt : f c > bv
    · rw [if_pos hgt]
      rcases ih c (f c) (fun x hx => hall x (by simp [hx])) rfl with
        ⟨ws, wv, hfold, hwv, hcase⟩
      refine ⟨ws, wv, hfold, hwv, Or.inr ?_⟩
      rcases hcase with ⟨hws, hwvb, hle⟩ | ⟨k, hk, hws, hlt, hle, hstrict⟩
      · subst hws
        refine ⟨0, by simp, by simp, by rw [hwvb]; exact hgt, ?_, ?_⟩
        · intro j hj
          match j with
          | 0 => simp [hwvb]
          | j + 1 =>
            have hjt : j < t.length := by simpa using hj
            have := hle (t.get ⟨j, hjt⟩) (List.get_mem t j hjt)
            simp only [List.get_cons_succ]
            rw [hwvb]; exact this
        · intro j hj hj0
          omega
      · refine ⟨k + 1, by simpa using hk, by simpa using hws, lt_trans hgt hlt, ?_, ?_⟩
        · intro j hj
          match j with
          | 0 => simpa using le_of_lt hlt
          | j + 1 =>
            have := hle j (by simpa using hj)
            simpa using this
        · intro j hj hjk
          match j with
          | 0 => simpa using hlt
          | j + 1 =>
            have := hstrict j (by simpa using hj) (by omega)
            simpa using this
    · rw [if_neg hgt]
      push_neg at hgt
      rcases ih bs bv (fun x hx => hall x (by simp [hx])) hbv with
        ⟨ws, wv, hfold, hwv, hcase⟩
      refine ⟨ws, wv, hfold, hwv, ?_⟩
      rcases hcase with ⟨hws, hwvb, hle⟩ | ⟨k, hk, hws, hlt, hle, hstrict⟩
      · exact Or.inl ⟨hws, hwvb, by
          intro x hx
          rcases List.mem_cons.mp hx with hx | hx
          · subst hx; exact hgt
          · exact hle x hx⟩
      · refine Or.inr ⟨k + 1, by simpa using hk, by simpa using hws, hlt, ?_, ?_⟩
        · intro j hj
          match j with
          | 0 => simpa using le_trans hgt (le_of_lt hlt)
          | j + 1 => simpa using hle j (by simpa using hj)
        · intro j hj hjk
          match j with
          | 0 => simpa using lt_of_le_of_lt hgt hlt
          | j + 1 => simpa using hstrict j (by simpa using hj) (by omega)

/-- C8: with a nonempty list of valid (already-normalized) candidates,
`get_best_contrast` returns the first candidate of maximal contrast ratio
against the base; with no candidates it falls back to pure black when the
base luminance exceeds 0.5 and pure white otherwise. -/
theorem C8_best_contrast (base : String) (cands : List String) (f : String → ℝ)
    (L : ℝ) (hbase : get_luminance base = some L)
    (hcands : ∀ c ∈ cands, normalize_color c = some c)
    (hf : ∀ c ∈ cands, get_contrast_value base c = some (f c)) :
    (cands = [] →
      get_best_contrast base cands =
        some (if L > 0.5 then "#000000" else "#ffffff")) ∧
    (cands ≠ [] → ∃ i, ∃ hi : i < cands.length,
      get_best_contrast base cands = some (cands.get ⟨i, hi⟩) ∧
      ∀ j, ∀ hj : j < cands.length,
        f (cands.get ⟨j, hj⟩) ≤ f (cands.get ⟨i, hi⟩) ∧
        (j < i → f (cands.get ⟨j, hj⟩) < f (cands.get ⟨i, hi⟩))) := by
  constructor
  · intro hnil
    subst hnil
    unfold get_best_contrast
    simp only [List.filterMap_nil]
    rw [hbase]
    rfl
  · intro hne
    unfold get_best_contrast
    rw [filterMap_normalize_self hcands]
    match cands, hne with
    | c0 :: rest, _ =>
      dsimp only
      have hc0 := hf c0 (by simp)
      rw [hc0]
      simp only [bind_some_eq]
      rcases best_fold_spec base f rest c0 (f c0)
        (fun x hx => hf x (by simp [hx])) rfl with
        ⟨ws, wv, hfold, hwv, hcase⟩
      rw [hfold]
      simp only [bind_some_eq]
      rcases hcase with ⟨hws, hwvb, hle⟩ | ⟨k, hk, hws, hlt, hle, hstrict⟩
      · subst hws
        refine ⟨0, by simp, rfl, ?_⟩
        intro j hj
        match j with
        | 0 => exact ⟨le_rfl, by omega⟩
        | j + 1 =>
          have hjt : j < rest.length := by simpa using hj
          refine ⟨?_, by omega⟩
          simpa using hle (rest.get ⟨j, hjt⟩) (List.get_mem rest j hjt)
      · subst hws
        rw [hwv] at hlt hle hstrict
        refine ⟨k + 1, by simpa using hk, by simp [hwv], ?_⟩
        intro j hj
        match j with
        | 0 =>
          refine ⟨by simpa using le_of_lt hlt, fun _ => by simpa using hlt⟩
        | j + 1 =>
          have hjt : j < rest.length := by simpa using hj
          constructor
          · simpa using hle j hjt
          · intro hjk
            have := hstrict j hjt (by omega)
            simpa using this

theorem get_luminance_black : get_luminance "#000000" = some 0 := by
  have hp : hex_to_rgb "#000000" = some (0, 0, 0) := by decide
  have hz : srgb_to_linear 0 = 0 := by
    unfold srgb_to_linear
    norm_num
  unfold get_luminance
  rw [hp]
  simp only [Option.map_some']
  rw [hz]
  norm_num

theorem srgb_to_linear_255 : srgb_to_linear 255 = 1 := by
  unfold srgb_to_linear
  rw [if_neg (by norm_num)]
  rw [show (((255:ℕ) : ℝ) / 255 + 0.055) / 1.055 = 1 by norm_num]
  exact Real.one_rpow _

theorem contrast_black_white :
    get_contrast_value "#000000" "#ffffff" = some 21 := by
  have hw : hex_to_rgb "#ffffff" = some (255, 255, 255) := by decide
  have hlw : get_luminance "#ffffff" = some 1 := by
    unfold get_luminance
    rw [hw]
    simp only [Option.map_some']
    rw [srgb_to_linear_255]
    norm_num
  unfold get_contrast_value
  rw [get_luminance_black, hlw]
  simp only [bind_some_eq]
  norm_num

theorem C8_best_contrast_witness :
    (∃ i, ∃ hi : i < (["#ffffff"] : List String).length,
      get_best_contrast "#000000" ["#ffffff"] =
        some ((["#ffffff"] : List String).get ⟨i, hi⟩) ∧
      ∀ j, ∀ hj : j < (["#ffffff"] : List String).length,
        (fun _ : String => (21 : ℝ)) ((["#ffffff"] : List String).get ⟨j, hj⟩) ≤
          (fun _ : String => (21 : ℝ)) ((["#ffffff"] : List String).get ⟨i, hi⟩) ∧
        (j < i → (fun _ : String => (21 : ℝ)) ((["#ffffff"] : List String).get ⟨j, hj⟩) <
          (fun _ : String => (21 : ℝ)) ((["#ffffff"] : List String).get ⟨i, hi⟩))) ∧
    get_best_contrast "#000000" [] = some (if (0 : ℝ) > 0.5 then "#000000" else "#ffffff") :=
  ⟨(C8_best_contrast "#000000" ["#ffffff"] (fun _ => 21) 0 get_luminance_black
      (by decide) (by intro c hc; simp at hc; subst hc; exact contrast_black_white)).2
      (by simp),
   (C8_best_contrast "#000000" [] (fun _ => 21) 0 get_luminance_black
      (by simp) (by simp)).1 rfl⟩

theorem hex_to_hsl_dark8 : hex_to_hsl "#080808" = some ⟨0, 0, 157/50⟩ := by
  simp [hex_to_hsl, hex_to_rgb, hexDigitVal, rgb_to_hsl, round2, pyRound, pymod]
  norm_num [Int.fract, Int.floor_eq_iff]

theorem adjust_dark_noop (pal : List String) (ci : ColorInfo)
    (h : ci.lightness ≥ MIN_LIGHTNESS_ON_DARK_BG) :
    adjust_color_for_dark_background pal ci = some pal := by
  unfold adjust_color_for_dark_background
  rw [if_pos h]

theorem adjust_light_noop (pal : List String) (ci : ColorInfo)
    (h : ci.lightness ≤ MAX_LIGHTNESS_ON_LIGHT_BG) :
    adjust_color_for_light_background pal ci = some pal := by
  unfold adjust_color_for_light_background
  rw [if_pos h]

theorem C2_eval :
    normalize_brightness
      [some "#080808", some "#ffffff", some "#ffffff", some "#ffffff",
       some "#ffffff", some "#ffffff", some "#ffffff", some "#ffffff",
       some "#ffffff", some "#ffffff", some "#ffffff", some "#ffffff",
       some "#ffffff", some "#ffffff", some "#ffffff", some "#ffffff"] =
    some ["#080808", "#ffffff", "#ffffff", "#ffffff",
       "#ffffff", "#ffffff", "#ffffff", "#ffffff",
       "#ffffff", "#ffffff", "#ffffff", "#ffffff",
       "#ffffff", "#ffffff", "#ffffff", "#ffffff"] := by
  unfold normalize_brightness
  simp only [List.map_cons, List.map_nil, Option.getD_some]
  rw [if_pos (by norm_num)]
  simp only [List.getD, List.get?_cons_zero, List.get?_cons_succ,
    Option.getD_some, List.mapM_cons, List.mapM_nil]
  simp only [hex_to_hsl_dark8, hex_to_hsl_white, bind_some_eq, pure_bind_eq,
    Option.pure_def]
  norm_num [MIN_BACKGROUND_LIGHTNESS_DARK, MAX_BACKGROUND_LIGHTNESS_LIGHT,
    VERY_DARK_BACKGROUND_THRESHOLD, VERY_LIGHT_BACKGROUND_THRESHOLD]
  norm_num [adjust_dark_noop, MIN_LIGHTNESS_ON_DARK_BG]

theorem getElem?_set_ne' {α : Type} (l : List α) (i j : ℕ) (a : α) (h : i ≠ j) :
    (l.set i a)[j]? = l[j]? := List.getElem?_set_ne h

theorem getElem?_set_self' {α : Type} (l : List α) (i : ℕ) (a : α)
    (h : i < l.length) : (l.set i a)[i]? = some a := by
  rw [List.getElem?_set_self (by simpa using h)]

theorem valid_hex_ne_empty {c : String} (hv : valid_hex c = true) : c ≠ "" := by
  intro he
  rw [he] at hv
  exact absurd hv (by decide)

theorem generate_bright_version_of_valid {c : String} (hv : valid_hex c = true) :
    ∃ b, generate_bright_version (some c) = some b ∧ valid_hex b = true := by
  unfold generate_bright_version
  dsimp only
  rw [if_neg (valid_hex_ne_empty hv)]
  rcases hex_to_hsl_of_valid hv with ⟨hsl, hhsl⟩
  rw [hhsl]
  exact ⟨_, rfl, hsl_to_hex_valid _ _ _⟩

theorem adjust_dark_spec (pal : List String) (ci : ColorInfo)
    (h1 : 1 ≤ ci.index) (h7 : ci.index ≤ 7) (hlen : 16 ≤ pal.length)
    (hparse : valid_hex (pal.getD ci.index "") = true ∨ pal.getD ci.index "" = "") :
    ∃ res : List String, adjust_color_for_dark_background pal ci = some res ∧
      res.length = pal.length ∧
      (∀ j, j ≠ ci.index → j ≠ ci.index + 8 → res[j]? = pal[j]?) ∧
      (∀ (j : ℕ) (s : String), res[j]? = some s → pal[j]? = some s ∨ valid_hex s = true) := by
  unfold adjust_color_for_dark_background
  by_cases hL : ci.lightness ≥ MIN_LIGHTNESS_ON_DARK_BG
  · rw [if_pos hL]
    exact ⟨pal, rfl, rfl, fun j _ _ => rfl, fun j s hs => Or.inl hs⟩
  · rw [if_neg hL]
    dsimp only
    set pal0 := if pal.getD ci.index "" = "" then pal.set ci.index "#000000" else pal
      with hpal0
    have hlen0 : pal0.length = pal.length := by
      rw [hpal0]; split_ifs <;> simp
    have hpal0_ne : ∀ j, j ≠ ci.index → pal0[j]? = pal[j]? := by
      intro j hj
      rw [hpal0]; split_ifs with he
      · exact getElem?_set_ne' _ _ _ _ (fun h => hj h.symm)
      · rfl
    have hvalid0 : valid_hex (pal0.getD ci.index "") = true := by
      rw [hpal0]
      rcases hparse with hv | he
      · have hne0 : ¬(pal.getD ci.index "" = "") := by
          intro he
          rw [he] at hv
          exact absurd hv (by decide)
        rw [if_neg hne0]
        exact hv
      · rw [if_pos he, List.getD_eq_getElem?_getD,
          getElem?_set_self' _ _ _ (by omega)]
        decide
    rcases hex_to_hsl_of_valid hvalid0 with ⟨hsl0, hhsl0⟩
    have hadj : adjust_color_lightness (pal0.getD ci.index "")
        (MIN_LIGHTNESS_ON_DARK_BG + (ci.index : ℚ) * 3) =
        some (hsl_to_hex hsl0.h hsl0.s
          (MIN_LIGHTNESS_ON_DARK_BG + (ci.index : ℚ) * 3)) := by
      unfold adjust_color_lightness
      rw [hhsl0]
      rfl
    rw [hadj]
    simp only [bind_some_eq]
    set newc := hsl_to_hex hsl0.h hsl0.s
      (MIN_LIGHTNESS_ON_DARK_BG + (ci.index : ℚ) * 3) with hnewc
    have hvnewc : valid_hex newc = true := hsl_to_hex_valid _ _ _
    set pal1 := pal0.set ci.index newc with hpal1
    have hlen1 : pal1.length = pal.length := by
      rw [hpal1, List.length_set, hlen0]
    have hget1 : pal1.getD ci.index "" = newc := by
      rw [hpal1, List.getD_eq_getElem?_getD,
        getElem?_set_self' _ _ _ (by omega)]
      rfl
    by_cases h6 : 1 ≤ ci.index ∧ ci.index ≤ 6
    · rw [if_pos h6]
      rcases generate_bright_version_of_valid (hget1 ▸ hvnewc) with ⟨b, hb, hvb⟩
      rw [hb]
      refine ⟨pal1.set (ci.index + 8) b, rfl, by simp [hlen1], ?_, ?_⟩
      · intro j hj hj8
        rw [getElem?_set_ne' _ _ _ _ (fun h => hj8 h.symm),
          hpal1, getElem?_set_ne' _ _ _ _ (fun h => hj h.symm)]
        exact hpal0_ne j hj
      · intro j s hs
        by_cases hj8 : j = ci.index + 8
        · subst hj8
          rw [getElem?_set_self' _ _ _ (by omega)] at hs
          exact Or.inr ((Option.some.inj hs) ▸ hvb)
        · rw [getElem?_set_ne' _ _ _ _ (fun h => hj8 h.symm)] at hs
          by_cases hj : j = ci.index
          · subst hj
            rw [hpal1, getElem?_set_self' _ _ _ (by omega)] at hs
            exact Or.inr ((Option.some.inj hs) ▸ hvnewc)
          · rw [hpal1, getElem?_set_ne' _ _ _ _ (fun h => hj h.symm)] at hs
            exact Or.inl ((hpal0_ne j hj) ▸ hs)
    · rw [if_neg h6]
      refine ⟨pal1, rfl, hlen1, ?_, ?_⟩
      · intro j hj _
        rw [hpal1, getElem?_set_ne' _ _ _ _ (fun h => hj h.symm)]
        exact hpal0_ne j hj
      · intro j s hs
        by_cases hj : j = ci.index
        · subst hj
          rw [hpal1, getElem?_set_self' _ _ _ (by omega)] at hs
          exact Or.inr ((Option.some.inj hs) ▸ hvnewc)
        · rw [hpal1, getElem?_set_ne' _ _ _ _ (fun h => hj h.symm)] at hs
          exact Or.inl ((hpal0_ne j hj) ▸ hs)

theorem adjust_tail_spec (pal : List String) (idx : ℕ) (target : ℚ)
    (h1 : 1 ≤ idx) (h7 : idx ≤ 7) (hlen : 16 ≤ pal.length)
    (hparse : valid_hex (pal.getD idx "") = true ∨ pal.getD idx "" = "") :
    ∃ res : List String,
      (do
        let pal0 := if pal.getD idx "" = "" then pal.set idx "#000000" else pal
        let newc ← adjust_color_lightness (pal0.getD idx "") target
        let pal1 := pal0.set idx newc
        if 1 ≤ idx ∧ idx ≤ 6 then do
          let bright ← generate_bright_version (some (pal1.getD idx ""))
          pure (pal1.set (idx + 8) bright)
        else pure pal1 : Option (List String)) = some res ∧
      res.length = pal.length ∧
      (∀ j, j ≠ idx → j ≠ idx + 8 → res[j]? = pal[j]?) ∧
      (∀ (j : ℕ) (s : String), res[j]? = some s → pal[j]? = some s ∨ valid_hex s = true) := by
  dsimp only
  set pal0 := if pal.getD idx "" = "" then pal.set idx "#000000" else pal
    with hpal0
  have hlen0 : pal0.length = pal.length := by
    rw [hpal0]; split_ifs <;> simp
  have hpal0_ne : ∀ j, j ≠ idx → pal0[j]? = pal[j]? := by
    intro j hj
    rw [hpal0]; split_ifs with he
    · exact getElem?_set_ne' _ _ _ _ (fun h => hj h.symm)
    · rfl
  have hvalid0 : valid_hex (pal0.getD idx "") = true := by
    rw [hpal0]
    rcases hparse with hv | he
    · have hne0 : ¬(pal.getD idx "" = "") := by
        intro he
        rw [he] at hv
        exact absurd hv (by decide)
      rw [if_neg hne0]
      exact hv
    · rw [if_pos he, List.getD_eq_getElem?_getD,
        getElem?_set_self' _ _ _ (by omega)]
      decide
  rcases hex_to_hsl_of_valid hvalid0 with ⟨hsl0, hhsl0⟩
  have hadj : adjust_color_lightness (pal0.getD idx "") target =
      some (hsl_to_hex hsl0.h hsl0.s target) := by
    unfold adjust_color_lightness
    rw [hhsl0]
    rfl
  rw [hadj]
  simp only [bind_some_eq]
  set newc := hsl_to_hex hsl0.h hsl0.s target with hnewc
  have hvnewc : valid_hex newc = true := hsl_to_hex_valid _ _ _
  set pal1 := pal0.set idx newc with hpal1
  have hlen1 : pal1.length = pal.length := by
    rw [hpal1, List.length_set, hlen0]
  have hget1 : pal1.getD idx "" = newc := by
    rw [hpal1, List.getD_eq_getElem?_getD,
      getElem?_set_self' _ _ _ (by omega)]
    rfl
  by_cases h6 : 1 ≤ idx ∧ idx ≤ 6
  · rw [if_pos h6]
    rcases generate_bright_version_of_valid (hget1 ▸ hvnewc) with ⟨b, hb, hvb⟩
    rw [hb]
    refine ⟨pal1.set (idx + 8) b, rfl, by simp [hlen1], ?_, ?_⟩
    · intro j hj hj8
      rw [getElem?_set_ne' _ _ _ _ (fun h => hj8 h.symm),
        hpal1, getElem?_set_ne' _ _ _ _ (fun h => hj h.symm)]
      exact hpal0_ne j hj
    · intro j s hs
      by_cases hj8 : j = idx + 8
      · subst hj8
        rw [getElem?_set_self' _ _ _ (by omega)] at hs
        exact Or.inr ((Option.some.inj hs) ▸ hvb)
      · rw [getElem?_set_ne' _ _ _ _ (fun h => hj8 h.symm)] at hs
        by_cases hj : j = idx
        · subst hj
          rw [hpal1, getElem?_set_self' _ _ _ (by omega)] at hs
          exact Or.inr ((Option.some.inj hs) ▸ hvnewc)
        · rw [hpal1, getElem?_set_ne' _ _ _ _ (fun h => hj h.symm)] at hs
          exact Or.inl ((hpal0_ne j hj) ▸ hs)
  · rw [if_neg h6]
    refine ⟨pal1, rfl, hlen1, ?_, ?_⟩
    · intro j hj _
      rw [hpal1, getElem?_set_ne' _ _ _ _ (fun h => hj h.symm)]
      exact hpal0_ne j hj
    · intro j s hs
      by_cases hj : j = idx
      · subst hj
        rw [hpal1, getElem?_set_self' _ _ _ (by omega)] at hs
        exact Or.inr ((Option.some.inj hs) ▸ hvnewc)
      · rw [hpal1, getElem?_set_ne' _ _ _ _ (fun h => hj h.symm)] at hs
        exact Or.inl ((hpal0_ne j hj) ▸ hs)

theorem adjust_light_spec (pal : List String) (ci : ColorInfo)
    (h1 : 1 ≤ ci.index) (h7 : ci.index ≤ 7) (hlen : 16 ≤ pal.length)
    (hparse : valid_hex (pal.getD ci.index "") = true ∨ pal.getD ci.index "" = "") :
    ∃ res : List String, adjust_color_for_light_background pal ci = some res ∧
      res.length = pal.length ∧
      (∀ j, j ≠ ci.index → j ≠ ci.index + 8 → res[j]? = pal[j]?) ∧
      (∀ (j : ℕ) (s : String), res[j]? = some s → pal[j]? = some s ∨ valid_hex s = true) := by
  unfold adjust_color_for_light_background
  by_cases hL : ci.lightness ≤ MAX_LIGHTNESS_ON_LIGHT_BG
  · rw [if_pos hL]
    exact ⟨pal, rfl, rfl, fun j _ _ => rfl, fun j s hs => Or.inl hs⟩
  · rw [if_neg hL]
    exact adjust_tail_spec pal ci.index _ h1 h7 hlen hparse

theorem adjust_outlier_spec (pal : List String) (ci : ColorInfo)
    (avg : ℚ) (bt : Bool)
    (h1 : 1 ≤ ci.index) (h7 : ci.index ≤ 7) (hlen : 16 ≤ pal.length)
    (hparse : valid_hex (pal.getD ci.index "") = true ∨ pal.getD ci.index "" = "") :
    ∃ res : List String, adjust_outlier_color pal ci avg bt = some res ∧
      res.length = pal.length ∧
      (∀ j, j ≠ ci.index → j ≠ ci.index + 8 → res[j]? = pal[j]?) ∧
      (∀ (j : ℕ) (s : String), res[j]? = some s → pal[j]? = some s ∨ valid_hex s = true) := by
  unfold adjust_outlier_color
  dsimp only
  by_cases hC : ¬(bt ∧ ci.lightness < avg - OUTLIER_LIGHTNESS_THRESHOLD) ∧
      ¬(¬bt ∧ ci.lightness > avg + OUTLIER_LIGHTNESS_THRESHOLD)
  · rw [if_pos hC]
    exact ⟨pal, rfl, rfl, fun j _ _ => rfl, fun j s hs => Or.inl hs⟩
  · rw [if_neg hC]
    exact adjust_tail_spec pal ci.index _ h1 h7 hlen hparse

theorem hex_to_hsl_gray20 : hex_to_hsl "#202020" = some ⟨0, 0, 251/20⟩ := by
  simp [hex_to_hsl, hex_to_rgb, hexDigitVal, rgb_to_hsl, round2, pyRound, pymod]
  norm_num [Int.fract, Int.floor_eq_iff]

theorem C1_eval :
    normalize_brightness
      [some "#202020", some "#ffffff", some "#ffffff", some "#ffffff",
       some "#ffffff", some "#ffffff", some "#ffffff", some "#ffffff",
       some "#ffffff", some "#ffffff", some "#ffffff", some "#ffffff",
       some "#ffffff", some "#ffffff", some "#ffffff", some "#202020"] =
    some ["#202020", "#ffffff", "#ffffff", "#ffffff",
       "#ffffff", "#ffffff", "#ffffff", "#ffffff",
       "#ffffff", "#ffffff", "#ffffff", "#ffffff",
       "#ffffff", "#ffffff", "#ffffff", "#202020"] := by
  unfold normalize_brightness
  simp only [List.map_cons, List.map_nil, Option.getD_some]
  rw [if_pos (by norm_num)]
  simp only [List.getD, List.get?_cons_zero, List.get?_cons_succ,
    Option.getD_some, List.mapM_cons, List.mapM_nil]
  simp only [hex_to_hsl_gray20, hex_to_hsl_white, bind_some_eq, pure_bind_eq,
    Option.pure_def]
  norm_num [MIN_BACKGROUND_LIGHTNESS_DARK, MAX_BACKGROUND_LIGHTNESS_LIGHT,
    VERY_DARK_BACKGROUND_THRESHOLD, VERY_LIGHT_BACKGROUND_THRESHOLD]
  norm_num [adjust_dark_noop, MIN_LIGHTNESS_ON_DARK_BG]

/-- C1: counterexample to the claimed "step-5 adjustments are applied in every
ambient class".  A fully populated 16-entry palette with a very dark background
(lightness 12.55): the returned index 15 is the unchanged input color, whose
lightness separation from the background is 0, far below the claimed minimum
contrast of 40 — the very-dark path returns right after the per-index
adjustments and never reaches the index-8/index-15 logic. -/
theorem C1_counterexample :
    ∃ res : List String,
      normalize_brightness
        [some "#202020", some "#ffffff", some "#ffffff", some "#ffffff",
         some "#ffffff", some "#ffffff", some "#ffffff", some "#ffffff",
         some "#ffffff", some "#ffffff", some "#ffffff", some "#ffffff",
         some "#ffffff", some "#ffffff", some "#ffffff", some "#202020"] = some res ∧
      res[15]? = some "#202020" ∧ res[0]? = some "#202020" ∧
      hex_to_hsl "#202020" = some ⟨0, 0, 251/20⟩ ∧
      (251/20 : ℚ) < VERY_DARK_BACKGROUND_THRESHOLD ∧
      MIN_BACKGROUND_LIGHTNESS_DARK ≤ (251/20 : ℚ) ∧
      |(251/20 : ℚ) - 251/20| < MIN_FOREGROUND_CONTRAST :=
  ⟨_, C1_eval, rfl, rfl, hex_to_hsl_gray20, by norm_num [VERY_DARK_BACKGROUND_THRESHOLD],
    by norm_num [MIN_BACKGROUND_LIGHTNESS_DARK],
    by norm_num [MIN_FOREGROUND_CONTRAST]⟩

/-- C1 (amended): the step-5 index-8/index-15 adjustments are NOT applied in
every ambient class.  On the very-dark ambient class `normalize_brightness`
returns immediately after the per-index foreground adjustments: whenever those
are no-ops (every ANSI color 1–7 already has lightness ≥ 55), the input palette
is returned completely unchanged — regardless of how little contrast index 15
(or index 8) has against the background.  The index-8/index-15 logic is only
reachable on the mid path, where moreover `is_very_dark` is false. -/
theorem C1_amended (palette : List (Option String))
    (hlen : 16 ≤ palette.length)
    (bgh : HSL)
    (hbg : hex_to_hsl ((palette.map fun p => p.getD "#000000").getD 0 "") = some bgh)
    (hc1 : ¬ bgh.l < MIN_BACKGROUND_LIGHTNESS_DARK)
    (hc2 : ¬ bgh.l > MAX_BACKGROUND_LIGHTNESS_LIGHT)
    (hdark : bgh.l < VERY_DARK_BACKGROUND_THRESHOLD)
    (hnoop : ∀ i : ℕ, 1 ≤ i → i ≤ 7 → ∃ hsl : HSL,
      hex_to_hsl ((palette.map fun p => p.getD "#000000").getD i "") = some hsl ∧
      MIN_LIGHTNESS_ON_DARK_BG ≤ hsl.l) :
    normalize_brightness palette = some (palette.map fun p => p.getD "#000000") := by
  obtain ⟨hsl1, he1, hl1⟩ := hnoop 1 (by norm_num) (by norm_num)
  obtain ⟨hsl2, he2, hl2⟩ := hnoop 2 (by norm_num) (by norm_num)
  obtain ⟨hsl3, he3, hl3⟩ := hnoop 3 (by norm_num) (by norm_num)
  obtain ⟨hsl4, he4, hl4⟩ := hnoop 4 (by norm_num) (by norm_num)
  obtain ⟨hsl5, he5, hl5⟩ := hnoop 5 (by norm_num) (by norm_num)
  obtain ⟨hsl6, he6, hl6⟩ := hnoop 6 (by norm_num) (by norm_num)
  obtain ⟨hsl7, he7, hl7⟩ := hnoop 7 (by norm_num) (by norm_num)
  have n1 : ∀ p : List String,
      adjust_color_for_dark_background p ⟨1, hsl1.l, hsl1.h, hsl1.s⟩ = some p :=
    fun p => adjust_dark_noop p _ hl1
  have n2 : ∀ p : List String,
      adjust_color_for_dark_background p ⟨2, hsl2.l, hsl2.h, hsl2.s⟩ = some p :=
    fun p => adjust_dark_noop p _ hl2
  have n3 : ∀ p : List String,
      adjust_color_for_dark_background p ⟨3, hsl3.l, hsl3.h, hsl3.s⟩ = some p :=
    fun p => adjust_dark_noop p _ hl3
  have n4 : ∀ p : List String,
      adjust_color_for_dark_background p ⟨4, hsl4.l, hsl4.h, hsl4.s⟩ = some p :=
    fun p => adjust_dark_noop p _ hl4
  have n5 : ∀ p : List String,
      adjust_color_for_dark_background p ⟨5, hsl5.l, hsl5.h, hsl5.s⟩ = some p :=
    fun p => adjust_dark_noop p _ hl5
  have n6 : ∀ p : List String,
      adjust_color_for_dark_background p ⟨6, hsl6.l, hsl6.h, hsl6.s⟩ = some p :=
    fun p => adjust_dark_noop p _ hl6
  have n7 : ∀ p : List String,
      adjust_color_for_dark_background p ⟨7, hsl7.l, hsl7.h, hsl7.s⟩ = some p :=
    fun p => adjust_dark_noop p _ hl7
  unfold normalize_brightness
  rw [if_pos (by rw [List.length_map]; exact hlen)]
  rw [hbg]
  simp only [bind_some_eq]
  rw [if_neg hc1, if_neg hc2]
  simp only [List.mapM_cons, List.mapM_nil]
  rw [he1, he2, he3, he4, he5, he6, he7]
  simp only [bind_some_eq, pure_bind_eq, Option.pure_def]
  rw [if_pos hdark]
  simp only [List.foldlM_cons, List.foldlM_nil, n1, n2, n3, n4, n5, n6, n7,
    bind_some_eq, Option.pure_def]

/-- C1 witness: the amended theorem applied to a concrete very-dark palette. -/
theorem C1_amended_witness :
    normalize_brightness
      [some "#202020", some "#ffffff", some "#ffffff", some "#ffffff",
       some "#ffffff", some "#ffffff", some "#ffffff", some "#ffffff",
       some "#ffffff", some "#ffffff", some "#ffffff", some "#ffffff",
       some "#ffffff", some "#ffffff", some "#ffffff", some "#ffffff"] =
    some ["#202020", "#ffffff", "#ffffff", "#ffffff",
       "#ffffff", "#ffffff", "#ffffff", "#ffffff",
       "#ffffff", "#ffffff", "#ffffff", "#ffffff",
       "#ffffff", "#ffffff", "#ffffff", "#ffffff"] := by
  have h := C1_amended
    [some "#202020", some "#ffffff", some "#ffffff", some "#ffffff",
     some "#ffffff", some "#ffffff", some "#ffffff", some "#ffffff",
     some "#ffffff", some "#ffffff", some "#ffffff", some "#ffffff",
     some "#ffffff", some "#ffffff", some "#ffffff", some "#ffffff"]
    (by norm_num) ⟨0, 0, 251/20⟩ hex_to_hsl_gray20
    (by norm_num [MIN_BACKGROUND_LIGHTNESS_DARK])
    (by norm_num [MAX_BACKGROUND_LIGHTNESS_LIGHT])
    (by norm_num [VERY_DARK_BACKGROUND_THRESHOLD])
    (by
      intro i h1 h7
      interval_cases i <;>
        exact ⟨⟨0, 0, 100⟩, hex_to_hsl_white, by norm_num [MIN_LIGHTNESS_ON_DARK_BG]⟩)
  simpa using h

/-- A palette in which every entry is a valid 6-digit hex color string. -/
def ValidPal (pal : List String) : Prop :=
  ∀ (j : ℕ) (s : String), pal[j]? = some s → valid_hex s = true

theorem ValidPal_getD {pal : List String} (h : ValidPal pal)
    {j : ℕ} (hj : j < pal.length) : valid_hex (pal.getD j "") = true := by
  rcases List.getElem?_eq_some_iff.mpr ⟨hj, rfl⟩ with hs
  rw [List.getD_eq_getElem?_getD, hs]
  exact h j _ hs

/-- Folding any of the three per-color adjusters over a list of ANSI color
infos with indices in [1,7] succeeds on a 16-or-longer all-valid palette and
preserves length and validity. -/
theorem foldlM_adjust_spec (g : List String → ColorInfo → Option (List String))
    (hg : ∀ (pal : List String) (ci : ColorInfo), 1 ≤ ci.index → ci.index ≤ 7 →
      16 ≤ pal.length →
      (valid_hex (pal.getD ci.index "") = true ∨ pal.getD ci.index "" = "") →
      ∃ res : List String, g pal ci = some res ∧
        res.length = pal.length ∧
        (∀ j, j ≠ ci.index → j ≠ ci.index + 8 → res[j]? = pal[j]?) ∧
        (∀ (j : ℕ) (s : String), res[j]? = some s →
          pal[j]? = some s ∨ valid_hex s = true))
    (cis : List ColorInfo) (hcis : ∀ ci ∈ cis, 1 ≤ ci.index ∧ ci.index ≤ 7) :
    ∀ (pal : List String), 16 ≤ pal.length → ValidPal pal →
    ∃ res : List String, cis.foldlM g pal = some res ∧
      res.length = pal.length ∧ ValidPal res := by
  induction cis with
  | nil =>
    intro pal hlen hval
    exact ⟨pal, rfl, rfl, hval⟩
  | cons ci cis ih =>
    intro pal hlen hval
    obtain ⟨h1, h7⟩ := hcis ci (List.mem_cons_self ci cis)
    obtain ⟨r1, hr1, hl1, _, hw1⟩ := hg pal ci h1 h7 hlen
      (Or.inl (ValidPal_getD hval (by omega)))
    have hval1 : ValidPal r1 := by
      intro j s hs
      rcases hw1 j s hs with hold | hnew
      · exact hval j s hold
      · exact hnew
    obtain ⟨res, hres, hlres, hvres⟩ :=
      ih (fun c hc => hcis c (List.mem_cons_of_mem ci hc)) r1 (by omega) hval1
    refine ⟨res, ?_, by omega, hvres⟩
    rw [List.foldlM_cons, hr1, bind_some_eq, hres]

/-- `normalize_brightness` succeeds on every 16-or-longer palette whose
populated entries are valid hex colors, returning a same-length palette of
valid hex colors. -/
theorem normalize_brightness_total (palette : List (Option String))
    (hlen : 16 ≤ palette.length)
    (hval : ∀ (j : ℕ) (o : Option String), palette[j]? = some o →
      valid_hex (o.getD "#000000") = true) :
    ∃ res : List String, normalize_brightness palette = some res ∧
      res.length = palette.length ∧ ValidPal res := by
  set pal_strs : List String := palette.map fun p => p.getD "#000000" with hps
  have hlenps : pal_strs.length = palette.length := by
    rw [hps, List.length_map]
  have hvalps : ValidPal pal_strs := by
    intro j s hs
    rw [hps, List.getElem?_map] at hs
    rcases ho : palette[j]? with _ | o
    · rw [ho] at hs; exact Option.noConfusion hs
    · rw [ho] at hs
      simp only [Option.map_some'] at hs
      rw [← Option.some.inj hs]
      exact hval j o ho
  have hget : ∀ j : ℕ, j < 16 → ∃ s : String, pal_strs[j]? = some s ∧
      pal_strs.getD j "" = s ∧ valid_hex s = true := by
    intro j hj
    have hjl : j < pal_strs.length := by omega
    have hs := List.getElem?_eq_some_iff.mpr ⟨hjl, rfl⟩
    exact ⟨_, hs, by rw [List.getD_eq_getElem?_getD, hs]; rfl, hvalps j _ hs⟩
  obtain ⟨s0, hs0, hg0, hv0⟩ := hget 0 (by norm_num)
  obtain ⟨bgh, hbg⟩ := hex_to_hsl_of_valid hv0
  obtain ⟨s1, hs1, hg1, hv1⟩ := hget 1 (by norm_num)
  obtain ⟨hsl1, he1⟩ := hex_to_hsl_of_valid hv1
  obtain ⟨s2, hs2, hg2, hv2⟩ := hget 2 (by norm_num)
  obtain ⟨hsl2, he2⟩ := hex_to_hsl_of_valid hv2
  obtain ⟨s3, hs3, hg3, hv3⟩ := hget 3 (by norm_num)
  obtain ⟨hsl3, he3⟩ := hex_to_hsl_of_valid hv3
  obtain ⟨s4, hs4, hg4, hv4⟩ := hget 4 (by norm_num)
  obtain ⟨hsl4, he4⟩ := hex_to_hsl_of_valid hv4
  obtain ⟨s5, hs5, hg5, hv5⟩ := hget 5 (by norm_num)
  obtain ⟨hsl5, he5⟩ := hex_to_hsl_of_valid hv5
  obtain ⟨s6, hs6, hg6, hv6⟩ := hget 6 (by norm_num)
  obtain ⟨hsl6, he6⟩ := hex_to_hsl_of_valid hv6
  obtain ⟨s7, hs7, hg7, hv7⟩ := hget 7 (by norm_num)
  obtain ⟨hsl7, he7⟩ := hex_to_hsl_of_valid hv7
  unfold normalize_brightness
  rw [← hps]
  rw [if_pos (by omega)]
  rw [hg0, hbg]
  simp only [bind_some_eq]
  simp only [List.mapM_cons, List.mapM_nil]
  rw [hg1, he1, hg2, he2, hg3, he3, hg4, he4, hg5, he5, hg6, he6, hg7, he7]
  simp only [bind_some_eq, pure_bind_eq, Option.pure_def]
  set B : ℚ := if bgh.l < MIN_BACKGROUND_LIGHTNESS_DARK then MIN_BACKGROUND_LIGHTNESS_DARK
    else if bgh.l > MAX_BACKGROUND_LIGHTNESS_LIGHT then MAX_BACKGROUND_LIGHTNESS_LIGHT
    else bgh.l with hB
  set cis : List ColorInfo :=
    [⟨1, hsl1.l, hsl1.h, hsl1.s⟩, ⟨2, hsl2.l, hsl2.h, hsl2.s⟩,
     ⟨3, hsl3.l, hsl3.h, hsl3.s⟩, ⟨4, hsl4.l, hsl4.h, hsl4.s⟩,
     ⟨5, hsl5.l, hsl5.h, hsl5.s⟩, ⟨6, hsl6.l, hsl6.h, hsl6.s⟩,
     ⟨7, hsl7.l, hsl7.h, hsl7.s⟩] with hcis
  have hcis_idx : ∀ ci ∈ cis, 1 ≤ ci.index ∧ ci.index ≤ 7 := by
    intro ci hci
    rw [hcis] at hci
    fin_cases hci <;> exact ⟨by norm_num, by norm_num⟩
  by_cases hvd : B < VERY_DARK_BACKGROUND_THRESHOLD
  · rw [if_pos hvd]
    obtain ⟨res, hres, hlres, hvres⟩ :=
      foldlM_adjust_spec adjust_color_for_dark_background
        (fun pal ci h1 h7 hl hp => adjust_dark_spec pal ci h1 h7 hl hp)
        cis hcis_idx pal_strs (by omega) hvalps
    exact ⟨res, hres, by omega, hvres⟩
  · rw [if_neg hvd]
    by_cases hvl : B > VERY_LIGHT_BACKGROUND_THRESHOLD
    · rw [if_pos hvl]
      obtain ⟨res, hres, hlres, hvres⟩ :=
        foldlM_adjust_spec adjust_color_for_light_background
          (fun pal ci h1 h7 hl hp => adjust_light_spec pal ci h1 h7 hl hp)
          cis hcis_idx pal_strs (by omega) hvalps
      exact ⟨res, hres, by omega, hvres⟩
    · rw [if_neg hvl]
      set avg : ℚ := ((cis.map ColorInfo.lightness).sum / (cis.length : ℚ)) with havg
      set bt : Bool := decide (avg > BRIGHT_THEME_THRESHOLD) with hbt
      obtain ⟨pal1, hpal1, hlpal1, hvpal1⟩ :=
        foldlM_adjust_spec (fun pal out => adjust_outlier_color pal out avg bt)
          (fun pal ci h1 h7 hl hp => adjust_outlier_spec pal ci avg bt h1 h7 hl hp)
          (cis.filter fun c => |c.lightness - avg| > OUTLIER_LIGHTNESS_THRESHOLD)
          (fun ci hci => hcis_idx ci (List.mem_of_mem_filter hci))
          pal_strs (by omega) hvalps
      rw [hpal1]
      simp only [bind_some_eq]
      have hv8 : valid_hex (pal1.getD 8 "") = true :=
        ValidPal_getD hvpal1 (by omega)
      obtain ⟨c8h, hc8⟩ := hex_to_hsl_of_valid hv8
      rw [hc8]
      simp only [bind_some_eq]
      rw [if_neg (fun hc => hvd hc.1)]
      have hv15 : valid_hex (pal1.getD 15 "") = true :=
        ValidPal_getD hvpal1 (by omega)
      obtain ⟨c15h, hc15⟩ := hex_to_hsl_of_valid hv15
      rw [hc15]
      simp only [bind_some_eq]
      by_cases hct : |c15h.l - B| < MIN_FOREGROUND_CONTRAST
      · rw [if_pos hct]
        refine ⟨_, rfl, by simp [hlpal1]; omega, ?_⟩
        intro j s hs
        by_cases hj : j = 15
        · subst hj
          rw [getElem?_set_self' _ _ _ (by omega)] at hs
          rw [← Option.some.inj hs]
          exact hsl_to_hex_valid _ _ _
        · rw [getElem?_set_ne' _ _ _ _ (fun h => hj h.symm)] at hs
          exact hvpal1 j s hs
      · rw [if_neg hct]
        exact ⟨pal1, rfl, by omega, hvpal1⟩

/-- C10: `normalize_brightness` is total on partially populated 16-slot
palettes: it treats every `None` entry as the color `'#000000'` (replacing all
`None`s by `Some '#000000'` up front does not change the result), and — as
long as the populated entries are valid hex colors — it returns, without
raising, a list of 16 concrete hex color strings. -/
theorem C10_partial_palette_total (palette : List (Option String))
    (hlen : palette.length = 16)
    (hval : ∀ (j : ℕ) (o : Option String), palette[j]? = some o →
      valid_hex (o.getD "#000000") = true) :
    normalize_brightness palette =
      normalize_brightness (palette.map fun p => some (p.getD "#000000")) ∧
    ∃ res : List String, normalize_brightness palette = some res ∧
      res.length = 16 ∧
      ∀ (j : ℕ) (s : String), res[j]? = some s → valid_hex s = true := by
  constructor
  · unfold normalize_brightness
    rw [List.map_map]
    rfl
  · obtain ⟨res, hres, hlres, hvres⟩ :=
      normalize_brightness_total palette (by omega) hval
    exact ⟨res, hres, by omega, hvres⟩

/-- C10 witness: a 16-slot palette with several `None` holes is normalized
successfully. -/
theorem C10_partial_palette_total_witness :
    (normalize_brightness
        [some "#202020", none, some "#ffffff", none,
         some "#ffffff", none, some "#ffffff", none,
         some "#080808", none, some "#ffffff", none,
         some "#ffffff", none, some "#ffffff", none] =
      normalize_brightness
        (([some "#202020", none, some "#ffffff", none,
           some "#ffffff", none, some "#ffffff", none,
           some "#080808", none, some "#ffffff", none,
           some "#ffffff", none, some "#ffffff", none]).map
          fun p => some (p.getD "#000000"))) ∧
    ∃ res : List String,
      normalize_brightness
        [some "#202020", none, some "#ffffff", none,
         some "#ffffff", none, some "#ffffff", none,
         some "#080808", none, some "#ffffff", none,
         some "#ffffff", none, some "#ffffff", none] = some res ∧
      res.length = 16 ∧
      ∀ (j : ℕ) (s : String), res[j]? = some s → valid_hex s = true := by
  apply C10_partial_palette_total
  · rfl
  · intro j o hjo
    have hj : j < 16 := by
      by_contra hge
      rw [List.getElem?_eq_none (by simp; omega)] at hjo
      exact Option.noConfusion hjo
    interval_cases j <;>
      simp only [List.getElem?_cons_zero, List.getElem?_cons_succ] at hjo <;>
      rw [← Option.some.inj hjo] <;> decide

theorem foldl_inv {α β : Type} (P : β → Prop) (f : β → α → β) (l : List α)
    (b : β) (hb : P b) (hf : ∀ b a, a ∈ l → P b → P (f b a)) :
    P (l.foldl f b) := by
  induction l generalizing b with
  | nil => exact hb
  | cons x xs ih =>
    rw [List.foldl_cons]
    exact ih (f b x) (hf b x (by simp) hb) (fun b a ha hb => hf b a (by simp [ha]) hb)

theorem mapM_hex_to_hsl_some {colors : List String}
    (hval : ∀ c ∈ colors, valid_hex c = true) :
    ∃ hsls, colors.mapM hex_to_hsl = some hsls :=
  mapM_option_some (fun c hc => by
    rcases hex_to_hsl_of_valid (hval c hc) with ⟨h, hh⟩
    rw [hh]; rfl)

theorem mem_enum_fst_lt {α : Type} {l : List α} {p : ℕ × α} (h : p ∈ l.enum) :
    p.1 < l.length := by
  have := List.fst_lt_add_of_mem_enumFrom (l := l) (n := 0) h
  omega

theorem mem_enum_snd_mem {α : Type} {l : List α} {p : ℕ × α} (h : p ∈ l.enum) :
    p.2 ∈ l := by
  exact List.snd_mem_of_mem_enumFrom h

theorem is_dark_color_some {c : String} (hv : valid_hex c = true) (t : ℚ) :
    ∃ b, is_dark_color c t = some b := by
  rcases hex_to_hsl_of_valid hv with ⟨hsl, hh⟩
  unfold is_dark_color
  rw [hh]
  exact ⟨_, rfl⟩

theorem is_monochrome_image_some {colors : List String} (hne : colors ≠ [])
    (hval : ∀ c ∈ colors, valid_hex c = true) :
    ∃ b, is_monochrome_image colors = some b := by
  obtain ⟨hsls, hh⟩ := mapM_hex_to_hsl_some hval
  unfold is_monochrome_image
  rw [hh]
  simp only [bind_some_eq]
  rw [if_neg (by simpa [List.length_eq_zero] using hne)]
  exact ⟨_, rfl⟩

theorem has_low_color_diversity_some {colors : List String}
    (hval : ∀ c ∈ colors, valid_hex c = true) :
    ∃ b, has_low_color_diversity colors = some b := by
  obtain ⟨hsls, hh⟩ := mapM_hex_to_hsl_some hval
  unfold has_low_color_diversity
  rw [hh]
  simp only [bind_some_eq]
  split_ifs <;> exact ⟨_, rfl⟩

theorem classify_image_some {colors : List String} (hne : colors ≠ [])
    (hval : ∀ c ∈ colors, valid_hex c = true) :
    ∃ cls, classify_image colors = some cls := by
  obtain ⟨b1, h1⟩ := is_monochrome_image_some hne hval
  obtain ⟨b2, h2⟩ := has_low_color_diversity_some hval
  unfold classify_image
  rw [h1]
  simp only [bind_some_eq]
  cases b1
  · rw [if_neg (by simp)]
    rw [h2]
    simp only [bind_some_eq]
    cases b2
    · rw [if_neg (by simp)]; exact ⟨_, rfl⟩
    · rw [if_pos rfl]; exact ⟨_, rfl⟩
  · rw [if_pos rfl]; exact ⟨_, rfl⟩

theorem find_background_color_spec {colors : List String} {lm : Bool}
    (hne : colors ≠ []) (hval : ∀ c ∈ colors, valid_hex c = true) :
    ∃ pick : ColorPick, find_background_color colors lm = some pick ∧
      valid_hex pick.color = true := by
  obtain ⟨hsls, hh⟩ := mapM_hex_to_hsl_some hval
  have hlen : hsls.length = colors.length := mapM_option_length hh
  have hpos : 0 < colors.length := List.length_pos.mpr hne
  unfold find_background_color
  rw [hh]
  simp only [bind_some_eq]
  set sc : ℤ × ℚ := hsls.enum.foldl
    (fun (acc : ℤ × ℚ) ih =>
      if lm = true then
        if ih.2.l > acc.2 ∧ ih.2.l ≤ MAX_BACKGROUND_LIGHTNESS_LIGHT then
          ((ih.1 : ℤ), ih.2.l)
        else acc
      else
        if ih.2.l < acc.2 ∧ ih.2.l ≥ MIN_BACKGROUND_LIGHTNESS_DARK then
          ((ih.1 : ℤ), ih.2.l)
        else acc)
    (-1, if lm = true then -1 else 101) with hsc
  have hinv : sc.1 = -1 ∨ sc.1.toNat < colors.length := by
    rw [hsc]
    apply foldl_inv (fun acc : ℤ × ℚ => acc.1 = -1 ∨ acc.1.toNat < colors.length)
    · exact Or.inl rfl
    · intro b a ha hb
      have hlt := mem_enum_fst_lt ha
      split_ifs <;> first
        | exact hb
        | (right; show ((a.1 : ℤ)).toNat < colors.length; omega)
  by_cases hs1 : sc.1 = -1
  · rw [if_pos hs1]
    set cl : ℕ × Option ℚ := hsls.enum.foldl
      (fun (acc : ℕ × Option ℚ) ih =>
        match acc.2 with
        | none => (ih.1, some |ih.2.l - if lm = true then MAX_BACKGROUND_LIGHTNESS_LIGHT
            else MIN_BACKGROUND_LIGHTNESS_DARK|)
        | some bd =>
          if |ih.2.l - if lm = true then MAX_BACKGROUND_LIGHTNESS_LIGHT
              else MIN_BACKGROUND_LIGHTNESS_DARK| < bd then
            (ih.1, some |ih.2.l - if lm = true then MAX_BACKGROUND_LIGHTNESS_LIGHT
              else MIN_BACKGROUND_LIGHTNESS_DARK|)
          else acc)
      (0, none) with hcl
    have hcl1 : cl.1 < colors.length := by
      rw [hcl]
      apply foldl_inv (fun acc : ℕ × Option ℚ => acc.1 < colors.length)
      · exact hpos
      · intro b a ha hb
        have hlt := mem_enum_fst_lt ha
        rcases b with ⟨i, bd⟩
        cases bd with
        | none => show a.1 < colors.length; omega
        | some v =>
          dsimp only
          split_ifs <;> first
            | exact hb
            | (show a.1 < colors.length; omega)
    simp only [pure_bind_eq]
    rw [List.get?_eq_get hcl1]
    simp only [bind_some_eq]
    have hvs : valid_hex (colors.get ⟨cl.1, hcl1⟩) = true :=
      hval _ (List.get_mem colors _ _)
    obtain ⟨shsl, hsh⟩ := hex_to_hsl_of_valid hvs
    rw [hsh]
    simp only [bind_some_eq]
    split_ifs
    · exact ⟨_, rfl, hsl_to_hex_valid _ _ _⟩
    · exact ⟨_, rfl, hsl_to_hex_valid _ _ _⟩
    · exact ⟨_, rfl, hvs⟩
  · rw [if_neg hs1]
    have hbi : sc.1.toNat < colors.length := by
      rcases hinv with h | h
      · exact absurd h hs1
      · exact h
    simp only [pure_bind_eq]
    rw [List.get?_eq_get hbi]
    simp only [bind_some_eq]
    have hvs : valid_hex (colors.get ⟨sc.1.toNat, hbi⟩) = true :=
      hval _ (List.get_mem colors _ _)
    obtain ⟨shsl, hsh⟩ := hex_to_hsl_of_valid hvs
    rw [hsh]
    simp only [bind_some_eq]
    split_ifs
    · exact ⟨_, rfl, hsl_to_hex_valid _ _ _⟩
    · exact ⟨_, rfl, hsl_to_hex_valid _ _ _⟩
    · exact ⟨_, rfl, hvs⟩

theorem find_foreground_color_spec {colors : List String} {lm : Bool}
    {used : List ℕ} {bgl : ℚ}
    (hval : ∀ c ∈ colors, valid_hex c = true) :
    ∃ pick : ColorPick, find_foreground_color colors lm used bgl = some pick ∧
      valid_hex pick.color = true := by
  obtain ⟨hsls, hh⟩ := mapM_hex_to_hsl_some hval
  have hlen : hsls.length = colors.length := mapM_option_length hh
  unfold find_foreground_color
  rw [hh]
  simp only [bind_some_eq]
  set sc : ℤ × ℚ := hsls.enum.foldl
    (fun (acc : ℤ × ℚ) ih =>
      if ih.1 ∈ used then acc
      else if lm = true then
        if ih.2.l < acc.2 then ((ih.1 : ℤ), ih.2.l) else acc
      else
        if ih.2.l > acc.2 then ((ih.1 : ℤ), ih.2.l) else acc)
    (-1, if lm = true then 101 else -1) with hsc
  have hinv : sc.1 = -1 ∨ sc.1.toNat < colors.length := by
    rw [hsc]
    apply foldl_inv (fun acc : ℤ × ℚ => acc.1 = -1 ∨ acc.1.toNat < colors.length)
    · exact Or.inl rfl
    · intro b a ha hb
      have hlt := mem_enum_fst_lt ha
      split_ifs <;> first
        | exact hb
        | (right; show ((a.1 : ℤ)).toNat < colors.length; omega)
  by_cases hs1 : sc.1 = -1
  · rw [if_pos hs1]
    exact ⟨_, rfl, hsl_to_hex_valid _ _ _⟩
  · rw [if_neg hs1]
    have hbi : sc.1.toNat < colors.length := by
      rcases hinv with h | h
      · exact absurd h hs1
      · exact h
    rw [List.get?_eq_get hbi]
    simp only [bind_some_eq]
    have hvs : valid_hex (colors.get ⟨sc.1.toNat, hbi⟩) = true :=
      hval _ (List.get_mem colors _ _)
    obtain ⟨shsl, hsh⟩ := hex_to_hsl_of_valid hvs
    rw [hsh]
    simp only [bind_some_eq]
    split_ifs <;> first
      | exact ⟨_, rfl, hsl_to_hex_valid _ _ _⟩
      | exact ⟨_, rfl, hvs⟩

theorem find_best_color_match_some {hue : ℚ} {pool : List String}
    {used : List ℕ} (hne : pool ≠ [])
    (hval : ∀ c ∈ pool, valid_hex c = true) :
    ∃ i, find_best_color_match hue pool used = some i ∧ i < pool.length := by
  obtain ⟨hsls, hh⟩ := mapM_hex_to_hsl_some hval
  have hlen : hsls.length = pool.length := mapM_option_length hh
  have hpos : 0 < pool.length := List.length_pos.mpr hne
  unfold find_best_color_match
  rw [hh]
  simp only [bind_some_eq]
  set sc : ℤ × Option ℚ := hsls.enum.foldl
    (fun (acc : ℤ × Option ℚ) ih =>
      if ih.1 ∈ used then acc
      else
        match acc.2 with
        | none => ((ih.1 : ℤ), some (calculate_color_score ih.2 hue))
        | some best =>
          if calculate_color_score ih.2 hue < best then
            ((ih.1 : ℤ), some (calculate_color_score ih.2 hue))
          else acc)
    (-1, none) with hsc
  have hinv : sc.1 = -1 ∨ sc.1.toNat < pool.length := by
    rw [hsc]
    apply foldl_inv (fun acc : ℤ × Option ℚ => acc.1 = -1 ∨ acc.1.toNat < pool.length)
    · exact Or.inl rfl
    · intro b a ha hb
      have hlt := mem_enum_fst_lt ha
      rcases b with ⟨i, bd⟩
      split_ifs
      · exact hb
      · cases bd with
        | none => right; show ((a.1 : ℤ)).toNat < pool.length; omega
        | some v =>
          dsimp only
          split_ifs
          · right; show ((a.1 : ℤ)).toNat < pool.length; omega
          · exact hb
  by_cases hs1 : sc.1 = -1
  · rw [if_pos hs1]
    rcases hfind : (List.range pool.length).find? (fun i => ¬(i ∈ used)) with _ | i
    · exact ⟨0, rfl, hpos⟩
    · exact ⟨i, rfl, List.mem_range.mp (List.mem_of_find?_eq_some hfind)⟩
  · rw [if_neg hs1]
    refine ⟨sc.1.toNat, rfl, ?_⟩
    rcases hinv with h | h
    · exact absurd h hs1
    · exact h

theorem sort_colors_spec {colors : List String}
    (hval : ∀ c ∈ colors, valid_hex c = true) :
    ∃ arr : List LColor, sort_colors_by_lightness colors = some arr ∧
      arr.length = colors.length ∧ ∀ lc ∈ arr, lc.color ∈ colors := by
  obtain ⟨lst, hlst⟩ := mapM_option_some
    (f := fun c => hex_to_hsl c >>= fun hsl => pure (⟨c, hsl.l, hsl.h⟩ : LColor))
    (fun c hc => by
      rcases hex_to_hsl_of_valid (hval c hc) with ⟨h, hh⟩
      show (hex_to_hsl c >>= fun hsl => pure (⟨c, hsl.l, hsl.h⟩ : LColor)).isSome = true
      rw [hh, bind_some_eq]; rfl)
  have hmem : ∀ lc ∈ lst, lc.color ∈ colors := by
    intro lc hlc
    rcases mapM_option_mem hlst lc hlc with ⟨a, ha, hfa⟩
    have hfa' : (hex_to_hsl a >>= fun hsl => pure (⟨a, hsl.l, hsl.h⟩ : LColor)) =
        some lc := hfa
    clear hfa
    rcases hres : hex_to_hsl a with _ | hsl
    · rw [hres] at hfa'
      exact Option.noConfusion hfa'
    · rw [hres, bind_some_eq] at hfa'
      rw [← Option.some.inj hfa']
      exact ha
  have hlen : lst.length = colors.length := mapM_option_length hlst
  unfold sort_colors_by_lightness
  rw [hlst]
  simp only [bind_some_eq]
  refine ⟨_, rfl, ?_, ?_⟩
  · rw [List.length_mergeSort, hlen]
  · intro lc hlc
    exact hmem lc ((List.mergeSort_perm lst _).mem_iff.mp hlc)

/-- A 16-entry option-palette whose populated entries are valid hex colors
(the shape handed to `normalize_brightness`). -/
def PalOk (pal : List (Option String)) : Prop :=
  pal.length = 16 ∧
  ∀ (j : ℕ) (o : Option String), pal[j]? = some o →
    valid_hex (o.getD "#000000") = true

theorem PalOk_replicate : PalOk (List.replicate ANSI_PALETTE_SIZE none) := by
  constructor
  · rfl
  · intro j o h
    rw [List.getElem?_replicate] at h
    split_ifs at h
    all_goals first
      | (rw [← Option.some.inj h]; decide)
      | exact Option.noConfusion h

theorem PalOk_set {pal : List (Option String)} (h : PalOk pal)
    {o : Option String} (ho : valid_hex (o.getD "#000000") = true) (i : ℕ) :
    PalOk (pal.set i o) := by
  obtain ⟨hlen, hg⟩ := h
  refine ⟨by rw [List.length_set, hlen], ?_⟩
  intro j o' hj
  by_cases hij : i = j
  · subst hij
    by_cases hlt : i < pal.length
    · rw [getElem?_set_self' _ _ _ hlt] at hj
      rw [← Option.some.inj hj]
      exact ho
    · rw [List.getElem?_eq_none (by rw [List.length_set]; omega)] at hj
      exact Option.noConfusion hj
  · rw [getElem?_set_ne' _ _ _ _ hij] at hj
    exact hg j o' hj

theorem PalOk_foldl {β : Type} {step : List (Option String) → β → List (Option String)}
    {l : List β}
    (hstep : ∀ pal b, b ∈ l → PalOk pal → PalOk (step pal b))
    {pal : List (Option String)} (h : PalOk pal) :
    PalOk (l.foldl step pal) :=
  foldl_inv PalOk step l pal h hstep

theorem generate_subtle_spec {colors : List String} {lm : Bool}
    (hne : colors ≠ []) (hval : ∀ c ∈ colors, valid_hex c = true) :
    ∃ pal, generate_subtle_balanced_palette colors lm = some pal ∧ PalOk pal := by
  obtain ⟨arr, hsort, hlenarr, hmemarr⟩ := sort_colors_spec hval
  have hne' : arr ≠ [] := by
    intro h
    apply hne
    apply List.length_eq_zero.mp
    rw [← hlenarr, h]
    rfl
  have hhead : arr.head? = some (arr.head hne') := List.head?_eq_head hne'
  have hlast : arr.getLast? = some (arr.getLast hne') :=
    List.getLast?_eq_getLast arr hne'
  have hvdark : valid_hex (arr.head hne').color = true :=
    hval _ (hmemarr _ (List.head_mem hne'))
  have hvlight : valid_hex (arr.getLast hne').color = true :=
    hval _ (hmemarr _ (List.getLast_mem hne'))
  obtain ⟨hsls, hh⟩ := mapM_hex_to_hsl_some hval
  unfold generate_subtle_balanced_palette
  rw [hsort]
  simp only [bind_some_eq]
  rw [hhead]
  simp only [bind_some_eq]
  rw [hlast]
  simp only [bind_some_eq]
  rw [hh]
  simp only [bind_some_eq]
  refine ⟨_, rfl, ?_⟩
  apply PalOk_set
  · apply PalOk_foldl
    · intro pal b _ hp
      dsimp only
      apply PalOk_set hp
      simp only [Option.getD_some]
      exact hsl_to_hex_valid _ _ _
    · apply PalOk_set
      · apply PalOk_foldl
        · intro pal b _ hp
          dsimp only
          apply PalOk_set hp
          simp only [Option.getD_some]
          exact hsl_to_hex_valid _ _ _
        · apply PalOk_set
          · apply PalOk_set
            · exact PalOk_replicate
            · simp only [Option.getD_some]
              split_ifs
              · exact hvlight
              · exact hvdark
          · simp only [Option.getD_some]
            split_ifs
            · exact hvdark
            · exact hvlight
      · simp only [Option.getD_some]
        exact hsl_to_hex_valid _ _ _
  · simp only [Option.getD_some]
    split_ifs <;> exact hsl_to_hex_valid _ _ _

theorem foldlM_popwrite_spec
    (step : List (Option String) → ℕ → Option (List (Option String)))
    (hstep : ∀ pal i, 1 ≤ i → i ≤ 6 → PalOk pal →
      (∃ s, pal.getD i none = some s ∧ valid_hex s = true) →
      ∃ res, step pal i = some res ∧ PalOk res ∧
        ∀ j, j ≠ i + 8 → res[j]? = pal[j]?) :
    ∀ (lst : List ℕ), (∀ i ∈ lst, 1 ≤ i ∧ i ≤ 6) →
    ∀ pal, PalOk pal →
      (∀ i, 1 ≤ i → i ≤ 6 → ∃ s, pal.getD i none = some s ∧ valid_hex s = true) →
      ∃ res, lst.foldlM step pal = some res ∧ PalOk res := by
  intro lst
  induction lst with
  | nil =>
    intro _ pal hp _
    exact ⟨pal, rfl, hp⟩
  | cons i is ih =>
    intro hmem pal hp hpop
    obtain ⟨h1, h6⟩ := hmem i (by simp)
    obtain ⟨r1, hr1, hpr1, hne1⟩ := hstep pal i h1 h6 hp (hpop i h1 h6)
    have hpop1 : ∀ k, 1 ≤ k → k ≤ 6 →
        ∃ s, r1.getD k none = some s ∧ valid_hex s = true := by
      intro k hk1 hk6
      obtain ⟨s, hgs, hvs⟩ := hpop k hk1 hk6
      refine ⟨s, ?_, hvs⟩
      rw [List.getD_eq_getElem?_getD, hne1 k (by omega),
        ← List.getD_eq_getElem?_getD, hgs]
    obtain ⟨res, hres, hpres⟩ := ih (fun j hj => hmem j (by simp [hj])) r1 hpr1 hpop1
    exact ⟨res, by rw [List.foldlM_cons, hr1, bind_some_eq, hres], hpres⟩

theorem foldlM_then_set15
    (step : List (Option String) → ℕ → Option (List (Option String)))
    (hstep : ∀ pal i, 1 ≤ i → i ≤ 6 → PalOk pal →
      (∃ s, pal.getD i none = some s ∧ valid_hex s = true) →
      ∃ res, step pal i = some res ∧ PalOk res ∧
        ∀ j, j ≠ i + 8 → res[j]? = pal[j]?)
    (lst : List ℕ) (hlst : ∀ i ∈ lst, 1 ≤ i ∧ i ≤ 6)
    (pal : List (Option String)) (hpal : PalOk pal)
    (hpop : ∀ i, 1 ≤ i → i ≤ 6 → ∃ s, pal.getD i none = some s ∧ valid_hex s = true)
    (v15 : Option String) (hv15 : valid_hex (v15.getD "#000000") = true) :
    ∃ res, (lst.foldlM step pal >>= fun p => pure (p.set 15 v15)) = some res ∧
      PalOk res := by
  obtain ⟨r, hr, hpr⟩ := foldlM_popwrite_spec step hstep lst hlst pal hpal hpop
  rw [hr, bind_some_eq]
  exact ⟨_, rfl, PalOk_set hpr hv15 15⟩

theorem pop_of_valid {pal : List (Option String)} {i : ℕ}
    (h : valid_hex ((pal[i]?.getD none).getD "") = true) :
    ∃ s, pal.getD i none = some s ∧ valid_hex s = true := by
  rcases he : pal[i]? with _ | o
  · rw [he] at h
    simp only [Option.getD_none] at h
    exact absurd h (by decide)
  · rcases o with _ | s
    · rw [he] at h
      simp only [Option.getD_some, Option.getD_none] at h
      exact absurd h (by decide)
    · rw [he] at h
      simp only [Option.getD_some] at h
      refine ⟨s, ?_, h⟩
      rw [List.getD_eq_getElem?_getD, he]
      rfl

theorem generate_monochrome_spec {colors : List String} {lm : Bool}
    (hne : colors ≠ []) (hval : ∀ c ∈ colors, valid_hex c = true) :
    ∃ pal, generate_monochrome_palette colors lm = some pal ∧ PalOk pal := by
  obtain ⟨arr, hsort, hlenarr, hmemarr⟩ := sort_colors_spec hval
  have hne' : arr ≠ [] := by
    intro h
    apply hne
    apply List.length_eq_zero.mp
    rw [← hlenarr, h]
    rfl
  have hhead : arr.head? = some (arr.head hne') := List.head?_eq_head hne'
  have hlast : arr.getLast? = some (arr.getLast hne') :=
    List.getLast?_eq_getLast arr hne'
  have hvdark : valid_hex (arr.head hne').color = true :=
    hval _ (hmemarr _ (List.head_mem hne'))
  have hvlight : valid_hex (arr.getLast hne').color = true :=
    hval _ (hmemarr _ (List.getLast_mem hne'))
  unfold generate_monochrome_palette
  rw [hsort]
  simp only [bind_some_eq]
  rw [hhead]
  simp only [bind_some_eq]
  rw [hlast]
  simp only [bind_some_eq]
  simp only [List.foldl_cons, List.foldl_nil]
  refine foldlM_then_set15 _ ?_ [1, 2, 3, 4, 5, 6] ?_ _ ?_ ?_ _ ?_
  · intro pal i h1 h6 hp hpop
    obtain ⟨s, hgs, hvs⟩ := hpop
    obtain ⟨hsl, hhsl⟩ := hex_to_hsl_of_valid hvs
    rw [hgs, Option.some_bind, hhsl]
    simp only [bind_some_eq]
    refine ⟨_, rfl, PalOk_set hp ?_ _, fun j hj => getElem?_set_ne' _ _ _ _ (fun h => hj h.symm)⟩
    simp only [Option.getD_some]
    exact hsl_to_hex_valid _ _ _
  · intro i hi
    fin_cases hi <;> omega
  · apply PalOk_set
    · apply PalOk_set
      · apply PalOk_set
        · apply PalOk_set
          · apply PalOk_set
            · apply PalOk_set
              · apply PalOk_set
                · apply PalOk_set
                  · apply PalOk_set
                    · exact PalOk_replicate
                    · simp only [Option.getD_some]
                      split_ifs
                      · exact hvlight
                      · exact hvdark
                  · simp only [Option.getD_some]
                    split_ifs
                    · exact hvdark
                    · exact hvlight
                · simp only [Option.getD_some]
                  exact hsl_to_hex_valid _ _ _
              · simp only [Option.getD_some]
                exact hsl_to_hex_valid _ _ _
            · simp only [Option.getD_some]
              exact hsl_to_hex_valid _ _ _
          · simp only [Option.getD_some]
            exact hsl_to_hex_valid _ _ _
        · simp only [Option.getD_some]
          exact hsl_to_hex_valid _ _ _
      · simp only [Option.getD_some]
        exact hsl_to_hex_valid _ _ _
    · simp only [Option.getD_some]
      exact hsl_to_hex_valid _ _ _
  · intro i h1 h6
    interval_cases i <;>
      (refine pop_of_valid ?_
       simp [List.getElem?_set, ANSI_PALETTE_SIZE]
       first
         | exact hsl_to_hex_valid _ _ _
         | skip)
  · simp only [Option.getD_some]
    split_ifs <;> exact hsl_to_hex_valid _ _ _

theorem foldlM_hue_fill
    (pool : List String) (hne : pool ≠ []) (hval : ∀ c ∈ pool, valid_hex c = true) :
    ∀ (l : List (ℕ × ℚ)), (∀ p ∈ l, p.1 + 1 < 16) →
    ∀ (pu : List (Option String) × List ℕ), PalOk pu.1 →
    ∃ r : List (Option String) × List ℕ,
      (l.foldlM (fun (pu : List (Option String) × List ℕ) ih => do
          let match_index ← find_best_color_match ih.2 pool pu.2
          let c ← pool.get? match_index
          pure (pu.1.set (ih.1 + 1) (some c), pu.2 ++ [match_index])) pu) = some r ∧
      PalOk r.1 ∧
      (∀ j : ℕ, (∃ s, pu.1[j]? = some (some s) ∧ valid_hex s = true) →
        ∃ s, r.1[j]? = some (some s) ∧ valid_hex s = true) ∧
      (∀ p ∈ l, ∃ s, r.1[p.1 + 1]? = some (some s) ∧ valid_hex s = true) := by
  intro l
  induction l with
  | nil =>
    intro _ pu hp
    exact ⟨pu, rfl, hp, fun j h => h, by simp⟩
  | cons p rest ih =>
    intro hlt pu hp
    obtain ⟨mi, hmi, hmilt⟩ := @find_best_color_match_some p.2 pool pu.2 hne hval
    have hc : valid_hex (pool.get ⟨mi, hmilt⟩) = true :=
      hval _ (List.get_mem pool _ _)
    have hpR : PalOk (pu.1.set (p.1 + 1) (some (pool.get ⟨mi, hmilt⟩))) :=
      PalOk_set hp (by simp only [Option.getD_some]; exact hc) _
    obtain ⟨r, hr, hpr, hpres, hpops⟩ :=
      ih (fun q hq => hlt q (by simp [hq]))
        (pu.1.set (p.1 + 1) (some (pool.get ⟨mi, hmilt⟩)), pu.2 ++ [mi]) hpR
    have hlt1 : p.1 + 1 < pu.1.length := by
      have h16 := hlt p (by simp)
      have hl := hp.1
      omega
    refine ⟨r, ?_, hpr, ?_, ?_⟩
    · simp only [List.foldlM_cons]
      rw [hmi, bind_some_eq, List.get?_eq_get hmilt, bind_some_eq, pure_bind_eq]
      exact hr
    · intro j hj
      apply hpres
      obtain ⟨s, hs, hvs⟩ := hj
      by_cases hji : j = p.1 + 1
      · subst hji
        refine ⟨pool.get ⟨mi, hmilt⟩, ?_, hc⟩
        exact getElem?_set_self' _ _ _ hlt1
      · refine ⟨s, ?_, hvs⟩
        rw [getElem?_set_ne' _ _ _ _ (fun h => hji h.symm)]
        exact hs
    · intro q hq
      rcases List.mem_cons.mp hq with hq | hq
      · subst hq
        apply hpres
        refine ⟨pool.get ⟨mi, hmilt⟩, ?_, hc⟩
        exact getElem?_set_self' _ _ _ hlt1
      · exact hpops q hq

theorem generate_chromatic_spec {colors : List String} {lm : Bool}
    (hne : colors ≠ []) (hval : ∀ c ∈ colors, valid_hex c = true) :
    ∃ pal, generate_chromatic_palette colors lm = some pal ∧ PalOk pal := by
  obtain ⟨bg, hbg, hvbg⟩ := find_background_color_spec hne hval
  obtain ⟨bgh, hbgh⟩ := hex_to_hsl_of_valid hvbg
  obtain ⟨fg, hfg, hvfg⟩ := @find_foreground_color_spec colors lm [bg.index] bgh.l hval
  unfold generate_chromatic_palette
  rw [hbg]
  simp only [bind_some_eq]
  rw [hbgh]
  simp only [bind_some_eq]
  rw [hfg]
  simp only [bind_some_eq]
  obtain ⟨r, hr, hpr, hpres, hpops⟩ :=
    foldlM_hue_fill colors hne hval ANSI_HUE_ARRAY.enum
      (fun p hp => by
        have h6 := mem_enum_fst_lt hp
        have hlen6 : ANSI_HUE_ARRAY.length = 6 := rfl
        omega)
      (((List.replicate ANSI_PALETTE_SIZE none).set 0 (some bg.color)).set 7
          (some fg.color),
        [bg.index] ++ [fg.index])
      (PalOk_set
        (PalOk_set PalOk_replicate
          (by simp only [Option.getD_some]; exact hvbg) 0)
        (by simp only [Option.getD_some]; exact hvfg) 7)
  rw [hr]
  simp only [bind_some_eq]
  obtain ⟨bdark, hbdark⟩ := is_dark_color_some hvbg DARK_COLOR_THRESHOLD
  rw [hbdark]
  simp only [bind_some_eq]
  obtain ⟨bb, hbb, hvbb⟩ := generate_bright_version_of_valid hvfg
  simp only [hbb, bind_some_eq]
  refine foldlM_then_set15 _ ?_ [1, 2, 3, 4, 5, 6] ?_ _ ?_ ?_ _ ?_
  · intro pal i h1 h6 hp hpop
    obtain ⟨s, hgs, hvs⟩ := hpop
    obtain ⟨b2, hb2, hvb2⟩ := generate_bright_version_of_valid hvs
    rw [hgs, hb2]
    simp only [bind_some_eq]
    refine ⟨_, rfl, PalOk_set hp ?_ _,
      fun j hj => getElem?_set_ne' _ _ _ _ (fun h => hj h.symm)⟩
    simp only [Option.getD_some]
    exact hvb2
  · intro i hi
    fin_cases hi <;> omega
  · exact PalOk_set hpr
      (by simp only [Option.getD_some]; exact hsl_to_hex_valid _ _ _) 8
  · intro i h1 h6
    have henum : ANSI_HUE_ARRAY.enum =
        [(0, (0 : ℚ)), (1, 120), (2, 60), (3, 240), (4, 300), (5, 180)] := rfl
    have hpop8 : ∀ k : ℕ, 1 ≤ k → k ≤ 6 →
        (∃ s, r.1[k]? = some (some s) ∧ valid_hex s = true) →
        ∃ s, (r.1.set 8 (some (hsl_to_hex bgh.h (bgh.s * (1/2))
            (if bdark = true then min 100 (bgh.l + 15)
              else max 0 (bgh.l - 15))))).getD k none = some s ∧
          valid_hex s = true := by
      intro k hk1 hk6 hk
      obtain ⟨s, hs, hvs⟩ := hk
      refine ⟨s, ?_, hvs⟩
      rw [List.getD_eq_getElem?_getD, getElem?_set_ne' _ _ _ _ (by omega), hs]
      rfl
    interval_cases i
    · exact hpop8 1 (by norm_num) (by norm_num)
        (hpops (0, (0 : ℚ)) (by rw [henum]; simp))
    · exact hpop8 2 (by norm_num) (by norm_num)
        (hpops (1, (120 : ℚ)) (by rw [henum]; simp))
    · exact hpop8 3 (by norm_num) (by norm_num)
        (hpops (2, (60 : ℚ)) (by rw [henum]; simp))
    · exact hpop8 4 (by norm_num) (by norm_num)
        (hpops (3, (240 : ℚ)) (by rw [henum]; simp))
    · exact hpop8 5 (by norm_num) (by norm_num)
        (hpops (4, (300 : ℚ)) (by rw [henum]; simp))
    · exact hpop8 6 (by norm_num) (by norm_num)
        (hpops (5, (180 : ℚ)) (by rw [henum]; simp))
  · simp only [Option.getD_some]
    exact hvbb

/-- C5: the color pipeline raises the insufficient-colors `RuntimeError`
exactly when fewer than 8 dominant samples were extracted, and then no palette
(not even a partial one) is returned; with 8 or more valid samples,
classification, palette synthesis and brightness normalization complete
without raising, producing a full 16-entry palette of valid hex colors. -/
theorem C5_insufficient_colors (dominant : List String) (light_mode : Bool)
    (hval : ∀ c ∈ dominant, valid_hex c = true) :
    (extract_colors_pipeline dominant light_mode =
        Except.error (PyErr.runtimeErr "Not enough colors extracted from image") ↔
      dominant.length < 8) ∧
    (8 ≤ dominant.length →
      ∃ pal : List String,
        extract_colors_pipeline dominant light_mode = Except.ok pal ∧
        pal.length = 16 ∧
        ∀ (j : ℕ) (s : String), pal[j]? = some s → valid_hex s = true) := by
  by_cases hlen : dominant.length < 8
  · constructor
    · constructor
      · intro _
        exact hlen
      · intro _
        unfold extract_colors_pipeline
        rw [if_pos hlen]
    · intro h8
      omega
  · have hne : dominant ≠ [] := by
      intro h
      rw [h] at hlen
      exact hlen (by norm_num)
    obtain ⟨cls, hcls⟩ := classify_image_some hne hval
    have main : ∃ res : List String,
        extract_colors_pipeline dominant light_mode = Except.ok res ∧
        res.length = 16 ∧
        ∀ (j : ℕ) (s : String), res[j]? = some s → valid_hex s = true := by
      cases cls with
      | Monochrome =>
        obtain ⟨p, hpgen, hpok⟩ := generate_monochrome_spec hne hval
        obtain ⟨res, hres, hlres, hvres⟩ :=
          normalize_brightness_total p (le_of_eq hpok.1.symm) hpok.2
        refine ⟨res, ?_, by rw [hlres, hpok.1], hvres⟩
        unfold extract_colors_pipeline
        rw [if_neg hlen, hcls]
        simp only [bind_some_eq]
        rw [hpgen]
        simp only [bind_some_eq]
        rw [hres]
      | LowDiversity =>
        obtain ⟨p, hpgen, hpok⟩ := generate_subtle_spec hne hval
        obtain ⟨res, hres, hlres, hvres⟩ :=
          normalize_brightness_total p (le_of_eq hpok.1.symm) hpok.2
        refine ⟨res, ?_, by rw [hlres, hpok.1], hvres⟩
        unfold extract_colors_pipeline
        rw [if_neg hlen, hcls]
        simp only [bind_some_eq]
        rw [hpgen]
        simp only [bind_some_eq]
        rw [hres]
      | Chromatic =>
        obtain ⟨p, hpgen, hpok⟩ := generate_chromatic_spec hne hval
        obtain ⟨res, hres, hlres, hvres⟩ :=
          normalize_brightness_total p (le_of_eq hpok.1.symm) hpok.2
        refine ⟨res, ?_, by rw [hlres, hpok.1], hvres⟩
        unfold extract_colors_pipeline
        rw [if_neg hlen, hcls]
        simp only [bind_some_eq]
        rw [hpgen]
        simp only [bind_some_eq]
        rw [hres]
    obtain ⟨res, hok, hl16, hv⟩ := main
    constructor
    · constructor
      · intro he
        rw [hok] at he
        exact Except.noConfusion he
      · intro h
        exact absurd h hlen
    · intro _
      exact ⟨res, hok, hl16, hv⟩

/-- C5 witness: eight concrete valid samples make the pipeline succeed, and
the error case is characterized by the sample count. -/
theorem C5_insufficient_colors_witness :
    (extract_colors_pipeline
        ["#000000", "#ff0000", "#00ff00", "#0000ff",
         "#ffff00", "#00ffff", "#ff00ff", "#ffffff"] false =
        Except.error (PyErr.runtimeErr "Not enough colors extracted from image") ↔
      (["#000000", "#ff0000", "#00ff00", "#0000ff",
        "#ffff00", "#00ffff", "#ff00ff", "#ffffff"] : List String).length < 8) ∧
    (8 ≤ (["#000000", "#ff0000", "#00ff00", "#0000ff",
        "#ffff00", "#00ffff", "#ff00ff", "#ffffff"] : List String).length →
      ∃ pal : List String,
        extract_colors_pipeline
          ["#000000", "#ff0000", "#00ff00", "#0000ff",
           "#ffff00", "#00ffff", "#ff00ff", "#ffffff"] false = Except.ok pal ∧
        pal.length = 16 ∧
        ∀ (j : ℕ) (s : String), pal[j]? = some s → valid_hex s = true) :=
  C5_insufficient_colors
    ["#000000", "#ff0000", "#00ff00", "#0000ff",
     "#ffff00", "#00ffff", "#ff00ff", "#ffffff"] false (by decide)

/-- C2 (code bug): the background clamp of `normalize_brightness` does not
reach the returned palette.  On a fully populated 16-entry palette whose
index-0 color `#080808` has lightness 3.14 < 8, the function returns index 0
completely unchanged: the source writes the re-lit background into the
caller's `palette` argument (`palette[0] = ...`) but returns the separately
built `pal_strs` list, so only the local `bg_lightness` variable sees the
clamp.  The claimed post-condition "returned index-0 lightness ≥ 8" fails. -/
theorem C2_background_not_clamped :
    ∃ res : List String,
      normalize_brightness
        [some "#080808", some "#ffffff", some "#ffffff", some "#ffffff",
         some "#ffffff", some "#ffffff", some "#ffffff", some "#ffffff",
         some "#ffffff", some "#ffffff", some "#ffffff", some "#ffffff",
         some "#ffffff", some "#ffffff", some "#ffffff", some "#ffffff"] =
        some res ∧
      res[0]? = some "#080808" ∧
      hex_to_hsl "#080808" = some ⟨0, 0, 157/50⟩ ∧
      (157/50 : ℚ) < MIN_BACKGROUND_LIGHTNESS_DARK :=
  ⟨_, C2_eval, rfl, hex_to_hsl_dark8,
    by norm_num [MIN_BACKGROUND_LIGHTNESS_DARK]⟩

theorem hex_to_rgb_seed : hex_to_rgb "#3daee9" = some (61, 174, 233) := by
  decide

theorem rgb_to_hsl_seed : rgb_to_hsl 61 174 233 = ⟨10029/50, 7963/100, 1153/20⟩ := by
  have e1 : pyRound (862500/43 : ℚ) = 20058 := pyRound_eq_of (by norm_num) (by norm_num)
  have e2 : pyRound (215000/27 : ℚ) = 7963 := pyRound_eq_of (by norm_num) (by norm_num)
  have e3 : pyRound (98000/17 : ℚ) = 5765 := pyRound_eq_of (by norm_num) (by norm_num)
  unfold rgb_to_hsl
  norm_num [max_def, min_def, round2, abs_of_nonneg, abs_of_nonpos, e1, e2, e3]

theorem hex_to_hsl_seed : hex_to_hsl "#3daee9" = some ⟨10029/50, 7963/100, 1153/20⟩ := by
  unfold hex_to_hsl
  rw [hex_to_rgb_seed, Option.map_some']
  rw [rgb_to_hsl_seed]

theorem rgb_to_hsl_135 : rgb_to_hsl 1 3 5 = ⟨210, 6667/100, 59/50⟩ := by
  have e1 : pyRound (21000 : ℚ) = 21000 := pyRound_eq_of (by norm_num) (by norm_num)
  have e2 : pyRound (20000/3 : ℚ) = 6667 := pyRound_eq_of (by norm_num) (by norm_num)
  have e3 : pyRound (2000/17 : ℚ) = 118 := pyRound_eq_of (by norm_num) (by norm_num)
  unfold rgb_to_hsl
  norm_num [max_def, min_def, round2, abs_of_nonneg, abs_of_nonpos, e1, e2, e3]

theorem hex_to_hsl_135 : hex_to_hsl "#010305" = some ⟨210, 6667/100, 59/50⟩ := by
  unfold hex_to_hsl
  rw [show hex_to_rgb "#010305" = some (1, 3, 5) from by decide, Option.map_some']
  rw [rgb_to_hsl_135]

theorem hsl_to_rgb_tone1 : hsl_to_rgb (10029/50) (7963/100) 1 = ⟨1, 3, 5⟩ := by
  have hpm2 : pymod (3343/1000 : ℚ) 2 = 1343/1000 := by
    have h := @pymod_eq_of (3343/1000) 2 1 (by norm_num) (by norm_num) (by norm_num)
    rw [h]
    norm_num
  have p1 : pyRound (103887/200000 : ℚ) = 1 := pyRound_eq_of (by norm_num) (by norm_num)
  have p3 : pyRound (318759741/100000000 : ℚ) = 3 := pyRound_eq_of (by norm_num) (by norm_num)
  have p5 : pyRound (916113/200000 : ℚ) = 5 := pyRound_eq_of (by norm_num) (by norm_num)
  unfold hsl_to_rgb
  norm_num [abs_of_nonneg, abs_of_nonpos, hpm2, p1, p3, p5]

theorem hsl_to_hex_tone1 : hsl_to_hex (10029/50) (7963/100) 1 = "#010305" := by
  have hpm : pymod (10029/50 : ℚ) 360 = 10029/50 := by
    have h := @pymod_eq_of (10029/50) 360 0 (by norm_num) (by norm_num) (by norm_num)
    rw [h]
    norm_num
  unfold hsl_to_hex
  norm_num [hpm, hsl_to_rgb_tone1]
  decide

/-- C3: counterexample to the exact tone-to-lightness identity.  For the seed
`#3daee9` (hue 200.58, saturation 79.63), the tone-1 entry of the generated
tonal palette is `#010305`, whose HSL lightness is 1.18, not 1: 24-bit RGB
quantization in `hsl_to_hex` makes the identity only approximate. -/
theorem C3_counterexample :
    ∃ f : ℕ → String, generate_tonal_palette "#3daee9" = some f ∧
      f 1 = "#010305" ∧
      hex_to_hsl "#010305" = some ⟨210, 6667/100, 59/50⟩ ∧
      (59/50 : ℚ) ≠ 1 := by
  unfold generate_tonal_palette
  rw [hex_to_hsl_seed, Option.map_some']
  refine ⟨_, rfl, ?_, hex_to_hsl_135, by norm_num⟩
  show hsl_to_hex (10029/50) (7963/100) ((1 : ℕ) : ℚ) = "#010305"
  rw [Nat.cast_one]
  exact hsl_to_hex_tone1

theorem max_min_sum_bound (A B C a b c hi lo : ℚ)
    (hA : |A - a| ≤ 1/510) (hB : |B - b| ≤ 1/510) (hC : |C - c| ≤ 1/510)
    (hahi : a ≤ hi) (hbhi : b ≤ hi) (hchi : c ≤ hi)
    (hhim : hi = a ∨ hi = b ∨ hi = c)
    (hloa : lo ≤ a) (hlob : lo ≤ b) (hloc : lo ≤ c)
    (hlom : lo = a ∨ lo = b ∨ lo = c) :
    |max A (max B C) + min A (min B C) - (hi + lo)| ≤ 1/255 := by
  rw [abs_le] at hA hB hC
  have hM1 : max A (max B C) ≤ hi + 1/510 :=
    max_le (by linarith) (max_le (by linarith) (by linarith))
  have hM2 : hi - 1/510 ≤ max A (max B C) := by
    rcases hhim with h | h | h
    · exact le_trans (by linarith) (le_max_left _ _)
    · exact le_trans (by linarith : hi - 1/510 ≤ B) (le_max_of_le_right (le_max_left _ _))
    · exact le_trans (by linarith : hi - 1/510 ≤ C) (le_max_of_le_right (le_max_right _ _))
  have hm1 : lo - 1/510 ≤ min A (min B C) :=
    le_min (by linarith) (le_min (by linarith) (by linarith))
  have hm2 : min A (min B C) ≤ lo + 1/510 := by
    rcases hlom with h | h | h
    · exact le_trans (min_le_left _ _) (by linarith)
    · exact le_trans (le_trans (min_le_right _ _) (min_le_left _ _)) (by linarith)
    · exact le_trans (le_trans (min_le_right _ _) (min_le_right _ _)) (by linarith)
  rw [abs_le]
  constructor <;> linarith

theorem clamp_pyRound_eq {q : ℚ} (h0 : 0 ≤ q) (h255 : q ≤ 255) :
    max 0 (min 255 (pyRound q)) = pyRound q := by
  have hle : pyRound q ≤ (255 : ℤ) := pyRound_le_of_le (by exact_mod_cast h255)
  have hge : (0 : ℤ) ≤ pyRound q := le_pyRound_of_le (by exact_mod_cast h0)
  rw [min_eq_right hle, max_eq_right hge]

theorem pyRound_div255_err (q : ℚ) : |((pyRound q : ℤ) : ℚ) / 255 - q / 255| ≤ 1/510 := by
  have h := pyRound_sub_le q
  rw [div_sub_div_same, abs_div, abs_of_pos (by norm_num : (0:ℚ) < 255)]
  rw [div_le_iff₀ (by norm_num : (0:ℚ) < 255)]
  calc |(pyRound q : ℚ) - q| ≤ 1/2 := h
    _ = 1/510 * 255 := by norm_num

set_option maxHeartbeats 1000000 in
theorem channels_l_bound (c x m l : ℚ) (v1 v2 v3 : ℚ)
    (hx0 : 0 ≤ x) (hxc : x ≤ c) (hc0 : 0 ≤ c) (hm0 : 0 ≤ m) (hcm : c + m ≤ 1)
    (hl : c + 2*m = l/50)
    (hv1 : v1 = c ∨ v1 = x ∨ v1 = 0) (hv2 : v2 = c ∨ v2 = x ∨ v2 = 0)
    (hv3 : v3 = c ∨ v3 = x ∨ v3 = 0)
    (hhi : v1 = c ∨ v2 = c ∨ v3 = c) (hlo : v1 = 0 ∨ v2 = 0 ∨ v3 = 0) :
    |(rgb_to_hsl (max 0 (min 255 (pyRound ((v1 + m) * 255)))).toNat
        (max 0 (min 255 (pyRound ((v2 + m) * 255)))).toNat
        (max 0 (min 255 (pyRound ((v3 + m) * 255)))).toNat).l - l| ≤ 1/2 := by
  have hrange : ∀ v : ℚ, v = c ∨ v = x ∨ v = 0 →
      0 ≤ (v + m) * 255 ∧ (v + m) * 255 ≤ 255 := by
    intro v hv
    have h0v : 0 ≤ v := by
      rcases hv with h | h | h
      · rw [h]; exact hc0
      · rw [h]; exact hx0
      · rw [h]
    have hvc : v ≤ c := by
      rcases hv with h | h | h
      · rw [h]
      · rw [h]; exact hxc
      · rw [h]; exact hc0
    constructor
    · have : 0 ≤ v + m := by linarith
      nlinarith
    · have : v + m ≤ 1 := by linarith
      nlinarith
  obtain ⟨h10, h1255⟩ := hrange v1 hv1
  obtain ⟨h20, h2255⟩ := hrange v2 hv2
  obtain ⟨h30, h3255⟩ := hrange v3 hv3
  rw [clamp_pyRound_eq h10 h1255, clamp_pyRound_eq h20 h2255,
    clamp_pyRound_eq h30 h3255]
  have hge1 : (0 : ℤ) ≤ pyRound ((v1 + m) * 255) := le_pyRound_of_le (by exact_mod_cast h10)
  have hge2 : (0 : ℤ) ≤ pyRound ((v2 + m) * 255) := le_pyRound_of_le (by exact_mod_cast h20)
  have hge3 : (0 : ℤ) ≤ pyRound ((v3 + m) * 255) := le_pyRound_of_le (by exact_mod_cast h30)
  unfold rgb_to_hsl
  dsimp only
  have t1 : (((pyRound ((v1 + m) * 255)).toNat : ℕ) : ℚ) =
      ((pyRound ((v1 + m) * 255) : ℤ) : ℚ) := by
    exact_mod_cast Int.toNat_of_nonneg hge1
  have t2 : (((pyRound ((v2 + m) * 255)).toNat : ℕ) : ℚ) =
      ((pyRound ((v2 + m) * 255) : ℤ) : ℚ) := by
    exact_mod_cast Int.toNat_of_nonneg hge2
  have t3 : (((pyRound ((v3 + m) * 255)).toNat : ℕ) : ℚ) =
      ((pyRound ((v3 + m) * 255) : ℤ) : ℚ) := by
    exact_mod_cast Int.toNat_of_nonneg hge3
  rw [t1, t2, t3]
  have herr1 := pyRound_div255_err ((v1 + m) * 255)
  have herr2 := pyRound_div255_err ((v2 + m) * 255)
  have herr3 := pyRound_div255_err ((v3 + m) * 255)
  rw [mul_div_assoc, (by norm_num : (255 : ℚ) / 255 = 1), mul_one] at herr1 herr2 herr3
  have hsum := max_min_sum_bound
    (((pyRound ((v1 + m) * 255) : ℤ) : ℚ) / 255)
    (((pyRound ((v2 + m) * 255) : ℤ) : ℚ) / 255)
    (((pyRound ((v3 + m) * 255) : ℤ) : ℚ) / 255)
    (v1 + m) (v2 + m) (v3 + m) (c + m) m
    herr1 herr2 herr3
    (by rcases hv1 with h | h | h <;> rw [h] <;> linarith)
    (by rcases hv2 with h | h | h <;> rw [h] <;> linarith)
    (by rcases hv3 with h | h | h <;> rw [h] <;> linarith)
    (by rcases hhi with h | h | h <;> rw [h] <;> tauto)
    (by rcases hv1 with h | h | h <;> rw [h] <;> linarith)
    (by rcases hv2 with h | h | h <;> rw [h] <;> linarith)
    (by rcases hv3 with h | h | h <;> rw [h] <;> linarith)
    (by rcases hlo with h | h | h <;> rw [h] <;> simp)
  set A := ((pyRound ((v1 + m) * 255) : ℤ) : ℚ) / 255 with hApr
  set B := ((pyRound ((v2 + m) * 255) : ℤ) : ℚ) / 255 with hBpr
  set C := ((pyRound ((v3 + m) * 255) : ℤ) : ℚ) / 255 with hCpr
  have hy : |(max A (max B C) + min A (min B C)) / 2 * 100 - l| ≤ 10/51 := by
    have htarget : ((c + m) + m) / 2 * 100 = l := by linarith
    rw [abs_le] at hsum ⊢
    constructor <;> nlinarith [hsum.1, hsum.2]
  have hr2 := round2_sub_le ((max A (max B C) + min A (min B C)) / 2 * 100)
  calc |round2 ((max A (max B C) + min A (min B C)) / 2 * 100) - l|
      ≤ |round2 ((max A (max B C) + min A (min B C)) / 2 * 100) -
          (max A (max B C) + min A (min B C)) / 2 * 100| +
        |(max A (max B C) + min A (min B C)) / 2 * 100 - l| := abs_sub_le _ _ _
    _ ≤ 1/200 + 10/51 := add_le_add hr2 hy
    _ ≤ 1/2 := by norm_num

set_option maxHeartbeats 1000000 in
theorem lightness_roundtrip (h s l : ℚ) (hh0 : 0 ≤ h) (hh1 : h < 360)
    (hs0 : 0 ≤ s) (hs1 : s ≤ 100) (hl0 : 0 ≤ l) (hl1 : l ≤ 100) :
    |(rgb_to_hsl (hsl_to_rgb h s l).r.toNat (hsl_to_rgb h s l).g.toNat
        (hsl_to_rgb h s l).b.toNat).l - l| ≤ 1/2 := by
  unfold hsl_to_rgb
  dsimp only
  set c := (1 - |2 * (l / 100) - 1|) * (s / 100) with hcdef
  set xv := c * (1 - |pymod (h / 60) 2 - 1|) with hxdef
  set m := l / 100 - c / 2 with hmdef
  have habs1 : |2 * (l / 100) - 1| ≤ 1 := abs_le.mpr ⟨by linarith, by linarith⟩
  have habs1' : 0 ≤ 1 - |2 * (l / 100) - 1| := by linarith
  have hc0 : 0 ≤ c := mul_nonneg habs1' (by positivity)
  have hpm0 : 0 ≤ pymod (h / 60) 2 := pymod_nonneg _ (by norm_num)
  have hpm2 : pymod (h / 60) 2 < 2 := pymod_lt _ (by norm_num)
  have habs2 : |pymod (h / 60) 2 - 1| ≤ 1 := abs_le.mpr ⟨by linarith, by linarith⟩
  have habs2' : 0 ≤ 1 - |pymod (h / 60) 2 - 1| := by linarith
  have hx0 : 0 ≤ xv := mul_nonneg hc0 habs2'
  have hxc : xv ≤ c := by
    rw [hxdef]
    calc c * (1 - |pymod (h / 60) 2 - 1|) ≤ c * 1 := by
          apply mul_le_mul_of_nonneg_left _ hc0
          have := abs_nonneg (pymod (h / 60) 2 - 1)
          linarith
      _ = c := mul_one c
  have hs'le : s / 100 ≤ 1 := by linarith
  have hcle1 : c ≤ 1 - |2 * (l / 100) - 1| := by
    rw [hcdef]
    calc (1 - |2 * (l / 100) - 1|) * (s / 100) ≤ (1 - |2 * (l / 100) - 1|) * 1 :=
          mul_le_mul_of_nonneg_left hs'le habs1'
      _ = 1 - |2 * (l / 100) - 1| := mul_one _
  have hcle2 : c ≤ 2 * (l / 100) := by
    have := neg_abs_le (2 * (l / 100) - 1)
    linarith
  have hcle3 : c ≤ 2 - 2 * (l / 100) := by
    have := le_abs_self (2 * (l / 100) - 1)
    linarith
  have hm0 : 0 ≤ m := by rw [hmdef]; linarith
  have hcm1 : c + m ≤ 1 := by rw [hmdef]; linarith
  have hlrel : c + 2 * m = l / 50 := by rw [hmdef]; ring
  split_ifs with h1 h2 h3 h4 h5
  · dsimp only
    exact channels_l_bound c xv m l c xv 0 hx0 hxc hc0 hm0 hcm1 hlrel
      (Or.inl rfl) (Or.inr (Or.inl rfl)) (Or.inr (Or.inr rfl))
      (Or.inl rfl) (Or.inr (Or.inr rfl))
  · dsimp only
    exact channels_l_bound c xv m l xv c 0 hx0 hxc hc0 hm0 hcm1 hlrel
      (Or.inr (Or.inl rfl)) (Or.inl rfl) (Or.inr (Or.inr rfl))
      (Or.inr (Or.inl rfl)) (Or.inr (Or.inr rfl))
  · dsimp only
    exact channels_l_bound c xv m l 0 c xv hx0 hxc hc0 hm0 hcm1 hlrel
      (Or.inr (Or.inr rfl)) (Or.inl rfl) (Or.inr (Or.inl rfl))
      (Or.inr (Or.inl rfl)) (Or.inl rfl)
  · dsimp only
    exact channels_l_bound c xv m l 0 xv c hx0 hxc hc0 hm0 hcm1 hlrel
      (Or.inr (Or.inr rfl)) (Or.inr (Or.inl rfl)) (Or.inl rfl)
      (Or.inr (Or.inr rfl)) (Or.inl rfl)
  · dsimp only
    exact channels_l_bound c xv m l xv 0 c hx0 hxc hc0 hm0 hcm1 hlrel
      (Or.inr (Or.inl rfl)) (Or.inr (Or.inr rfl)) (Or.inl rfl)
      (Or.inr (Or.inr rfl)) (Or.inr (Or.inl rfl))
  · dsimp only
    exact channels_l_bound c xv m l c 0 xv hx0 hxc hc0 hm0 hcm1 hlrel
      (Or.inl rfl) (Or.inr (Or.inr rfl)) (Or.inr (Or.inl rfl))
      (Or.inl rfl) (Or.inr (Or.inl rfl))

/-- C3 (amended): the tone-to-lightness identity holds only approximately.
For every parseable seed color and integer tone t in [0,100], the tone-t entry
of the generated tonal palette parses back to an HSL lightness within 1/2 of
t (the true error is bounded by 10/51 + 1/200 ≈ 0.2, from 24-bit RGB
quantization plus the 2-decimal rounding); exact equality `lightness = tone`
fails in general — see the counterexample at tone 1. -/
theorem C3_amended (seed : String) (hsl0 : HSL)
    (hseed : hex_to_hsl seed = some hsl0) (t : ℕ) (ht : t ≤ 100) :
    ∃ f : ℕ → String, generate_tonal_palette seed = some f ∧
      ∃ hsl1 : HSL, hex_to_hsl (f t) = some hsl1 ∧ |hsl1.l - t| ≤ 1/2 := by
  unfold generate_tonal_palette
  rw [hseed, Option.map_some']
  refine ⟨_, rfl, ?_⟩
  unfold hex_to_hsl
  rw [hsl_to_hex_parses, Option.map_some']
  refine ⟨_, rfl, ?_⟩
  have hLeq : max 0 (min 100 ((t : ℕ) : ℚ)) = (t : ℚ) := by
    rw [min_eq_right (by exact_mod_cast ht), max_eq_right (by positivity)]
  rw [hLeq]
  exact lightness_roundtrip _ _ _ (pymod_nonneg _ (by norm_num))
    (pymod_lt _ (by norm_num)) (le_max_left _ _)
    (max_le (by norm_num) (min_le_left _ _)) (by positivity) (by exact_mod_cast ht)

/-- C3 witness: the amended bound instantiated at the seed `#3daee9`, tone 50. -/
theorem C3_amended_witness :
    ∃ f : ℕ → String, generate_tonal_palette "#3daee9" = some f ∧
      ∃ hsl1 : HSL, hex_to_hsl (f 50) = some hsl1 ∧ |hsl1.l - (50 : ℕ)| ≤ 1/2 :=
  C3_amended "#3daee9" ⟨10029/50, 7963/100, 1153/20⟩ hex_to_hsl_seed 50 (by norm_num)

/-- The red-channel weight profile of the six hue sectors of `hsl_to_rgb`,
as a single clamped piecewise-linear function of `y = h/60` (used to analyse
the conversion without a per-sector case split). -/
def wr (y : ℚ) : ℚ := max 0 (min 1 (|y - 3| - 1))

/-- Green-channel weight profile. -/
def wg (y : ℚ) : ℚ := max 0 (min 1 (2 - |y - 2|))

/-- Blue-channel weight profile. -/
def wb (y : ℚ) : ℚ := max 0 (min 1 (2 - |y - 4|))

theorem clamp01_bounds (a : ℚ) : 0 ≤ max 0 (min 1 a) ∧ max 0 (min 1 a) ≤ 1 :=
  ⟨le_max_left _ _, max_le (by norm_num) (min_le_left _ _)⟩

theorem clamp01_lipschitz (a b : ℚ) :
    |max 0 (min 1 a) - max 0 (min 1 b)| ≤ |a - b| := by
  have h1 : |min 1 a - min 1 b| ≤ |a - b| := by
    have h := abs_min_sub_min_le_max 1 a 1 b
    simpa using h
  have h2 : |max 0 (min 1 a) - max 0 (min 1 b)| ≤ |min 1 a - min 1 b| := by
    rw [max_comm 0 (min 1 a), max_comm 0 (min 1 b)]
    exact abs_max_sub_max_le_abs _ _ _
  exact le_trans h2 h1

theorem wr_lipschitz (y1 y2 : ℚ) : |wr y1 - wr y2| ≤ |y1 - y2| := by
  unfold wr
  have h1 := clamp01_lipschitz (|y1 - 3| - 1) (|y2 - 3| - 1)
  have h2 : (|y1 - 3| - 1) - (|y2 - 3| - 1) = |y1 - 3| - |y2 - 3| := by ring
  rw [h2] at h1
  have h3 : |(|y1 - 3|) - (|y2 - 3|)| ≤ |(y1 - 3) - (y2 - 3)| :=
    abs_abs_sub_abs_le_abs_sub _ _
  have h4 : (y1 - 3) - (y2 - 3) = y1 - y2 := by ring
  rw [h4] at h3
  exact le_trans h1 h3

theorem wg_lipschitz (y1 y2 : ℚ) : |wg y1 - wg y2| ≤ |y1 - y2| := by
  unfold wg
  have h1 := clamp01_lipschitz (2 - |y1 - 2|) (2 - |y2 - 2|)
  have h2 : (2 - |y1 - 2|) - (2 - |y2 - 2|) = |y2 - 2| - |y1 - 2| := by ring
  rw [h2] at h1
  have h3 : |(|y2 - 2|) - (|y1 - 2|)| ≤ |(y2 - 2) - (y1 - 2)| :=
    abs_abs_sub_abs_le_abs_sub _ _
  have h4 : (y2 - 2) - (y1 - 2) = -(y1 - y2) := by ring
  rw [h4, abs_neg] at h3
  exact le_trans h1 h3

theorem wb_lipschitz (y1 y2 : ℚ) : |wb y1 - wb y2| ≤ |y1 - y2| := by
  unfold wb
  have h1 := clamp01_lipschitz (2 - |y1 - 4|) (2 - |y2 - 4|)
  have h2 : (2 - |y1 - 4|) - (2 - |y2 - 4|) = |y2 - 4| - |y1 - 4| := by ring
  rw [h2] at h1
  have h3 : |(|y2 - 4|) - (|y1 - 4|)| ≤ |(y2 - 4) - (y1 - 4)| :=
    abs_abs_sub_abs_le_abs_sub _ _
  have h4 : (y2 - 4) - (y1 - 4) = -(y1 - y2) := by ring
  rw [h4, abs_neg] at h3
  exact le_trans h1 h3

theorem clamp_eq_self {a : ℚ} (h0 : 0 ≤ a) (h1 : a ≤ 1) : max 0 (min 1 a) = a := by
  rw [min_eq_right h1, max_eq_right h0]

theorem clamp_eq_zero {a : ℚ} (h : a ≤ 0) : max 0 (min 1 a) = 0 :=
  max_eq_left (le_trans (min_le_right _ _) h)

theorem clamp_eq_one {a : ℚ} (h : 1 ≤ a) : max 0 (min 1 a) = 1 := by
  rw [min_eq_left h, max_eq_right (by norm_num)]

set_option maxHeartbeats 2000000 in
/-- The six hue sectors of `hsl_to_rgb` collapse into the three weight
profiles: each output channel is the clamped rounding of
`(c * w(h/60) + m) * 255`. -/
theorem hsl_to_rgb_w_form (h s l c m : ℚ) (hh0 : 0 ≤ h) (hh1 : h ≤ 360)
    (hc : c = (1 - |2 * (l / 100) - 1|) * (s / 100))
    (hm : m = l / 100 - c / 2) :
    hsl_to_rgb h s l =
      ⟨max 0 (min 255 (pyRound ((c * wr (h / 60) + m) * 255))),
       max 0 (min 255 (pyRound ((c * wg (h / 60) + m) * 255))),
       max 0 (min 255 (pyRound ((c * wb (h / 60) + m) * 255)))⟩ := by
  unfold hsl_to_rgb
  dsimp only
  rw [← hc]
  rw [← hm]
  by_cases c1 : 0 ≤ h ∧ h < 60
  · rw [if_pos c1]
    have hy1 : h / 60 < 1 := by rw [div_lt_one (by norm_num)]; linarith [c1.2]
    have hy0 : (0:ℚ) ≤ h / 60 := by positivity
    have hpm : pymod (h / 60) 2 = h / 60 := by
      have hp := @pymod_eq_of (h / 60) 2 0 (by norm_num) (by push_cast; linarith)
        (by push_cast; linarith)
      simpa using hp
    have ewr : wr (h / 60) = 1 := by
      unfold wr
      rw [abs_of_nonpos (by linarith : h / 60 - 3 ≤ 0)]
      exact clamp_eq_one (by linarith)
    have ewg : wg (h / 60) = 1 - |pymod (h / 60) 2 - 1| := by
      unfold wg
      rw [hpm, abs_of_nonpos (by linarith : h / 60 - 2 ≤ 0),
        abs_of_nonpos (by linarith : h / 60 - 1 ≤ 0),
        clamp_eq_self (by linarith) (by linarith)]
      ring
    have ewb : wb (h / 60) = 0 := by
      unfold wb
      rw [abs_of_nonpos (by linarith : h / 60 - 4 ≤ 0)]
      exact clamp_eq_zero (by linarith)
    rw [ewr, ewg, ewb, mul_one, mul_zero, zero_add]
  · rw [if_neg c1]
    by_cases c2 : 60 ≤ h ∧ h < 120
    · rw [if_pos c2]
      have hy0 : (1:ℚ) ≤ h / 60 := by rw [le_div_iff₀ (by norm_num)]; linarith [c2.1]
      have hy1 : h / 60 < 2 := by rw [div_lt_iff₀ (by norm_num)]; linarith [c2.2]
      have hpm : pymod (h / 60) 2 = h / 60 := by
        have hp := @pymod_eq_of (h / 60) 2 0 (by norm_num) (by linarith)
          (by push_cast; linarith)
        simpa using hp
      have ewr : wr (h / 60) = 1 - |pymod (h / 60) 2 - 1| := by
        unfold wr
        rw [hpm, abs_of_nonpos (by linarith : h / 60 - 3 ≤ 0),
          abs_of_nonneg (by linarith : 0 ≤ h / 60 - 1),
          clamp_eq_self (by linarith) (by linarith)]
        ring
      have ewg : wg (h / 60) = 1 := by
        unfold wg
        rw [abs_of_nonpos (by linarith : h / 60 - 2 ≤ 0)]
        exact clamp_eq_one (by linarith)
      have ewb : wb (h / 60) = 0 := by
        unfold wb
        rw [abs_of_nonpos (by linarith : h / 60 - 4 ≤ 0)]
        exact clamp_eq_zero (by linarith)
      rw [ewr, ewg, ewb, mul_one, mul_zero, zero_add]
    · rw [if_neg c2]
      by_cases c3 : 120 ≤ h ∧ h < 180
      · rw [if_pos c3]
        have hy0 : (2:ℚ) ≤ h / 60 := by rw [le_div_iff₀ (by norm_num)]; linarith [c3.1]
        have hy1 : h / 60 < 3 := by rw [div_lt_iff₀ (by norm_num)]; linarith [c3.2]
        have hpm : pymod (h / 60) 2 = h / 60 - 2 := by
          have hp := @pymod_eq_of (h / 60) 2 1 (by norm_num) (by push_cast; linarith)
            (by push_cast; linarith)
          rw [hp]
          ring
        have ewr : wr (h / 60) = 0 := by
          unfold wr
          rw [abs_of_nonpos (by linarith : h / 60 - 3 ≤ 0)]
          exact clamp_eq_zero (by linarith)
        have ewg : wg (h / 60) = 1 := by
          unfold wg
          rw [abs_of_nonneg (by linarith : 0 ≤ h / 60 - 2)]
          exact clamp_eq_one (by linarith)
        have ewb : wb (h / 60) = 1 - |pymod (h / 60) 2 - 1| := by
          unfold wb
          rw [hpm, abs_of_nonpos (by linarith : h / 60 - 4 ≤ 0),
            abs_of_nonpos (by linarith : h / 60 - 2 - 1 ≤ 0),
            clamp_eq_self (by linarith) (by linarith)]
          ring
        rw [ewr, ewg, ewb, mul_one, mul_zero, zero_add]
      · rw [if_neg c3]
        by_cases c4 : 180 ≤ h ∧ h < 240
        · rw [if_pos c4]
          have hy0 : (3:ℚ) ≤ h / 60 := by rw [le_div_iff₀ (by norm_num)]; linarith [c4.1]
          have hy1 : h / 60 < 4 := by rw [div_lt_iff₀ (by norm_num)]; linarith [c4.2]
          have hpm : pymod (h / 60) 2 = h / 60 - 2 := by
            have hp := @pymod_eq_of (h / 60) 2 1 (by norm_num) (by push_cast; linarith)
              (by push_cast; linarith)
            rw [hp]
            ring
          have ewr : wr (h / 60) = 0 := by
            unfold wr
            rw [abs_of_nonneg (by linarith : 0 ≤ h / 60 - 3)]
            exact clamp_eq_zero (by linarith)
          have ewg : wg (h / 60) = 1 - |pymod (h / 60) 2 - 1| := by
            unfold wg
            rw [hpm, abs_of_nonneg (by linarith : 0 ≤ h / 60 - 2),
              abs_of_nonneg (by linarith : 0 ≤ h / 60 - 2 - 1),
              clamp_eq_self (by linarith) (by linarith)]
            ring
          have ewb : wb (h / 60) = 1 := by
            unfold wb
            rw [abs_of_nonpos (by linarith : h / 60 - 4 ≤ 0)]
            exact clamp_eq_one (by linarith)
          rw [ewr, ewg, ewb, mul_one, mul_zero, zero_add]
        · rw [if_neg c4]
          by_cases c5 : 240 ≤ h ∧ h < 300
          · rw [if_pos c5]
            have hy0 : (4:ℚ) ≤ h / 60 := by rw [le_div_iff₀ (by norm_num)]; linarith [c5.1]
            have hy1 : h / 60 < 5 := by rw [div_lt_iff₀ (by norm_num)]; linarith [c5.2]
            have hpm : pymod (h / 60) 2 = h / 60 - 4 := by
              have hp := @pymod_eq_of (h / 60) 2 2 (by norm_num) (by push_cast; linarith)
                (by push_cast; linarith)
              rw [hp]
              ring
            have ewr : wr (h / 60) = 1 - |pymod (h / 60) 2 - 1| := by
              unfold wr
              rw [hpm, abs_of_nonneg (by linarith : 0 ≤ h / 60 - 3),
                abs_of_nonpos (by linarith : h / 60 - 4 - 1 ≤ 0),
                clamp_eq_self (by linarith) (by linarith)]
              ring
            have ewg : wg (h / 60) = 0 := by
              unfold wg
              rw [abs_of_nonneg (by linarith : 0 ≤ h / 60 - 2)]
              exact clamp_eq_zero (by linarith)
            have ewb : wb (h / 60) = 1 := by
              unfold wb
              rw [abs_of_nonneg (by linarith : 0 ≤ h / 60 - 4)]
              exact clamp_eq_one (by linarith)
            rw [ewr, ewg, ewb, mul_one, mul_zero, zero_add]
          · rw [if_neg c5]
            have h60 : (60:ℚ) ≤ h := by
              by_contra hlt
              exact c1 ⟨hh0, by linarith⟩
            have h120 : (120:ℚ) ≤ h := by
              by_contra hlt
              exact c2 ⟨h60, by linarith⟩
            have h180 : (180:ℚ) ≤ h := by
              by_contra hlt
              exact c3 ⟨h120, by linarith⟩
            have h240 : (240:ℚ) ≤ h := by
              by_contra hlt
              exact c4 ⟨h180, by linarith⟩
            have h300 : (300:ℚ) ≤ h := by
              by_contra hlt
              exact c5 ⟨h240, by linarith⟩
            by_cases c6 : h < 360
            · have hy0 : (5:ℚ) ≤ h / 60 := by
                rw [le_div_iff₀ (by norm_num)]
                linarith
              have hy1 : h / 60 < 6 := by rw [div_lt_iff₀ (by norm_num)]; linarith
              have hpm : pymod (h / 60) 2 = h / 60 - 4 := by
                have hp := @pymod_eq_of (h / 60) 2 2 (by norm_num) (by push_cast; linarith)
                  (by push_cast; linarith)
                rw [hp]
                ring
              have ewr : wr (h / 60) = 1 := by
                unfold wr
                rw [abs_of_nonneg (by linarith : 0 ≤ h / 60 - 3)]
                exact clamp_eq_one (by linarith)
              have ewg : wg (h / 60) = 0 := by
                unfold wg
                rw [abs_of_nonneg (by linarith : 0 ≤ h / 60 - 2)]
                exact clamp_eq_zero (by linarith)
              have ewb : wb (h / 60) = 1 - |pymod (h / 60) 2 - 1| := by
                unfold wb
                rw [hpm, abs_of_nonneg (by linarith : 0 ≤ h / 60 - 4),
                  abs_of_nonneg (by linarith : 0 ≤ h / 60 - 4 - 1),
                  clamp_eq_self (by linarith) (by linarith)]
                ring
              rw [ewr, ewg, ewb, mul_one, mul_zero, zero_add]
            · have h360 : h = 360 := by linarith [not_lt.mp c6]
              subst h360
              have hy : (360:ℚ) / 60 = 6 := by norm_num
              have hpm : pymod ((360:ℚ) / 60) 2 = 0 := by
                rw [hy]
                have hp := @pymod_eq_of (6:ℚ) 2 3 (by norm_num) (by norm_num) (by norm_num)
                rw [hp]
                norm_num
              have ewr : wr ((360:ℚ) / 60) = 1 := by
                rw [hy]
                unfold wr
                rw [abs_of_nonneg (by norm_num : (0:ℚ) ≤ 6 - 3)]
                exact clamp_eq_one (by norm_num)
              have ewg : wg ((360:ℚ) / 60) = 0 := by
                rw [hy]
                unfold wg
                rw [abs_of_nonneg (by norm_num : (0:ℚ) ≤ 6 - 2)]
                exact clamp_eq_zero (by norm_num)
              have ewb : wb ((360:ℚ) / 60) = 1 - |pymod ((360:ℚ) / 60) 2 - 1| := by
                rw [hpm, hy]
                unfold wb
                rw [abs_of_nonneg (by norm_num : (0:ℚ) ≤ 6 - 4),
                  clamp_eq_self (by norm_num) (by norm_num)]
                norm_num
              rw [ewr, ewg, ewb, mul_one, mul_zero, zero_add]

theorem csm_facts (s l : ℚ) (hs0 : 0 ≤ s) (hs1 : s ≤ 100) (hl0 : 0 ≤ l)
    (hl1 : l ≤ 100) :
    0 ≤ (1 - |2 * (l / 100) - 1|) * (s / 100) ∧
    (1 - |2 * (l / 100) - 1|) * (s / 100) ≤ 1 ∧
    0 ≤ l / 100 - ((1 - |2 * (l / 100) - 1|) * (s / 100)) / 2 ∧
    (1 - |2 * (l / 100) - 1|) * (s / 100) +
      (l / 100 - ((1 - |2 * (l / 100) - 1|) * (s / 100)) / 2) ≤ 1 := by
  have habs1 : |2 * (l / 100) - 1| ≤ 1 := abs_le.mpr ⟨by linarith, by linarith⟩
  have habs1' : 0 ≤ 1 - |2 * (l / 100) - 1| := by linarith
  have hc0 : 0 ≤ (1 - |2 * (l / 100) - 1|) * (s / 100) :=
    mul_nonneg habs1' (by positivity)
  have hcle1 : (1 - |2 * (l / 100) - 1|) * (s / 100) ≤ 1 - |2 * (l / 100) - 1| := by
    calc (1 - |2 * (l / 100) - 1|) * (s / 100) ≤ (1 - |2 * (l / 100) - 1|) * 1 :=
          mul_le_mul_of_nonneg_left (by linarith) habs1'
      _ = 1 - |2 * (l / 100) - 1| := mul_one _
  have hn := neg_abs_le (2 * (l / 100) - 1)
  have hp := le_abs_self (2 * (l / 100) - 1)
  have habs0 := abs_nonneg (2 * (l / 100) - 1)
  exact ⟨hc0, by linarith, by linarith, by linarith⟩

theorem prod_err (A1 A0 B1 B0 da db : ℚ) (hA1 : 0 ≤ A1) (hA1' : A1 ≤ 1)
    (hB0 : 0 ≤ B0) (hB0' : B0 ≤ 1)
    (hdA : |A1 - A0| ≤ da) (hdB : |B1 - B0| ≤ db) :
    |A1 * B1 - A0 * B0| ≤ db + da := by
  have hiden : A1 * B1 - A0 * B0 = A1 * (B1 - B0) + (A1 - A0) * B0 := by ring
  rw [hiden]
  calc |A1 * (B1 - B0) + (A1 - A0) * B0|
      ≤ |A1 * (B1 - B0)| + |(A1 - A0) * B0| := abs_add _ _
    _ = |A1| * |B1 - B0| + |A1 - A0| * |B0| := by rw [abs_mul, abs_mul]
    _ ≤ 1 * db + da * 1 := by
        apply add_le_add
        · apply mul_le_mul _ hdB (abs_nonneg _) (by norm_num)
          rw [abs_of_nonneg hA1]
          exact hA1'
        · apply mul_le_mul hdA _ (abs_nonneg _) (le_trans (abs_nonneg _) hdA)
          rw [abs_of_nonneg hB0]
          exact hB0'
    _ = db + da := by ring

set_option maxHeartbeats 2000000 in
/-- Inversion of `rgb_to_hsl`'s hue construction: before any rounding, the
weight profiles evaluated at the constructed hue reproduce the three
channels exactly (`diff * w(H/60) + mn = channel`). -/
theorem w_inversion (r' g' b' mx mn diff h' H : ℚ)
    (hmx : mx = max r' (max g' b')) (hmn : mn = min r' (min g' b'))
    (hdiff : diff = mx - mn) (hd : ¬ diff = 0)
    (hh' : h' = if mx = r' then pymod ((g' - b') / diff) 6
      else if mx = g' then (b' - r') / diff + 2
      else (r' - g') / diff + 4)
    (hH : H = if h' * 60 < 0 then h' * 60 + 360 else h' * 60) :
    0 ≤ H ∧ H < 360 ∧
    diff * wr (H / 60) + mn = r' ∧
    diff * wg (H / 60) + mn = g' ∧
    diff * wb (H / 60) + mn = b' := by
  have hrmx : r' ≤ mx := by rw [hmx]; exact le_max_left _ _
  have hgmx : g' ≤ mx := by rw [hmx]; exact le_max_of_le_right (le_max_left _ _)
  have hbmx : b' ≤ mx := by rw [hmx]; exact le_max_of_le_right (le_max_right _ _)
  have hrmn : mn ≤ r' := by rw [hmn]; exact min_le_left _ _
  have hgmn : mn ≤ g' := by rw [hmn]; exact le_trans (min_le_right _ _) (min_le_left _ _)
  have hbmn : mn ≤ b' := by rw [hmn]; exact le_trans (min_le_right _ _) (min_le_right _ _)
  have hdpos : 0 < diff := by
    rcases lt_or_eq_of_le (by rw [hdiff]; linarith : (0:ℚ) ≤ diff) with h | h
    · exact h
    · exact absurd h.symm hd
  have hcancel : ∀ X : ℚ, diff * (X / diff) = X := fun X => by
    rw [mul_comm]
    exact div_mul_cancel₀ X hd
  by_cases hr : mx = r'
  · have hb' : h' = pymod ((g' - b') / diff) 6 := by rw [hh', if_pos hr]
    by_cases hgb : b' ≤ g'
    · have hmn' : mn = b' := by
        rw [hmn, min_eq_right hgb, min_eq_right (by linarith : b' ≤ r')]
      have hq0 : 0 ≤ (g' - b') / diff := div_nonneg (by linarith) (le_of_lt hdpos)
      have hq1 : (g' - b') / diff ≤ 1 := by
        rw [div_le_one hdpos, hdiff, hr, hmn']
        linarith
      have hpm : pymod ((g' - b') / diff) 6 = (g' - b') / diff := by
        have hp := @pymod_eq_of ((g' - b') / diff) 6 0 (by norm_num)
          (by push_cast; linarith) (by push_cast; linarith)
        simpa using hp
      have hq : h' = (g' - b') / diff := by rw [hb', hpm]
      have hH' : H = h' * 60 := by
        rw [hH, if_neg (not_lt.mpr (by rw [hq]; positivity))]
      have hy : H / 60 = (g' - b') / diff := by rw [hH', hq]; ring
      refine ⟨by rw [hH', hq]; positivity, by rw [hH', hq]; linarith, ?_, ?_, ?_⟩
      · have hwr : wr (H / 60) = 1 := by
          rw [hy]
          unfold wr
          rw [abs_of_nonpos (by linarith : (g' - b') / diff - 3 ≤ 0)]
          exact clamp_eq_one (by linarith)
        rw [hwr, mul_one, hdiff, hr, hmn']
        ring
      · have hwg : wg (H / 60) = (g' - b') / diff := by
          rw [hy]
          unfold wg
          rw [abs_of_nonpos (by linarith : (g' - b') / diff - 2 ≤ 0),
            clamp_eq_self (by linarith) (by linarith)]
          ring
        rw [hwg, hcancel, hmn']
        ring
      · have hwb : wb (H / 60) = 0 := by
          rw [hy]
          unfold wb
          rw [abs_of_nonpos (by linarith : (g' - b') / diff - 4 ≤ 0)]
          exact clamp_eq_zero (by linarith)
        rw [hwb, mul_zero, hmn']
        ring
    · have hgb' : g' < b' := not_le.mp hgb
      have hmn' : mn = g' := by
        rw [hmn, min_eq_right (le_trans (min_le_left _ _) (by linarith : g' ≤ r')),
          min_eq_left (by linarith : g' ≤ b')]
      have hqn : (g' - b') / diff < 0 :=
        div_neg_of_neg_of_pos (by linarith) hdpos
      have hq1 : -1 ≤ (g' - b') / diff := by
        rw [le_div_iff₀ hdpos, hdiff, hr, hmn']
        linarith
      have hpm : pymod ((g' - b') / diff) 6 = (g' - b') / diff + 6 := by
        have hp := @pymod_eq_of ((g' - b') / diff) 6 (-1) (by norm_num)
          (by push_cast; linarith) (by push_cast; linarith)
        rw [hp]
        push_cast
        ring
      have hq : h' = (g' - b') / diff + 6 := by rw [hb', hpm]
      have hH' : H = h' * 60 := by
        rw [hH, if_neg (not_lt.mpr (by rw [hq]; nlinarith))]
      have hy : H / 60 = (g' - b') / diff + 6 := by rw [hH', hq]; ring
      refine ⟨by rw [hH', hq]; nlinarith, by rw [hH', hq]; nlinarith, ?_, ?_, ?_⟩
      · have hwr : wr (H / 60) = 1 := by
          rw [hy]
          unfold wr
          rw [abs_of_nonneg (by linarith : 0 ≤ (g' - b') / diff + 6 - 3)]
          exact clamp_eq_one (by linarith)
        rw [hwr, mul_one, hdiff, hr, hmn']
        ring
      · have hwg : wg (H / 60) = 0 := by
          rw [hy]
          unfold wg
          rw [abs_of_nonneg (by linarith : 0 ≤ (g' - b') / diff + 6 - 2)]
          exact clamp_eq_zero (by linarith)
        rw [hwg, mul_zero, hmn']
        ring
      · have hwb : wb (H / 60) = -((g' - b') / diff) := by
          rw [hy]
          unfold wb
          rw [abs_of_nonneg (by linarith : 0 ≤ (g' - b') / diff + 6 - 4),
            clamp_eq_self (by linarith) (by linarith)]
          ring
        rw [hwb, mul_neg, hcancel, hmn']
        ring
  · by_cases hg : mx = g'
    · have hrg : r' < g' := by
        have hle : r' ≤ g' := by rw [← hg]; exact hrmx
        rcases lt_or_eq_of_le hle with h | h
        · exact h
        · apply absurd _ hr
          rw [hg, ← h]
      have hb' : h' = (b' - r') / diff + 2 := by rw [hh', if_neg hr, if_pos hg]
      by_cases hbr : b' ≤ r'
      · have hmn' : mn = b' := by
          rw [hmn, min_eq_right (le_trans (min_le_right _ _) (by linarith : b' ≤ r')),
            min_eq_right (by linarith : b' ≤ g')]
        have hqn : (b' - r') / diff ≤ 0 :=
          div_nonpos_of_nonpos_of_nonneg (by linarith) (le_of_lt hdpos)
        have hq1 : -1 ≤ (b' - r') / diff := by
          rw [le_div_iff₀ hdpos, hdiff, hg, hmn']
          linarith
        have hH' : H = h' * 60 := by
          rw [hH, if_neg (not_lt.mpr (by rw [hb']; nlinarith))]
        have hy : H / 60 = (b' - r') / diff + 2 := by rw [hH', hb']; ring
        refine ⟨by rw [hH', hb']; nlinarith, by rw [hH', hb']; nlinarith, ?_, ?_, ?_⟩
        · have hwr : wr (H / 60) = -((b' - r') / diff) := by
            rw [hy]
            unfold wr
            rw [abs_of_nonpos (by linarith : (b' - r') / diff + 2 - 3 ≤ 0),
              clamp_eq_self (by linarith) (by linarith)]
            ring
          rw [hwr, mul_neg, hcancel, hmn']
          ring
        · have hwg : wg (H / 60) = 1 := by
            rw [hy]
            unfold wg
            rw [abs_of_nonpos (by linarith : (b' - r') / diff + 2 - 2 ≤ 0)]
            exact clamp_eq_one (by linarith)
          rw [hwg, mul_one, hdiff, hg, hmn']
          ring
        · have hwb : wb (H / 60) = 0 := by
            rw [hy]
            unfold wb
            rw [abs_of_nonpos (by linarith : (b' - r') / diff + 2 - 4 ≤ 0)]
            exact clamp_eq_zero (by linarith)
          rw [hwb, mul_zero, hmn']
          ring
      · have hbr' : r' < b' := not_le.mp hbr
        have hmn' : mn = r' := by
          rw [hmn, min_eq_left]
          exact le_min (by linarith) (by linarith)
        have hq0 : 0 ≤ (b' - r') / diff := div_nonneg (by linarith) (le_of_lt hdpos)
        have hq1 : (b' - r') / diff ≤ 1 := by
          rw [div_le_one hdpos, hdiff, hg, hmn']
          linarith
        have hH' : H = h' * 60 := by
          rw [hH, if_neg (not_lt.mpr (by rw [hb']; nlinarith))]
        have hy : H / 60 = (b' - r') / diff + 2 := by rw [hH', hb']; ring
        refine ⟨by rw [hH', hb']; nlinarith, by rw [hH', hb']; nlinarith, ?_, ?_, ?_⟩
        · have hwr : wr (H / 60) = 0 := by
            rw [hy]
            unfold wr
            rw [abs_of_nonpos (by linarith : (b' - r') / diff + 2 - 3 ≤ 0)]
            exact clamp_eq_zero (by linarith)
          rw [hwr, mul_zero, hmn']
          ring
        · have hwg : wg (H / 60) = 1 := by
            rw [hy]
            unfold wg
            rw [abs_of_nonneg (by linarith : 0 ≤ (b' - r') / diff + 2 - 2)]
            exact clamp_eq_one (by linarith)
          rw [hwg, mul_one, hdiff, hg, hmn']
          ring
        · have hwb : wb (H / 60) = (b' - r') / diff := by
            rw [hy]
            unfold wb
            rw [abs_of_nonpos (by linarith : (b' - r') / diff + 2 - 4 ≤ 0),
              clamp_eq_self (by linarith) (by linarith)]
            ring
          rw [hwb, hcancel, hmn']
          ring
    · have hbmx' : mx = b' := by
        rw [hmx] at hr hg ⊢
        rcases max_choice r' (max g' b') with h | h
        · exact absurd h hr
        · rw [h]
          rcases max_choice g' b' with h2 | h2
          · rw [h] at hg
            exact absurd h2 hg
          · exact h2
      have hrb : r' < b' := by
        have hle : r' ≤ b' := by rw [← hbmx']; exact hrmx
        rcases lt_or_eq_of_le hle with h | h
        · exact h
        · apply absurd _ hr
          rw [hbmx', ← h]
      have hgb : g' < b' := by
        have hle : g' ≤ b' := by rw [← hbmx']; exact hgmx
        rcases lt_or_eq_of_le hle with h | h
        · exact h
        · apply absurd _ hg
          rw [hbmx', ← h]
      have hb' : h' = (r' - g') / diff + 4 := by rw [hh', if_neg hr, if_neg hg]
      by_cases hrg : r' ≤ g'
      · have hmn' : mn = r' := by
          rw [hmn, min_eq_left]
          exact le_min hrg (by linarith)
        have hqn : (r' - g') / diff ≤ 0 :=
          div_nonpos_of_nonpos_of_nonneg (by linarith) (le_of_lt hdpos)
        have hq1 : -1 ≤ (r' - g') / diff := by
          rw [le_div_iff₀ hdpos, hdiff, hbmx', hmn']
          linarith
        have hH' : H = h' * 60 := by
          rw [hH, if_neg (not_lt.mpr (by rw [hb']; nlinarith))]
        have hy : H / 60 = (r' - g') / diff + 4 := by rw [hH', hb']; ring
        refine ⟨by rw [hH', hb']; nlinarith, by rw [hH', hb']; nlinarith, ?_, ?_, ?_⟩
        · have hwr : wr (H / 60) = 0 := by
            rw [hy]
            unfold wr
            rw [abs_of_nonneg (by linarith : 0 ≤ (r' - g') / diff + 4 - 3)]
            exact clamp_eq_zero (by linarith)
          rw [hwr, mul_zero, hmn']
          ring
        · have hwg : wg (H / 60) = -((r' - g') / diff) := by
            rw [hy]
            unfold wg
            rw [abs_of_nonneg (by linarith : 0 ≤ (r' - g') / diff + 4 - 2),
              clamp_eq_self (by linarith) (by linarith)]
            ring
          rw [hwg, mul_neg, hcancel, hmn']
          ring
        · have hwb : wb (H / 60) = 1 := by
            rw [hy]
            unfold wb
            rw [abs_of_nonpos (by linarith : (r' - g') / diff + 4 - 4 ≤ 0)]
            exact clamp_eq_one (by linarith)
          rw [hwb, mul_one, hdiff, hbmx', hmn']
          ring
      · have hrg' : g' < r' := not_le.mp hrg
        have hmn' : mn = g' := by
          rw [hmn, min_eq_right (le_trans (min_le_left _ _) (by linarith : g' ≤ r')),
            min_eq_left (by linarith : g' ≤ b')]
        have hq0 : 0 ≤ (r' - g') / diff := div_nonneg (by linarith) (le_of_lt hdpos)
        have hq1 : (r' - g') / diff ≤ 1 := by
          rw [div_le_one hdpos, hdiff, hbmx', hmn']
          linarith
        have hH' : H = h' * 60 := by
          rw [hH, if_neg (not_lt.mpr (by rw [hb']; nlinarith))]
        have hy : H / 60 = (r' - g') / diff + 4 := by rw [hH', hb']; ring
        refine ⟨by rw [hH', hb']; nlinarith, by rw [hH', hb']; nlinarith, ?_, ?_, ?_⟩
        · have hwr : wr (H / 60) = (r' - g') / diff := by
            rw [hy]
            unfold wr
            rw [abs_of_nonneg (by linarith : 0 ≤ (r' - g') / diff + 4 - 3),
              clamp_eq_self (by linarith) (by linarith)]
            ring
          rw [hwr, hcancel, hmn']
          ring
        · have hwg : wg (H / 60) = 0 := by
            rw [hy]
            unfold wg
            rw [abs_of_nonneg (by linarith : 0 ≤ (r' - g') / diff + 4 - 2)]
            exact clamp_eq_zero (by linarith)
          rw [hwg, mul_zero, hmn']
          ring
        · have hwb : wb (H / 60) = 1 := by
            rw [hy]
            unfold wb
            rw [abs_of_nonneg (by linarith : 0 ≤ (r' - g') / diff + 4 - 4)]
            exact clamp_eq_one (by linarith)
          rw [hwb, mul_one, hdiff, hbmx', hmn']
          ring

theorem wr_bounds (y : ℚ) : 0 ≤ wr y ∧ wr y ≤ 1 := clamp01_bounds _

theorem wg_bounds (y : ℚ) : 0 ≤ wg y ∧ wg y ≤ 1 := clamp01_bounds _

theorem wb_bounds (y : ℚ) : 0 ≤ wb y ∧ wb y ≤ 1 := clamp01_bounds _

/-- Perturbation step for the round trip: if the exact (pre-rounding)
weight/chroma/offset reproduce a channel exactly, the perturbed ones
(after the 2-decimal rounding of h, s, l) round back to the same byte. -/
theorem channel_exact (DIFF MN Cx Mx w1 w0 : ℚ) (ch : ℕ) (hch : ch ≤ 255)
    (hCx0 : 0 ≤ Cx) (hCx1 : Cx ≤ 1)
    (hw00 : 0 ≤ w0) (hw01 : w0 ≤ 1)
    (hdC : |Cx - DIFF| ≤ 3/20000) (hdM : |Mx - MN| ≤ 1/8000)
    (hdw : |w1 - w0| ≤ 1/12000)
    (hexact : DIFF * w0 + MN = (ch : ℚ) / 255) :
    pyRound ((Cx * w1 + Mx) * 255) = (ch : ℤ) := by
  have hprod : |Cx * w1 - DIFF * w0| ≤ 1/12000 + 3/20000 :=
    prod_err Cx DIFF w1 w0 (3/20000) (1/12000) hCx0 hCx1 hw00 hw01 hdC hdw
  have htot : |(Cx * w1 + Mx) - (DIFF * w0 + MN)| ≤ 43/120000 := by
    calc |(Cx * w1 + Mx) - (DIFF * w0 + MN)|
        = |(Cx * w1 - DIFF * w0) + (Mx - MN)| := by ring_nf
      _ ≤ |Cx * w1 - DIFF * w0| + |Mx - MN| := abs_add _ _
      _ ≤ (1/12000 + 3/20000) + 1/8000 := add_le_add hprod hdM
      _ = 43/120000 := by norm_num
  have hr255 : (DIFF * w0 + MN) * 255 = (ch : ℚ) := by
    rw [hexact]
    field_simp
  rw [abs_le] at htot
  apply pyRound_eq_of
  · push_cast
    nlinarith [htot.1, htot.2]
  · push_cast
    nlinarith [htot.1, htot.2]

theorem round2_zero : round2 (0 : ℚ) = 0 := by
  rw [round2_eq_of (@pyRound_eq_of ((0:ℚ) * 100) 0 (by norm_num) (by norm_num))]
  norm_num

theorem rgb_to_hsl_achromatic (r g b : ℕ) (L : ℚ)
    (hd : max ((r:ℚ)/255) (max ((g:ℚ)/255) ((b:ℚ)/255)) -
      min ((r:ℚ)/255) (min ((g:ℚ)/255) ((b:ℚ)/255)) = 0)
    (hL : L = (max ((r:ℚ)/255) (max ((g:ℚ)/255) ((b:ℚ)/255)) +
      min ((r:ℚ)/255) (min ((g:ℚ)/255) ((b:ℚ)/255))) / 2) :
    rgb_to_hsl r g b = ⟨0, 0, round2 (L * 100)⟩ := by
  subst hL
  unfold rgb_to_hsl
  dsimp only
  rw [if_pos hd]
  dsimp only
  rw [show ((0:ℚ) * 100) = 0 from by norm_num, round2_zero]

theorem rgb_to_hsl_chromatic (r g b : ℕ) (mx mn diff L S h' H : ℚ)
    (hmx : mx = max ((r:ℚ)/255) (max ((g:ℚ)/255) ((b:ℚ)/255)))
    (hmn : mn = min ((r:ℚ)/255) (min ((g:ℚ)/255) ((b:ℚ)/255)))
    (hdiff : diff = mx - mn) (hd : ¬ diff = 0)
    (hL : L = (mx + mn) / 2)
    (hS : S = diff / (1 - |2 * L - 1|))
    (hh' : h' = if mx = (r:ℚ)/255 then pymod (((g:ℚ)/255 - (b:ℚ)/255) / diff) 6
      else if mx = (g:ℚ)/255 then ((b:ℚ)/255 - (r:ℚ)/255) / diff + 2
      else ((r:ℚ)/255 - (g:ℚ)/255) / diff + 4)
    (hH : H = if h' * 60 < 0 then h' * 60 + 360 else h' * 60) :
    rgb_to_hsl r g b = ⟨round2 H, round2 (S * 100), round2 (L * 100)⟩ := by
  subst hH
  subst hh'
  subst hS
  subst hL
  subst hdiff
  subst hmn
  subst hmx
  unfold rgb_to_hsl
  dsimp only
  rw [if_neg hd]

set_option maxHeartbeats 1000000 in
/-- **C6.** For every 24-bit RGB color (each channel an integer in [0,255]),
converting to HSL with `rgb_to_hsl` and back with `hsl_to_rgb` yields a color
whose r, g and b channels each differ from the original by at most 1 (in fact
the roundtrip is exact, which implies the claimed ±1 bound). -/
theorem C6_rgb_hsl_roundtrip (r g b : ℕ) (hr : r ≤ 255) (hg : g ≤ 255)
    (hb : b ≤ 255) :
    |(hsl_to_rgb (rgb_to_hsl r g b).h (rgb_to_hsl r g b).s
        (rgb_to_hsl r g b).l).r - (r : ℤ)| ≤ 1 ∧
    |(hsl_to_rgb (rgb_to_hsl r g b).h (rgb_to_hsl r g b).s
        (rgb_to_hsl r g b).l).g - (g : ℤ)| ≤ 1 ∧
    |(hsl_to_rgb (rgb_to_hsl r g b).h (rgb_to_hsl r g b).s
        (rgb_to_hsl r g b).l).b - (b : ℤ)| ≤ 1 := by
  have hr1 : ((r : ℚ)/255) ≤ 1 := by
    rw [div_le_one (by norm_num : (0:ℚ) < 255)]; exact_mod_cast hr
  have hg1 : ((g : ℚ)/255) ≤ 1 := by
    rw [div_le_one (by norm_num : (0:ℚ) < 255)]; exact_mod_cast hg
  have hb1 : ((b : ℚ)/255) ≤ 1 := by
    rw [div_le_one (by norm_num : (0:ℚ) < 255)]; exact_mod_cast hb
  have hr0 : (0:ℚ) ≤ (r : ℚ)/255 := by positivity
  have hg0 : (0:ℚ) ≤ (g : ℚ)/255 := by positivity
  have hb0 : (0:ℚ) ≤ (b : ℚ)/255 := by positivity
  set MX : ℚ := max ((r:ℚ)/255) (max ((g:ℚ)/255) ((b:ℚ)/255)) with hMXdef
  set MN : ℚ := min ((r:ℚ)/255) (min ((g:ℚ)/255) ((b:ℚ)/255)) with hMNdef
  set DIFF : ℚ := MX - MN with hDIFFdef
  set L0 : ℚ := (MX + MN) / 2 with hL0def
  set S0 : ℚ := DIFF / (1 - |2 * L0 - 1|) with hS0def
  have hMX1 : MX ≤ 1 := by rw [hMXdef]; exact max_le hr1 (max_le hg1 hb1)
  have hMN0 : (0:ℚ) ≤ MN := by rw [hMNdef]; exact le_min hr0 (le_min hg0 hb0)
  have hMNle : MN ≤ MX := by
    rw [hMXdef, hMNdef]
    exact le_trans (min_le_left _ _) (le_max_left _ _)
  have h2L0 : 2 * L0 = MX + MN := by rw [hL0def]; ring
  by_cases hd : DIFF = 0
  · -- achromatic: all three channels are equal and the roundtrip is exact
    have hMXMN : MX = MN := by
      rw [hDIFFdef] at hd
      linarith [hd]
    have hrch : (r:ℚ)/255 = MX := by
      refine le_antisymm ?_ ?_
      · rw [hMXdef]; exact le_max_left _ _
      · rw [hMXMN, hMNdef]; exact min_le_left _ _
    have hgch : (g:ℚ)/255 = MX := by
      refine le_antisymm ?_ ?_
      · rw [hMXdef]; exact le_max_of_le_right (le_max_left _ _)
      · rw [hMXMN, hMNdef]; exact le_trans (min_le_right _ _) (min_le_left _ _)
    have hbch : (b:ℚ)/255 = MX := by
      refine le_antisymm ?_ ?_
      · rw [hMXdef]; exact le_max_of_le_right (le_max_right _ _)
      · rw [hMXMN, hMNdef]; exact le_trans (min_le_right _ _) (min_le_right _ _)
    have hgr : r = g := by
      have hq : (r:ℚ) = (g:ℚ) := by
        have := hrch.trans hgch.symm
        field_simp at this
        linarith [this]
      exact_mod_cast hq
    have hbr : r = b := by
      have hq : (r:ℚ) = (b:ℚ) := by
        have := hrch.trans hbch.symm
        field_simp at this
        linarith [this]
      exact_mod_cast hq
    subst hgr
    subst hbr
    have hd' : max ((r:ℚ)/255) (max ((r:ℚ)/255) ((r:ℚ)/255)) -
        min ((r:ℚ)/255) (min ((r:ℚ)/255) ((r:ℚ)/255)) = 0 := by
      rw [hDIFFdef, hMXdef, hMNdef] at hd
      exact hd
    have hL0' : L0 = (max ((r:ℚ)/255) (max ((r:ℚ)/255) ((r:ℚ)/255)) +
        min ((r:ℚ)/255) (min ((r:ℚ)/255) ((r:ℚ)/255))) / 2 := by
      rw [hL0def, hMXdef, hMNdef]
    have hconv := rgb_to_hsl_achromatic r r r L0 hd' hL0'
    rw [hconv]
    dsimp only
    set RL : ℚ := round2 (L0 * 100) with hRLdef
    have hL0v : L0 = (r:ℚ)/255 := by
      rw [hL0def, ← hrch, ← hrch.trans hMXMN]
      ring
    have hRL0 : (0:ℚ) ≤ RL := by
      rw [hRLdef]
      exact round2_nonneg (by rw [hL0v]; positivity)
    have hRL100 : RL ≤ (100:ℚ) := by
      rw [hRLdef]
      exact_mod_cast round2_le_int
        (show L0 * 100 ≤ ((100:ℤ):ℚ) by push_cast; rw [hL0v]; linarith [hr1])
    rw [hsl_to_rgb_w_form 0 0 RL
      ((1 - |2 * (RL / 100) - 1|) * ((0:ℚ) / 100))
      (RL / 100 - ((1 - |2 * (RL / 100) - 1|) * ((0:ℚ) / 100)) / 2)
      (le_refl 0) (by norm_num) rfl rfl]
    dsimp only
    have hCe : (1 - |2 * (RL / 100) - 1|) * ((0:ℚ) / 100) = 0 := by norm_num
    rw [hCe]
    have hd1 : |RL - L0 * 100| ≤ 1/200 := by
      rw [hRLdef]; exact round2_sub_le _
    have hL0100 : L0 * 100 = (r:ℚ) * (20/51) := by rw [hL0v]; ring
    have hab := abs_le.mp hd1
    have key : ∀ w : ℚ, pyRound ((0 * w + (RL / 100 - 0 / 2)) * 255) = (r:ℤ) := by
      intro w
      refine pyRound_eq_of ?_ ?_
      · push_cast
        nlinarith [hab.1, hab.2]
      · push_cast
        nlinarith [hab.1, hab.2]
    rw [key (wr ((0:ℚ)/60)), key (wg ((0:ℚ)/60)), key (wb ((0:ℚ)/60))]
    have hclr : max 0 (min 255 ((r:ℕ):ℤ)) = ((r:ℕ):ℤ) := by omega
    rw [hclr]
    refine ⟨by simp, by simp, by simp⟩
  · -- chromatic: the w-profile inversion makes the roundtrip exact
    set Hp : ℚ := (if MX = (r:ℚ)/255 then pymod (((g:ℚ)/255 - (b:ℚ)/255) / DIFF) 6
      else if MX = (g:ℚ)/255 then ((b:ℚ)/255 - (r:ℚ)/255) / DIFF + 2
      else ((r:ℚ)/255 - (g:ℚ)/255) / DIFF + 4) with hHpdef
    set H : ℚ := (if Hp * 60 < 0 then Hp * 60 + 360 else Hp * 60) with hHdef
    obtain ⟨hH0, hH360, heqr, heqg, heqb⟩ :=
      w_inversion ((r:ℚ)/255) ((g:ℚ)/255) ((b:ℚ)/255) MX MN DIFF Hp H
        hMXdef hMNdef hDIFFdef hd hHpdef hHdef
    have hconv := rgb_to_hsl_chromatic r g b MX MN DIFF L0 S0 Hp H
      hMXdef hMNdef hDIFFdef hd hL0def hS0def hHpdef hHdef
    rw [hconv]
    dsimp only
    set RH : ℚ := round2 H with hRHdef
    set RS : ℚ := round2 (S0 * 100) with hRSdef
    set RL : ℚ := round2 (L0 * 100) with hRLdef
    have hlt : MN < MX := by
      refine lt_of_le_of_ne hMNle ?_
      intro he
      exact hd (by rw [hDIFFdef, he, sub_self])
    have hMN1 : MN ≤ 1 := le_trans hMNle hMX1
    have hA0pos : (0:ℚ) < 1 - |2 * L0 - 1| := by
      have h1 : (0:ℚ) < MX + MN := by linarith [hMN0, hlt]
      have h2 : MX + MN < 2 := by linarith [hMX1, hlt, hMN1]
      have habs : |2 * L0 - 1| < 1 :=
        abs_lt.mpr ⟨by linarith [h2L0], by linarith [h2L0]⟩
      linarith [habs]
    have hDIFFpos : (0:ℚ) < DIFF := by rw [hDIFFdef]; linarith [hlt]
    have hS00 : (0:ℚ) ≤ S0 := by
      rw [hS0def]
      exact div_nonneg (le_of_lt hDIFFpos) (le_of_lt hA0pos)
    have hS01 : S0 ≤ 1 := by
      rw [hS0def, div_le_one hA0pos]
      rcases abs_cases (2 * L0 - 1) with ⟨heq, hsg⟩ | ⟨heq, hsg⟩ <;>
        rw [heq, hDIFFdef] <;> linarith [h2L0, hMX1, hMN0]
    have hL00 : (0:ℚ) ≤ L0 := by
      have hMX0 : (0:ℚ) ≤ MX := le_trans hMN0 hMNle
      linarith [h2L0, hMN0, hMX0]
    have hL01 : L0 ≤ 1 := by linarith [h2L0, hMX1, hMN1]
    have hA0S0 : (1 - |2 * L0 - 1|) * S0 = DIFF := by
      rw [hS0def, mul_comm]
      exact div_mul_cancel₀ _ (ne_of_gt hA0pos)
    have hMNid : L0 - DIFF / 2 = MN := by rw [hL0def, hDIFFdef]; ring
    have hRH0 : (0:ℚ) ≤ RH := by rw [hRHdef]; exact round2_nonneg hH0
    have hRH360 : RH ≤ (360:ℚ) := by
      rw [hRHdef]
      exact_mod_cast round2_le_int
        (show H ≤ ((360:ℤ):ℚ) by push_cast; linarith [hH360])
    have hRS0 : (0:ℚ) ≤ RS := by
      rw [hRSdef]
      exact round2_nonneg (by nlinarith [hS00])
    have hRS100 : RS ≤ (100:ℚ) := by
      rw [hRSdef]
      exact_mod_cast round2_le_int
        (show S0 * 100 ≤ ((100:ℤ):ℚ) by push_cast; nlinarith [hS01])
    have hRL0 : (0:ℚ) ≤ RL := by
      rw [hRLdef]
      exact round2_nonneg (by nlinarith [hL00])
    have hRL100 : RL ≤ (100:ℚ) := by
      rw [hRLdef]
      exact_mod_cast round2_le_int
        (show L0 * 100 ≤ ((100:ℤ):ℚ) by push_cast; nlinarith [hL01])
    have hdH : |RH - H| ≤ 1/200 := by rw [hRHdef]; exact round2_sub_le _
    have hdS : |RS - S0 * 100| ≤ 1/200 := by rw [hRSdef]; exact round2_sub_le _
    have hdL : |RL - L0 * 100| ≤ 1/200 := by rw [hRLdef]; exact round2_sub_le _
    rw [hsl_to_rgb_w_form RH RS RL
      ((1 - |2 * (RL / 100) - 1|) * (RS / 100))
      (RL / 100 - ((1 - |2 * (RL / 100) - 1|) * (RS / 100)) / 2)
      hRH0 hRH360 rfl rfl]
    dsimp only
    set Cx : ℚ := (1 - |2 * (RL / 100) - 1|) * (RS / 100) with hCxdef
    set Mx : ℚ := RL / 100 - Cx / 2 with hMxdef
    have hcsm := csm_facts RS RL hRS0 hRS100 hRL0 hRL100
    rw [← hCxdef] at hcsm
    obtain ⟨hCx0, hCx1, hMx0, hCM1⟩ := hcsm
    have habsRL : |2 * (RL / 100) - 1| ≤ 1 :=
      abs_le.mpr ⟨by linarith [hRL0, hRL100], by linarith [hRL0, hRL100]⟩
    have hA10 : (0:ℚ) ≤ 1 - |2 * (RL / 100) - 1| := by linarith [habsRL]
    have hA11 : 1 - |2 * (RL / 100) - 1| ≤ 1 := by
      linarith [abs_nonneg (2 * (RL / 100) - 1)]
    have hdA : |(1 - |2 * (RL / 100) - 1|) - (1 - |2 * L0 - 1|)| ≤ 1/10000 := by
      have h1 : (1 - |2 * (RL / 100) - 1|) - (1 - |2 * L0 - 1|) =
          |2 * L0 - 1| - |2 * (RL / 100) - 1| := by ring
      rw [h1]
      refine le_trans (abs_abs_sub_abs_le_abs_sub _ _) ?_
      have h3 : (2 * L0 - 1) - (2 * (RL / 100) - 1) = (L0 * 100 - RL) * (1/50) := by
        ring
      rw [h3, abs_mul, abs_of_pos (show (0:ℚ) < 1/50 from by norm_num),
        abs_sub_comm]
      linarith [hdL]
    have hdB : |RS / 100 - S0| ≤ 1/20000 := by
      rw [show RS / 100 - S0 = (RS - S0 * 100) * (1/100) from by ring, abs_mul,
        abs_of_pos (show (0:ℚ) < 1/100 from by norm_num)]
      linarith [hdS]
    have hdC : |Cx - DIFF| ≤ 3/20000 := by
      have hp := prod_err (1 - |2 * (RL / 100) - 1|) (1 - |2 * L0 - 1|)
        (RS / 100) S0 (1/10000) (1/20000) hA10 hA11 hS00 hS01 hdA hdB
      rw [← hCxdef, hA0S0] at hp
      linarith [hp]
    have hdM : |Mx - MN| ≤ 1/8000 := by
      have h1 : Mx - MN = (RL / 100 - L0) + (-((Cx - DIFF) / 2)) := by
        rw [hMxdef, ← hMNid]; ring
      rw [h1]
      refine le_trans (abs_add _ _) ?_
      rw [abs_neg]
      have h2 : |(Cx - DIFF) / 2| = |Cx - DIFF| / 2 := by rw [abs_div, abs_two]
      have h3 : |RL / 100 - L0| = |RL - L0 * 100| * (1/100) := by
        rw [show RL / 100 - L0 = (RL - L0 * 100) * (1/100) from by ring, abs_mul,
          abs_of_pos (show (0:ℚ) < 1/100 from by norm_num)]
      rw [h2, h3]
      linarith [hdL, hdC]
    have hdw60 : |RH / 60 - H / 60| ≤ 1/12000 := by
      rw [show RH / 60 - H / 60 = (RH - H) * (1/60) from by ring, abs_mul,
        abs_of_pos (show (0:ℚ) < 1/60 from by norm_num)]
      linarith [hdH]
    have hdwr : |wr (RH / 60) - wr (H / 60)| ≤ 1/12000 :=
      le_trans (wr_lipschitz _ _) hdw60
    have hdwg : |wg (RH / 60) - wg (H / 60)| ≤ 1/12000 :=
      le_trans (wg_lipschitz _ _) hdw60
    have hdwb : |wb (RH / 60) - wb (H / 60)| ≤ 1/12000 :=
      le_trans (wb_lipschitz _ _) hdw60
    have hchr := channel_exact DIFF MN Cx Mx (wr (RH / 60)) (wr (H / 60)) r hr
      hCx0 hCx1 (wr_bounds (H / 60)).1 (wr_bounds (H / 60)).2 hdC hdM hdwr heqr
    have hchg := channel_exact DIFF MN Cx Mx (wg (RH / 60)) (wg (H / 60)) g hg
      hCx0 hCx1 (wg_bounds (H / 60)).1 (wg_bounds (H / 60)).2 hdC hdM hdwg heqg
    have hchb := channel_exact DIFF MN Cx Mx (wb (RH / 60)) (wb (H / 60)) b hb
      hCx0 hCx1 (wb_bounds (H / 60)).1 (wb_bounds (H / 60)).2 hdC hdM hdwb heqb
    rw [hchr, hchg, hchb]
    have hclr : max 0 (min 255 ((r:ℕ):ℤ)) = ((r:ℕ):ℤ) := by omega
    have hclg : max 0 (min 255 ((g:ℕ):ℤ)) = ((g:ℕ):ℤ) := by omega
    have hclb : max 0 (min 255 ((b:ℕ):ℤ)) = ((b:ℕ):ℤ) := by omega
    rw [hclr, hclg, hclb]
    refine ⟨by simp, by simp, by simp⟩

theorem C6_rgb_hsl_roundtrip_witness :
    |(hsl_to_rgb (rgb_to_hsl 61 174 233).h (rgb_to_hsl 61 174 233).s
        (rgb_to_hsl 61 174 233).l).r - ((61:ℕ):ℤ)| ≤ 1 ∧
    |(hsl_to_rgb (rgb_to_hsl 61 174 233).h (rgb_to_hsl 61 174 233).s
        (rgb_to_hsl 61 174 233).l).g - ((174:ℕ):ℤ)| ≤ 1 ∧
    |(hsl_to_rgb (rgb_to_hsl 61 174 233).h (rgb_to_hsl 61 174 233).s
        (rgb_to_hsl 61 174 233).l).b - ((233:ℕ):ℤ)| ≤ 1 :=
  C6_rgb_hsl_roundtrip 61 174 233 (by norm_num) (by norm_num) (by norm_num)

end Kuntatinte

